import Mathlib

/-!
Verification development for the pynoddy history-file document model
(src/history.py, class NoddyHistory and the module-level helpers).

The Python code is shallowly embedded: Python strings become lists of
characters (`Line`), Python floats become exact rationals, Python dicts
become association lists, and every fallible operation returns
`Except PyErr`.  Each embedded definition mirrors one function of the
source file; deviations (for code that lives in the missing events.py
module) are marked `Modelled from the spec:` in their doc comments.
-/

set_option linter.unusedVariables false

/-- A Python string, modelled as its list of characters. -/
abbrev Line := List Char

/-- Coerce a Lean string literal to the `Line` representation. -/
def S (s : String) : Line := s.data

/-- Python exception kinds that the embedded operations can surface. -/
inductive PyErr where
  | keyError
  | indexError
  | valueError
  | typeError
  | unboundLocalError
  | attributeError
  | nameError
deriving DecidableEq, Repr

/-- Characters treated as whitespace by Python `str.strip` / `int()` / `float()`. -/
def isPySpace (c : Char) : Bool :=
  c = ' ' || c = '\t' || c = '\n' || c = '\r' || c = '\x0b' || c = '\x0c'

/-- Python `str.lstrip()`. -/
def pyStripL (l : Line) : Line := l.dropWhile isPySpace

/-- Python `str.rstrip()`. -/
def pyStripR (l : Line) : Line := (l.reverse.dropWhile isPySpace).reverse

/-- Python `str.strip()`. -/
def pyStrip (l : Line) : Line := pyStripL (pyStripR l)

/-- Python `str.split(sep)` for a one-character separator (the source only
splits on `"="` and `"\n"`). -/
def splitChar (c : Char) : Line → List Line
  | [] => [[]]
  | a :: rest =>
    if a = c then [] :: splitChar c rest
    else
      match splitChar c rest with
      | [] => [[a]]
      | p :: ps => (a :: p) :: ps

/-- Python `needle in hay` on strings (substring containment). -/
def containsSub (needle hay : Line) : Bool := decide (needle <:+: hay)

/-- Decimal digit character for a digit value. -/
def digitChar (d : Nat) : Char :=
  if d = 0 then '0' else if d = 1 then '1' else if d = 2 then '2' else if d = 3 then '3'
  else if d = 4 then '4' else if d = 5 then '5' else if d = 6 then '6' else if d = 7 then '7'
  else if d = 8 then '8' else '9'

/-- Numeric value of a decimal digit character. -/
def charVal (c : Char) : Nat := c.toNat - 48

/-- Test for a decimal digit character. -/
def isDigitChar (c : Char) : Bool := '0' ≤ c && c ≤ '9'

/-- Little-endian decimal digits of a positive number, with explicit fuel so
that the definition is structural (and kernel-reducible). -/
def digitsRevAux : Nat → Nat → List Nat
  | 0, _ => []
  | _ + 1, 0 => []
  | fuel + 1, n + 1 => ((n + 1) % 10) :: digitsRevAux fuel ((n + 1) / 10)

/-- Decimal digit string of a natural number, as produced by Python `"%d" % n`. -/
def natDigits (n : Nat) : Line :=
  if n = 0 then ['0'] else ((digitsRevAux n n).map digitChar).reverse

/-- Decimal digit string of an integer, as produced by Python `"%d" % i`. -/
def intStr (i : Int) : Line :=
  if i < 0 then '-' :: natDigits (-i).toNat else natDigits i.toNat

/-- Value of a big-endian list of digit values. -/
def valBE (l : List Nat) : Nat := l.foldl (fun a d => 10 * a + d) 0

/-- Parse a non-empty all-digit string into a natural number. -/
def parseDigits (l : Line) : Option Nat :=
  if l.isEmpty then none
  else if l.all isDigitChar then some (valBE (l.map charVal))
  else none

/-- Sign handling of Python `int(s)` after stripping. -/
def pyIntCore : Line → Option Int
  | [] => none
  | c :: rest =>
    if c = '-' then (parseDigits rest).map (fun n => -(n : Int))
    else if c = '+' then (parseDigits rest).map (fun n => (n : Int))
    else (parseDigits (c :: rest)).map (fun n => (n : Int))

/-- Python `int(s)` (whitespace-tolerant, optional sign, decimal digits). -/
def pyInt (l : Line) : Option Int := pyIntCore (pyStrip l)

/-- Rational value of a fixed-point decimal with integer part `ip`,
fraction digits worth `fp`, and `k` fraction places. -/
def mkRatDec (ip fp k : Nat) : ℚ := (ip : ℚ) + (fp : ℚ) / 10 ^ k

/-- Case split of Python `float(s)` on the integer-digit part and the rest. -/
def pyFloatParts (ipart rest : Line) : Option ℚ :=
  match rest with
  | [] => if ipart.isEmpty then none else some ((valBE (ipart.map charVal) : ℚ))
  | c :: frac =>
    if c = '.' then
      if frac.all isDigitChar && !(ipart.isEmpty && frac.isEmpty) then
        some (mkRatDec (valBE (ipart.map charVal)) (valBE (frac.map charVal)) frac.length)
      else none
    else none

/-- Digits-and-dot part of Python `float(s)`.  The source only ever parses
fixed-point decimals (`"5000.00"`, `" 50.00"`, ...), so the modelled subset
has no exponent notation. -/
def pyFloatCore (l : Line) : Option ℚ :=
  pyFloatParts (l.takeWhile isDigitChar) (l.drop (l.takeWhile isDigitChar).length)

/-- Sign handling of Python `float(s)` after stripping. -/
def pyFloatSigned : Line → Option ℚ
  | [] => none
  | c :: rest =>
    if c = '-' then (pyFloatCore rest).map (fun q => -q)
    else if c = '+' then pyFloatCore rest
    else pyFloatCore (c :: rest)

/-- Python `float(s)` on the fixed-point decimal subset used by the source. -/
def pyFloat (l : Line) : Option ℚ := pyFloatSigned (pyStrip l)

/-- Round to the nearest integer, ties to even: the rounding applied by
Python `%`-formatting of exactly representable values. -/
def roundHalfEven (q : ℚ) : Int :=
  if q - (⌊q⌋ : ℚ) < 1/2 then ⌊q⌋
  else if 1/2 < q - (⌊q⌋ : ℚ) then ⌊q⌋ + 1
  else if ⌊q⌋ % 2 = 0 then ⌊q⌋ else ⌊q⌋ + 1

/-- Left-pad a digit string with zeros to width `k`. -/
def zeroPad (k : Nat) (ds : Line) : Line := List.replicate (k - ds.length) '0' ++ ds

/-- Fixed-point rendering of a scaled non-negative value: `n / 10^prec`
with exactly `prec` fraction digits. -/
def fmtFixedNN (prec n : Nat) : Line :=
  natDigits (n / 10 ^ prec) ++ '.' :: zeroPad prec (natDigits (n % 10 ^ prec))

/-- Python `"%.<prec>f" % q` (for `prec ≥ 1`, the only uses in the source). -/
def fmtFixed (prec : Nat) (q : ℚ) : Line :=
  if q < 0 then '-' :: fmtFixedNN prec (roundHalfEven (-q * 10 ^ prec)).toNat
  else fmtFixedNN prec (roundHalfEven (q * 10 ^ prec)).toNat

/-- Left-pad with spaces to total width `w` (Python `"%7.2f"`-style width). -/
def padWidth (w : Nat) (l : Line) : Line := List.replicate (w - l.length) ' ' ++ l

/-- Python slice index normalisation for `l[a:b]`. -/
def pyIdxNorm (len : Nat) (i : Int) : Nat :=
  if i < 0 then (i + len).toNat else min i.toNat len

/-- Python `l[a:b]`. -/
def pySlice {α : Type} (l : List α) (a b : Int) : List α :=
  (l.take (pyIdxNorm l.length b)).drop (pyIdxNorm l.length a)

/-- Python `l[i]` (supports negative indices; `none` is an `IndexError`). -/
def pyListGet {α : Type} (l : List α) (i : Int) : Option α :=
  if i < 0 then
    if i + l.length < 0 then none else l.get? (i + l.length).toNat
  else l.get? i.toNat

/-- Python `l[i] = v` for an index at which `pyListGet` succeeds. -/
def pyListSet {α : Type} (l : List α) (i : Int) (v : α) : List α :=
  if i < 0 then l.set (i + l.length).toNat v else l.set i.toNat v

/-- Python `d[k]` on a dict modelled as an insertion-ordered association list. -/
def pyDictGet {κ ν : Type} [DecidableEq κ] (k : κ) (l : List (κ × ν)) : Option ν :=
  (l.find? (fun p => decide (p.1 = k))).map (·.2)

/-- Python `d[k] = v`: replace in place if the key exists, else append. -/
def pyDictSet {κ ν : Type} [DecidableEq κ] (k : κ) (v : ν) (l : List (κ × ν)) : List (κ × ν) :=
  if l.any (fun p => decide (p.1 = k)) then
    l.map (fun p => if p.1 = k then (k, v) else p)
  else l ++ [(k, v)]

/-- Iteration core of Python `s.replace(pat, repl)`; the fuel is the length
of the scanned string (each step consumes at least one character for the
non-empty patterns the source uses). -/
def pyReplaceAux (pat repl : Line) : Nat → Line → Line
  | 0, l => l
  | _ + 1, [] => []
  | fuel + 1, c :: rest =>
    if pat.isPrefixOf (c :: rest) then
      repl ++ pyReplaceAux pat repl fuel ((c :: rest).drop pat.length)
    else c :: pyReplaceAux pat repl fuel rest

/-- Python `s.replace(pat, repl)` (every occurrence, left to right). -/
def pyReplace (l pat repl : Line) : Line := pyReplaceAux pat repl l.length l

/-- A Python value as it appears in the event dictionaries of the source
(`event_options`, `properties`, `params_dict`, ...). -/
inductive PyVal where
  | int (i : Int)
  | float (q : ℚ)
  | str (s : Line)
  | tup (l : List PyVal)
  | list (l : List PyVal)
  | dict (entries : List (Line × PyVal))

/-- A Python dict key that is either an int or a string (the sub-keys of
`set_event_params` / `change_event_params`). -/
inductive PKey where
  | int (i : Int)
  | str (s : Line)
deriving DecidableEq, Repr

/-- Modelled from the spec: a stratigraphic layer sub-record of events.py
(not under src/), carrying its own property mapping. -/
structure Layer where
  properties : List (Line × PyVal)

/-- Modelled from the spec: an event record of events.py (not under src/).
The raw line span is kept verbatim (`event_lines`); `event_number` is the
embedded Event-number field that `set_event_number` keeps in sync with the
order key; `properties` and `layers` are the decoded mappings. -/
structure Event where
  event_type : Line
  event_lines : List Line
  event_number : Int
  properties : List (PKey × PyVal)
  layers : List Layer
  num_layers : Int := 0

/-- State of a `NoddyHistory` object.  `filename`, `n_events` and
`event_counter` are `Option`s because the corresponding Python attributes
only exist after particular calls (`hasattr` checks in the source);
`footer_lines` is an `Option` because a freshly created history has no
footer until `create_footer_from_template` runs. -/
structure NoddyHistory where
  history_lines : List Line
  events : List (Int × Event)
  footer_lines : Option (List Line)
  filename : Option Line
  n_events : Option Int
  event_counter : Option Int
  all_events_begin : Int
  all_events_end : Int
  zmax : Option ℚ := none

/-- Modelled from the spec: events.py `set_event_number` rewrites the
embedded event-number field of the record. -/
def setEventNumber (n : Int) (ev : Event) : Event := { ev with event_number := n }

/-- Modelled from the spec: events.py property decoding extracts every
`label = value` line into the property mapping, trimming whitespace around
the label, keeping the first occurrence of a duplicated label. -/
def lineProp (l : Line) : Option (PKey × PyVal) :=
  match splitChar '=' l with
  | [k, v] =>
    some (PKey.str (pyStrip k),
      match pyFloat v with
      | some q => PyVal.float q
      | none => PyVal.str (pyStrip v))
  | _ => none

/-- Modelled from the spec: decode the property lines of an event span
(first occurrence of each label wins). -/
def extractProps (ls : List Line) : List (PKey × PyVal) :=
  ls.foldl
    (fun acc l =>
      match lineProp l with
      | some kv => if (pyDictGet kv.1 acc).isSome then acc else acc ++ [kv]
      | none => acc)
    []

/-- Modelled from the spec: constructing a typed event record from its
declared type tag and verbatim line span (events.py is not under src/).
Layer grouping is not modelled: no claim exercises decoded layers. -/
def decodeEvent (tag : Line) (ls : List Line) : Event :=
  { event_type := tag
    event_lines := ls
    event_number := (pyInt (pySlice ls.headI 7 9)).getD 0
    properties := extractProps ls
    layers := [] }

/-- Anchor label of the geology cube-size footer line. -/
def geologyAnchor : Line := S "Geology Cube Size"

/-- Anchor label of the geophysics cube-size footer line. -/
def geophysicsAnchor : Line := S "Geophysics Cube Size"

/-- NoddyHistory.get_cube_size (src/history.py lines 389-409): scan the
footer for the requested cube-size anchor and parse the value after `=`.
Falling off the loop without a match returns Python `None`. -/
def cubeAnchorFor (simType : Line) : Line :=
  if containsSub (S "Geology") simType then geologyAnchor else geophysicsAnchor

def get_cube_size (simType : Line) (footer : List Line) : Except PyErr (Option ℚ) :=
  match footer.find? (fun line => containsSub (cubeAnchorFor simType) line) with
  | none => .ok none
  | some line =>
    match (splitChar '=' line).get? 1 with
    | none => .error .indexError
    | some part =>
      match pyFloat (pyStripR part) with
      | none => .error .valueError
      | some q => .ok (some q)

/-- Rewrite of one cube-size line by NoddyHistory.change_cube_size:
`line.split('=')[0] + "=" + '%7.2f\r\n' % cube_size`. -/
def changeCubeRewrite (v : ℚ) (line : Line) : Line :=
  (splitChar '=' line).headI ++ '=' :: (padWidth 7 (fmtFixed 2 v) ++ S "\r\n")

/-- NoddyHistory.change_cube_size (src/history.py lines 419-445): rewrite
both the geophysics and the geology cube-size lines of the footer to the
same formatted value.  (The `hasattr` footer check of the source is not
modelled: every modelled state that reaches this operation carries footer
lines.) -/
def changeCubeLine (v : ℚ) (line : Line) : Line :=
  let l1 := if containsSub geophysicsAnchor line then changeCubeRewrite v line else line
  if containsSub geologyAnchor line then changeCubeRewrite v line else l1

def change_cube_size (v : ℚ) (footer : List Line) : List Line :=
  footer.map (changeCubeLine v)

/-- Anchor of the event-count declaration line. -/
def noOfEventsAnchor : Line := S "No of Events"

/-- Anchor of an event header line. -/
def eventHashAnchor : Line := S "Event #"

/-- Anchor tested by determine_events for the footer start. -/
def blockOptionsAnchor : Line := S "BlockOptions"

/-- Anchor tested by get_footer_lines for the footer start. -/
def hashBlockOptionsAnchor : Line := S "#BlockOptions"

/-- Raw event record collected by the first pass of determine_events
(type tag, declared number, start line index). -/
structure RawEvent0 where
  type : Line
  num : Int
  line_start : Nat
deriving Repr

/-- Raw event record after the end-boundary assignment pass. -/
structure RawEvent where
  type : Line
  num : Int
  line_start : Nat
  line_end : Int
deriving Repr

instance : Inhabited RawEvent := ⟨⟨[], 0, 0, 0⟩⟩

/-- Accumulator of the first pass of determine_events. -/
structure ScanState where
  n_events : Option Int
  raws : List RawEvent0
  last_stop : Option Int

/-- One iteration of the first pass of determine_events
(src/history.py lines 327-335): an `elif` chain keyed on the three anchors. -/
def scanLine (i : Nat) (line : Line) (st : ScanState) : Except PyErr ScanState :=
  if containsSub noOfEventsAnchor line then
    match (splitChar '=' line).get? 1 with
    | none => .error .indexError
    | some part =>
      match pyInt part with
      | none => .error .valueError
      | some n => .ok { st with n_events := some n }
  else if containsSub eventHashAnchor line then
    match (splitChar '=' line).get? 1 with
    | none => .error .indexError
    | some part =>
      match pyInt (pySlice line 7 9) with
      | none => .error .valueError
      | some num => .ok { st with raws := st.raws ++ [⟨pyStripR part, num, i⟩] }
  else if containsSub blockOptionsAnchor line then
    .ok { st with last_stop := some ((i : Int) - 2) }
  else .ok st

/-- First pass of determine_events over the numbered line sequence. -/
def scanLines (i : Nat) (lines : List Line) (st : ScanState) : Except PyErr ScanState :=
  match lines with
  | [] => .ok st
  | l :: rest => do scanLines (i + 1) rest (← scanLine i l st)

/-- End-boundary assignment of determine_events (src/history.py lines
337-340): every event but the last ends one line before its successor
starts; the last ends at `last_event_stop`. -/
def assignEnds (stop : Int) : List RawEvent0 → List RawEvent
  | [] => []
  | [r] => [⟨r.type, r.num, r.line_start, stop⟩]
  | r :: r2 :: rest =>
    ⟨r.type, r.num, r.line_start, (r2.line_start : Int) - 1⟩ :: assignEnds stop (r2 :: rest)

/-- Type dispatch of determine_events (src/history.py lines 354-375): the
`elif` chain of substring tests; `none` is the unsupported-type case that
drops the event with a warning. -/
def eventTypeTag (ty : Line) : Option Line :=
  if containsSub (S "FAULT") ty then some (S "FAULT")
  else if containsSub (S "SHEAR_ZONE") ty then some (S "SHEAR_ZONE")
  else if containsSub (S "FOLD") ty then some (S "FOLD")
  else if containsSub (S "UNCONFORMITY") ty then some (S "UNCONFORMITY")
  else if containsSub (S "STRATIGRAPHY") ty then some (S "STRATIGRAPHY")
  else if containsSub (S "TILT") ty then some (S "TILT")
  else if containsSub (S "DYKE") ty then some (S "DYKE")
  else if containsSub (S "PLUG") ty then some (S "PLUG")
  else if containsSub (S "STRAIN") ty then some (S "STRAIN")
  else none

/-- Event-object construction loop of determine_events (src/history.py
lines 348-378): slice each raw span out of the line sequence, decode it if
the type is supported, and key the record by its declared number. -/
def buildEvents (lines : List Line) (raws : List RawEvent) : List (Int × Event) :=
  raws.foldl
    (fun acc r =>
      let event_lines := pySlice lines (r.line_start : Int) (r.line_end + 1)
      match eventTypeTag r.type with
      | some tag => pyDictSet r.num (decodeEvent tag event_lines) acc
      | none => acc)
    []

/-- Result of determine_events. -/
structure ParsedEvents where
  n_events : Option Int
  raws : List RawEvent
  events : List (Int × Event)
  all_events_begin : Int
  all_events_end : Int

/-- NoddyHistory.determine_events (src/history.py lines 313-382).  A
missing footer marker leaves `last_event_stop` unbound
(`UnboundLocalError`); an empty raw-event list makes `_raw_events[-1]`
fail (`IndexError`); both fire before `self.events` is assigned, so no
partial model escapes. -/
def determine_events (lines : List Line) : Except PyErr ParsedEvents := do
  let st ← scanLines 0 lines ⟨none, [], none⟩
  match st.last_stop with
  | none => .error .unboundLocalError
  | some stop =>
    match st.raws with
    | [] => .error .indexError
    | r0 :: _ =>
      let raws := assignEnds stop st.raws
      .ok { n_events := st.n_events
            raws := raws
            events := buildEvents lines raws
            all_events_begin := (r0.line_start : Int)
            all_events_end := (raws.getLastD default).line_end }

/-- NoddyHistory.get_footer_lines (src/history.py lines 447-455): the tail
of the line sequence from the first `#BlockOptions` line on; without a
match the loop variable is left at the last index, and an empty sequence
leaves it unbound. -/
def get_footer_lines (lines : List Line) : Except PyErr (List Line) :=
  match lines with
  | [] => .error .unboundLocalError
  | _ =>
    let i := if lines.any (fun l => containsSub hashBlockOptionsAnchor l) then
        lines.findIdx (fun l => containsSub hashBlockOptionsAnchor l)
      else lines.length - 1
    .ok (lines.drop i)

/-- The load path of NoddyHistory.__init__ with a history argument:
load_history (src/history.py lines 254-264) followed by determine_events.
Attributes never assigned on this path (`filename`, `event_counter`) stay
absent. -/
def parseDoc (lines : List Line) : Except PyErr NoddyHistory := do
  let footer ← get_footer_lines lines
  let pe ← determine_events lines
  .ok { history_lines := lines
        events := pe.events
        footer_lines := some footer
        filename := none
        n_events := pe.n_events
        event_counter := none
        all_events_begin := pe.all_events_begin
        all_events_end := pe.all_events_end }

/-! Text templates of class _Templates (src/history.py lines 1278-2488), kept byte-for-byte. -/

def stratiLayerTemplate : String :=
  "    Unit Name    = $NAME$\n"
  ++ "    Height    = $HEIGHT$\n"
  ++ "    Apply Alterations    = ON\n"
  ++ "    Density    = $DENSITY$\n"
  ++ "    Anisotropic Field    = 0\n"
  ++ "    MagSusX    = 1.60e-003\n"
  ++ "    MagSusY    = 1.60e-003\n"
  ++ "    MagSusZ    = 1.60e-003\n"
  ++ "    MagSus Dip    = 9.00e+001\n"
  ++ "    MagSus DipDir    = 9.00e+001\n"
  ++ "    MagSus Pitch    = 0.00e+000\n"
  ++ "    Remanent Magnetization    = 0\n"
  ++ "    Inclination    =  30.00\n"
  ++ "    Angle with the Magn. North    =  30.00\n"
  ++ "    Strength    = 1.60e-003\n"
  ++ "    Color Name    = Color 92\n"
  ++ "    Red    = 0\n"
  ++ "    Green    = 153\n"
  ++ "    Blue    = 48 "

def faultTemplate : String :=
  "    Geometry    = $GEOMETRY$\n"
  ++ "    Movement    = $MOVEMENT$\n"
  ++ "    X    = $POS_X$\n"
  ++ "    Y    = $POS_Y$\n"
  ++ "    Z    =   $POS_Z$\n"
  ++ "    Dip Direction    =  $DIP_DIR$\n"
  ++ "    Dip    =  $DIP$\n"
  ++ "    Pitch    =  90.00\n"
  ++ "    Slip    = $SLIP$\n"
  ++ "    Rotation    = $ROTATION$\n"
  ++ "    Amplitude    = $AMPLITUDE$\n"
  ++ "    Radius    = $RADIUS$\n"
  ++ "    XAxis    = $XAXIS$\n"
  ++ "    YAxis    = $YAXIS$\n"
  ++ "    ZAxis    = $ZAXIS$\n"
  ++ "    Cyl Index    =   0.00\n"
  ++ "    Profile Pitch    =  90.00\n"
  ++ "    Color Name    = Custom Colour 8\n"
  ++ "    Red    = 0\n"
  ++ "    Green    = 0\n"
  ++ "    Blue    = 254\n"
  ++ "    Fourier Series\n"
  ++ "        Term A 0    =   0.00\n"
  ++ "        Term B 0    =   0.00\n"
  ++ "        Term A 1    =   0.00\n"
  ++ "        Term B 1    =   1.00\n"
  ++ "        Term A 2    =   0.00\n"
  ++ "        Term B 2    =   0.00\n"
  ++ "        Term A 3    =   0.00\n"
  ++ "        Term B 3    =   0.00\n"
  ++ "        Term A 4    =   0.00\n"
  ++ "        Term B 4    =   0.00\n"
  ++ "        Term A 5    =   0.00\n"
  ++ "        Term B 5    =   0.00\n"
  ++ "        Term A 6    =   0.00\n"
  ++ "        Term B 6    =   0.00\n"
  ++ "        Term A 7    =   0.00\n"
  ++ "        Term B 7    =   0.00\n"
  ++ "        Term A 8    =   0.00\n"
  ++ "        Term B 8    =   0.00\n"
  ++ "        Term A 9    =   0.00\n"
  ++ "        Term B 9    =   0.00\n"
  ++ "        Term A 10    =   0.00\n"
  ++ "        Term B 10    =   0.00\n"
  ++ "    Name    = Fault Plane\n"
  ++ "    Type    = 1\n"
  ++ "    Join Type     = LINES\n"
  ++ "    Graph Length    = 200.000000\n"
  ++ "    Min X    = 0.000000\n"
  ++ "    Max X    = 6.280000\n"
  ++ "    Min Y Scale    = -1.000000\n"
  ++ "    Max Y Scale    = 1.000000\n"
  ++ "    Scale Origin    = 0.000000\n"
  ++ "    Min Y Replace    = -1.000000\n"
  ++ "    Max Y Replace    = 1.000000\n"
  ++ "    Num Points    = 21\n"
  ++ "        Point X    = 0\n"
  ++ "        Point Y    = 0\n"
  ++ "        Point X    = 31\n"
  ++ "        Point Y    = 30\n"
  ++ "        Point X    = 62\n"
  ++ "        Point Y    = 58\n"
  ++ "        Point X    = 94\n"
  ++ "        Point Y    = 80\n"
  ++ "        Point X    = 125\n"
  ++ "        Point Y    = 94\n"
  ++ "        Point X    = 157\n"
  ++ "        Point Y    = 99\n"
  ++ "        Point X    = 188\n"
  ++ "        Point Y    = 95\n"
  ++ "        Point X    = 219\n"
  ++ "        Point Y    = 81\n"
  ++ "        Point X    = 251\n"
  ++ "        Point Y    = 58\n"
  ++ "        Point X    = 282\n"
  ++ "        Point Y    = 31\n"
  ++ "        Point X    = 314\n"
  ++ "        Point Y    = 0\n"
  ++ "        Point X    = 345\n"
  ++ "        Point Y    = -31\n"
  ++ "        Point X    = 376\n"
  ++ "        Point Y    = -59\n"
  ++ "        Point X    = 408\n"
  ++ "        Point Y    = -81\n"
  ++ "        Point X    = 439\n"
  ++ "        Point Y    = -95\n"
  ++ "        Point X    = 471\n"
  ++ "        Point Y    = -100\n"
  ++ "        Point X    = 502\n"
  ++ "        Point Y    = -96\n"
  ++ "        Point X    = 533\n"
  ++ "        Point Y    = -82\n"
  ++ "        Point X    = 565\n"
  ++ "        Point Y    = -59\n"
  ++ "        Point X    = 596\n"
  ++ "        Point Y    = -32\n"
  ++ "        Point X    = 628\n"
  ++ "        Point Y    = -1\n"
  ++ "    Alteration Type     = NONE\n"
  ++ "    Num Profiles    = 12\n"
  ++ "    Name    = Density\n"
  ++ "    Type    = 2\n"
  ++ "    Join Type     = LINES\n"
  ++ "    Graph Length    = 200.000000\n"
  ++ "    Min X    = 0.000000\n"
  ++ "    Max X    = 0.000000\n"
  ++ "    Min Y Scale    = 0.000000\n"
  ++ "    Max Y Scale    = 4.000000\n"
  ++ "    Scale Origin    = 1.000000\n"
  ++ "    Min Y Replace    = 0.000000\n"
  ++ "    Max Y Replace    = 10.000000\n"
  ++ "    Num Points    = 2\n"
  ++ "        Point X    = 0\n"
  ++ "        Point Y    = -50\n"
  ++ "        Point X    = 628\n"
  ++ "        Point Y    = -50\n"
  ++ "    Name    = Anisotropy\n"
  ++ "    Type    = 3\n"
  ++ "    Join Type     = LINES\n"
  ++ "    Graph Length    = 200.000000\n"
  ++ "    Min X    = 0.000000\n"
  ++ "    Max X    = 0.000000\n"
  ++ "    Min Y Scale    = -10.000000\n"
  ++ "    Max Y Scale    = 10.000000\n"
  ++ "    Scale Origin    = 0.000000\n"
  ++ "    Min Y Replace    = -10.000000\n"
  ++ "    Max Y Replace    = 10.000000\n"
  ++ "    Num Points    = 2\n"
  ++ "        Point X    = 0\n"
  ++ "        Point Y    = 0\n"
  ++ "        Point X    = 628\n"
  ++ "        Point Y    = 0\n"
  ++ "    Name    = - X Axis (Sus)\n"
  ++ "    Type    = 4\n"
  ++ "    Join Type     = LINES\n"
  ++ "    Graph Length    = 200.000000\n"
  ++ "    Min X    = 0.000000\n"
  ++ "    Max X    = 0.000000\n"
  ++ "    Min Y Scale    = -5.000000\n"
  ++ "    Max Y Scale    = 5.000000\n"
  ++ "    Scale Origin    = 0.000000\n"
  ++ "    Min Y Replace    = 2.000000\n"
  ++ "    Max Y Replace    = 8.000000\n"
  ++ "    Num Points    = 2\n"
  ++ "        Point X    = 0\n"
  ++ "        Point Y    = 0\n"
  ++ "        Point X    = 628\n"
  ++ "        Point Y    = 0\n"
  ++ "    Name    = - Y Axis (Sus)\n"
  ++ "    Type    = 5\n"
  ++ "    Join Type     = LINES\n"
  ++ "    Graph Length    = 200.000000\n"
  ++ "    Min X    = 0.000000\n"
  ++ "    Max X    = 0.000000\n"
  ++ "    Min Y Scale    = -5.000000\n"
  ++ "    Max Y Scale    = 5.000000\n"
  ++ "    Scale Origin    = 0.000000\n"
  ++ "    Min Y Replace    = 2.000000\n"
  ++ "    Max Y Replace    = 8.000000\n"
  ++ "    Num Points    = 2\n"
  ++ "        Point X    = 0\n"
  ++ "        Point Y    = 0\n"
  ++ "        Point X    = 628\n"
  ++ "        Point Y    = 0\n"
  ++ "    Name    = - Z Axis (Sus)\n"
  ++ "    Type    = 6\n"
  ++ "    Join Type     = LINES\n"
  ++ "    Graph Length    = 200.000000\n"
  ++ "    Min X    = 0.000000\n"
  ++ "    Max X    = 0.000000\n"
  ++ "    Min Y Scale    = -5.000000\n"
  ++ "    Max Y Scale    = 5.000000\n"
  ++ "    Scale Origin    = 0.000000\n"
  ++ "    Min Y Replace    = 2.000000\n"
  ++ "    Max Y Replace    = 8.000000\n"
  ++ "    Num Points    = 2\n"
  ++ "        Point X    = 0\n"
  ++ "        Point Y    = 0\n"
  ++ "        Point X    = 628\n"
  ++ "        Point Y    = 0\n"
  ++ "    Name    = - Dip (Sus)\n"
  ++ "    Type    = 7\n"
  ++ "    Join Type     = LINES\n"
  ++ "    Graph Length    = 200.000000\n"
  ++ "    Min X    = 0.000000\n"
  ++ "    Max X    = 0.000000\n"
  ++ "    Min Y Scale    = -180.000000\n"
  ++ "    Max Y Scale    = 180.000000\n"
  ++ "    Scale Origin    = 1.000000\n"
  ++ "    Min Y Replace    = -180.000000\n"
  ++ "    Max Y Replace    = 180.000000\n"
  ++ "    Num Points    = 2\n"
  ++ "        Point X    = 0\n"
  ++ "        Point Y    = 1\n"
  ++ "        Point X    = 628\n"
  ++ "        Point Y    = 1\n"
  ++ "    Name    = - Dip Dir (Sus)\n"
  ++ "    Type    = 8\n"
  ++ "    Join Type     = LINES\n"
  ++ "    Graph Length    = 200.000000\n"
  ++ "    Min X    = 0.000000\n"
  ++ "    Max X    = 0.000000\n"
  ++ "    Min Y Scale    = -360.000000\n"
  ++ "    Max Y Scale    = 360.000000\n"
  ++ "    Scale Origin    = 1.000000\n"
  ++ "    Min Y Replace    = -360.000000\n"
  ++ "    Max Y Replace    = 360.000000\n"
  ++ "    Num Points    = 2\n"
  ++ "        Point X    = 0\n"
  ++ "        Point Y    = 0\n"
  ++ "        Point X    = 628\n"
  ++ "        Point Y    = 0\n"
  ++ "    Name    = - Pitch (Sus)\n"
  ++ "    Type    = 9\n"
  ++ "    Join Type     = LINES\n"
  ++ "    Graph Length    = 200.000000\n"
  ++ "    Min X    = 0.000000\n"
  ++ "    Max X    = 0.000000\n"
  ++ "    Min Y Scale    = -360.000000\n"
  ++ "    Max Y Scale    = 360.000000\n"
  ++ "    Scale Origin    = 1.000000\n"
  ++ "    Min Y Replace    = -360.000000\n"
  ++ "    Max Y Replace    = 360.000000\n"
  ++ "    Num Points    = 2\n"
  ++ "        Point X    = 0\n"
  ++ "        Point Y    = 0\n"
  ++ "        Point X    = 628\n"
  ++ "        Point Y    = 0\n"
  ++ "    Name    = Remanence\n"
  ++ "    Type    = 10\n"
  ++ "    Join Type     = LINES\n"
  ++ "    Graph Length    = 200.000000\n"
  ++ "    Min X    = 0.000000\n"
  ++ "    Max X    = 0.000000\n"
  ++ "    Min Y Scale    = -10.000000\n"
  ++ "    Max Y Scale    = 10.000000\n"
  ++ "    Scale Origin    = 0.000000\n"
  ++ "    Min Y Replace    = -10.000000\n"
  ++ "    Max Y Replace    = 10.000000\n"
  ++ "    Num Points    = 2\n"
  ++ "        Point X    = 0\n"
  ++ "        Point Y    = 0\n"
  ++ "        Point X    = 628\n"
  ++ "        Point Y    = 0\n"
  ++ "    Name    = - Declination (Rem)\n"
  ++ "    Type    = 11\n"
  ++ "    Join Type     = LINES\n"
  ++ "    Graph Length    = 200.000000\n"
  ++ "    Min X    = 0.000000\n"
  ++ "    Max X    = 0.000000\n"
  ++ "    Min Y Scale    = -360.000000\n"
  ++ "    Max Y Scale    = 360.000000\n"
  ++ "    Scale Origin    = 1.000000\n"
  ++ "    Min Y Replace    = -360.000000\n"
  ++ "    Max Y Replace    = 360.000000\n"
  ++ "    Num Points    = 2\n"
  ++ "        Point X    = 0\n"
  ++ "        Point Y    = 0\n"
  ++ "        Point X    = 628\n"
  ++ "        Point Y    = 0\n"
  ++ "    Name    = - Inclination (Rem)\n"
  ++ "    Type    = 12\n"
  ++ "    Join Type     = LINES\n"
  ++ "    Graph Length    = 200.000000\n"
  ++ "    Min X    = 0.000000\n"
  ++ "    Max X    = 0.000000\n"
  ++ "    Min Y Scale    = -360.000000\n"
  ++ "    Max Y Scale    = 360.000000\n"
  ++ "    Scale Origin    = 1.000000\n"
  ++ "    Min Y Replace    = -360.000000\n"
  ++ "    Max Y Replace    = 360.000000\n"
  ++ "    Num Points    = 2\n"
  ++ "        Point X    = 0\n"
  ++ "        Point Y    = 0\n"
  ++ "        Point X    = 628\n"
  ++ "        Point Y    = 0\n"
  ++ "    Name    = - Intensity (Rem)\n"
  ++ "    Type    = 13\n"
  ++ "    Join Type     = LINES\n"
  ++ "    Graph Length    = 200.000000\n"
  ++ "    Min X    = 0.000000\n"
  ++ "    Max X    = 0.000000\n"
  ++ "    Min Y Scale    = -5.000000\n"
  ++ "    Max Y Scale    = 5.000000\n"
  ++ "    Scale Origin    = 0.000000\n"
  ++ "    Min Y Replace    = -5.000000\n"
  ++ "    Max Y Replace    = 5.000000\n"
  ++ "    Num Points    = 2\n"
  ++ "        Point X    = 0\n"
  ++ "        Point Y    = 0\n"
  ++ "        Point X    = 628\n"
  ++ "        Point Y    = 0\n"
  ++ "    Surface Type    = FLAT_SURFACE\n"
  ++ "    Surface Filename    =      \n"
  ++ "    Surface Directory    = \\\\psf\\Home\n"
  ++ "    Surface XDim    = 0.000000\n"
  ++ "    Surface YDim    = 0.000000\n"
  ++ "    Surface ZDim    = 0.000000\n"
  ++ "    Name    = $NAME$"

def foldTemplate : String :=
  "\tType\t= Sine\n"
  ++ "\tSingle Fold\t= FALSE\n"
  ++ "\tX\t=   $POS_X$\n"
  ++ "\tY\t=   $POS_Y$\n"
  ++ "\tZ\t=   $POS_Z$\n"
  ++ "\tDip Direction\t=  $DIP_DIR$\n"
  ++ "\tDip\t=  $DIP$\n"
  ++ "\tPitch\t=   0.00\n"
  ++ "\tWavelength\t= $WAVELENGTH$\n"
  ++ "\tAmplitude\t= $AMPLITUDE$\n"
  ++ "\tCylindricity\t=   0.00\n"
  ++ "\tFourier Series\n"
  ++ "\t\tTerm A 0\t=   0.00\n"
  ++ "\t\tTerm B 0\t=   0.00\n"
  ++ "\t\tTerm A 1\t=   0.00\n"
  ++ "\t\tTerm B 1\t=   1.00\n"
  ++ "\t\tTerm A 2\t=   0.00\n"
  ++ "\t\tTerm B 2\t=   0.00\n"
  ++ "\t\tTerm A 3\t=   0.00\n"
  ++ "\t\tTerm B 3\t=   0.00\n"
  ++ "\t\tTerm A 4\t=   0.00\n"
  ++ "\t\tTerm B 4\t=   0.00\n"
  ++ "\t\tTerm A 5\t=   0.00\n"
  ++ "\t\tTerm B 5\t=   0.00\n"
  ++ "\t\tTerm A 6\t=   0.00\n"
  ++ "\t\tTerm B 6\t=   0.00\n"
  ++ "\t\tTerm A 7\t=   0.00\n"
  ++ "\t\tTerm B 7\t=   0.00\n"
  ++ "\t\tTerm A 8\t=   0.00\n"
  ++ "\t\tTerm B 8\t=   0.00\n"
  ++ "\t\tTerm A 9\t=   0.00\n"
  ++ "\t\tTerm B 9\t=   0.00\n"
  ++ "\t\tTerm A 10\t=   0.00\n"
  ++ "\t\tTerm B 10\t=   0.00\n"
  ++ "\tName\t= Fold Profile\n"
  ++ "\tType\t= 1\n"
  ++ "\tJoin Type \t= LINES\n"
  ++ "\tGraph Length\t= 200.000000\n"
  ++ "\tMin X\t= 0.000000\n"
  ++ "\tMax X\t= 6.280000\n"
  ++ "\tMin Y Scale\t= -1.000000\n"
  ++ "\tMax Y Scale\t= 1.000000\n"
  ++ "\tScale Origin\t= 0.000000\n"
  ++ "\tMin Y Replace\t= -1.000000\n"
  ++ "\tMax Y Replace\t= 1.000000\n"
  ++ "\tNum Points\t= 21\n"
  ++ "\t\tPoint X\t= 0\n"
  ++ "\t\tPoint Y\t= 0\n"
  ++ "\t\tPoint X\t= 31\n"
  ++ "\t\tPoint Y\t= 30\n"
  ++ "\t\tPoint X\t= 62\n"
  ++ "\t\tPoint Y\t= 58\n"
  ++ "\t\tPoint X\t= 94\n"
  ++ "\t\tPoint Y\t= 80\n"
  ++ "\t\tPoint X\t= 125\n"
  ++ "\t\tPoint Y\t= 94\n"
  ++ "\t\tPoint X\t= 157\n"
  ++ "\t\tPoint Y\t= 99\n"
  ++ "\t\tPoint X\t= 188\n"
  ++ "\t\tPoint Y\t= 95\n"
  ++ "\t\tPoint X\t= 219\n"
  ++ "\t\tPoint Y\t= 81\n"
  ++ "\t\tPoint X\t= 251\n"
  ++ "\t\tPoint Y\t= 58\n"
  ++ "\t\tPoint X\t= 282\n"
  ++ "\t\tPoint Y\t= 31\n"
  ++ "\t\tPoint X\t= 314\n"
  ++ "\t\tPoint Y\t= 0\n"
  ++ "\t\tPoint X\t= 345\n"
  ++ "\t\tPoint Y\t= -31\n"
  ++ "\t\tPoint X\t= 376\n"
  ++ "\t\tPoint Y\t= -59\n"
  ++ "\t\tPoint X\t= 408\n"
  ++ "\t\tPoint Y\t= -81\n"
  ++ "\t\tPoint X\t= 439\n"
  ++ "\t\tPoint Y\t= -95\n"
  ++ "\t\tPoint X\t= 471\n"
  ++ "\t\tPoint Y\t= -100\n"
  ++ "\t\tPoint X\t= 502\n"
  ++ "\t\tPoint Y\t= -96\n"
  ++ "\t\tPoint X\t= 533\n"
  ++ "\t\tPoint Y\t= -82\n"
  ++ "\t\tPoint X\t= 565\n"
  ++ "\t\tPoint Y\t= -59\n"
  ++ "\t\tPoint X\t= 596\n"
  ++ "\t\tPoint Y\t= -32\n"
  ++ "\t\tPoint X\t= 628\n"
  ++ "\t\tPoint Y\t= -1\n"
  ++ "\tName\t= $NAME$"

def tiltTemplate : String :=
  "X    =   $POS_X$\n"
  ++ "    Y    =   $POS_Y$\n"
  ++ "    Z    =   $POS_Z$\n"
  ++ "    Rotation     =  $ROTATION$\n"
  ++ "    Plunge Direction     = $PLUNGE_DIRECTION$\n"
  ++ "    Plunge     =   $PLUNGE$\n"
  ++ "    Name    = $NAME$"

def unconformityTemplate : String :=
  "X    =   $POS_X$\n"
  ++ "    Y    =   $POS_Y$\n"
  ++ "    Z    = $POS_Z$\n"
  ++ "    Dip Direction    =  $DIP_DIRECTION$\n"
  ++ "    Dip    =   $DIP$\n"
  ++ "    Alteration Type     = NONE\n"
  ++ "    Num Profiles    = 1\n"
  ++ "    Name    =    \n"
  ++ "    Type    = 0\n"
  ++ "    Join Type     = LINES\n"
  ++ "    Graph Length    = 0.000000\n"
  ++ "    Min X    = 0.000000\n"
  ++ "    Max X    = 0.000000\n"
  ++ "    Min Y Scale    = 0.000000\n"
  ++ "    Max Y Scale    = 0.000000\n"
  ++ "    Scale Origin    = 0.000000\n"
  ++ "    Min Y Replace    = 0.000000\n"
  ++ "    Max Y Replace    = 0.000000\n"
  ++ "    Num Points    = 0\n"
  ++ "    Surface Type    = FLAT_SURFACE\n"
  ++ "    Surface Filename    =       \n"
  ++ "    Surface Directory    = /tmp_mnt/sci6/users/mark/Atlas/case\n"
  ++ "    Surface XDim    = 0.000000\n"
  ++ "    Surface YDim    = 0.000000\n"
  ++ "    Surface ZDim    = 0.000000"

def footerTemplate : String :=
  "\n"
  ++ "#BlockOptions\n"
  ++ "    Number of Views    = 1\n"
  ++ "    Current View    = 0\n"
  ++ "    NAME    = Default\n"
  ++ "    Origin X    =   0.00\n"
  ++ "    Origin Y    =   0.00\n"
  ++ "    Origin Z    = 5000.00\n"
  ++ "    Length X    = 10000.00\n"
  ++ "    Length Y    = 7000.00\n"
  ++ "    Length Z    = 5000.00\n"
  ++ "    Geology Cube Size    =  50.00\n"
  ++ "    Geophysics Cube Size    = 50.00\n"
  ++ "\n"
  ++ "#GeologyOptions\n"
  ++ "    Scale    =  10.00\n"
  ++ "    SectionDec    =  90.00\n"
  ++ "    WellDepth    = 5000.00\n"
  ++ "    WellAngleZ    =   0.00\n"
  ++ "    BoreholeX    =   0.00\n"
  ++ "    BoreholeX    =   0.00\n"
  ++ "    BoreholeX    = 5000.00\n"
  ++ "    BoreholeDecl    =  90.00\n"
  ++ "    BoreholeDip    =   0.00\n"
  ++ "    BoreholeLength    = 5000.00\n"
  ++ "    SectionX    =   0.00\n"
  ++ "    SectionY    =   0.00\n"
  ++ "    SectionZ    = 5000.00\n"
  ++ "    SectionDecl    =  90.00\n"
  ++ "    SectionLength    = 10000.00\n"
  ++ "    SectionHeight    = 5000.00\n"
  ++ "    topofile    = FALSE\n"
  ++ "    Topo Filename    =    \n"
  ++ "    Topo Directory    = .\n"
  ++ "    Topo Scale    =   1.00\n"
  ++ "    Topo Offset    =   0.00\n"
  ++ "    Topo First Contour    = 100.00\n"
  ++ "    Topo Contour Interval    = 100.00\n"
  ++ "    Chair Diagram    = FALSE\n"
  ++ "    Chair_X    = 5000.00\n"
  ++ "    Chair_Y    = 3500.00\n"
  ++ "    Chair_Z    = 2500.00\n"
  ++ "\n"
  ++ "#GeophysicsOptions\n"
  ++ "    GPSRange     = 0\n"
  ++ "    Declination    =   0.00\n"
  ++ "    Inclination    = -67.00\n"
  ++ "    Intensity    = 63000.00\n"
  ++ "    Field Type    = FIXED\n"
  ++ "    Field xPos    =   0.00\n"
  ++ "    Field yPos    =   0.00\n"
  ++ "    Field zPos    = 5000.00\n"
  ++ "    Inclination Ori    =   0.00\n"
  ++ "    Inclination Change    =   0.00\n"
  ++ "    Intensity Ori    =  90.00\n"
  ++ "    Intensity Change    =   0.00\n"
  ++ "    Declination Ori    =   0.00\n"
  ++ "    Declination Change    =   0.00\n"
  ++ "    Altitude    =  80.00\n"
  ++ "    Airborne=     FALSE\n"
  ++ "    Calculation Method    = SPATIAL\n"
  ++ "    Spectral Padding Type    = RECLECTION_PADDING\n"
  ++ "    Spectral Fence    = 100\n"
  ++ "    Spectral Percent    = 100\n"
  ++ "    Constant Boxing Depth    =   0.00\n"
  ++ "    Clever Boxing Ratio    =   1.00\n"
  ++ "    Deformable Remanence=     FALSE\n"
  ++ "    Deformable Anisotropy=     TRUE\n"
  ++ "    Vector Components=     FALSE\n"
  ++ "    Project Vectors=     TRUE\n"
  ++ "    Pad With Real Geology=     FALSE\n"
  ++ "    Draped Survey=     FALSE\n"
  ++ "\n"
  ++ "#3DOptions\n"
  ++ "    Declination    = 150.000000\n"
  ++ "    Elevation    = 30.000000\n"
  ++ "    Scale    = 1.000000\n"
  ++ "    Offset X    = 1.000000\n"
  ++ "    Offset Y    = 1.000000\n"
  ++ "    Offset Z    = 1.000000\n"
  ++ "    Fill Type    = 2\n"
  ++ "\n"
  ++ "#ProjectOptions\n"
  ++ "    Susceptibility Units    = CGS\n"
  ++ "    Geophysical Calculation    = 2\n"
  ++ "    Calculation Type    = LOCAL_JOB\n"
  ++ "    Length Scale    = 0\n"
  ++ "    Printing Scale    = 1.000000\n"
  ++ "    Image Scale    = 10.000000\n"
  ++ "    New Windows    = FALSE\n"
  ++ "    Background Red Component    = 254\n"
  ++ "    Background Green Component    = 254\n"
  ++ "    Background Blue Component    = 254\n"
  ++ "    Internet Address    = 255.255.255.255\n"
  ++ "    Account Name    =       \n"
  ++ "    Noddy Path    = ./noddy\n"
  ++ "    Help Path    = iexplore %h\n"
  ++ "    Movie Frames Per Event    = 3\n"
  ++ "    Movie Play Speed    =  10.00\n"
  ++ "    Movie Type    = 0\n"
  ++ "    Gravity Clipping Type    = RELATIVE_CLIPPING\n"
  ++ "    Gravity Image Display Clip Min    = 0.000000\n"
  ++ "    Gravity Image Display Clip Max    = 100.000000\n"
  ++ "    Gravity Image Display Type    = GREY\n"
  ++ "    Gravity Image Display Num Contour    = 25\n"
  ++ "    Magnetics Clipping Type    = RELATIVE_CLIPPING\n"
  ++ "    Magnetics Image Display Clip Min    = 0.000000\n"
  ++ "    Magnetics Image Display Clip Max    = 100.000000\n"
  ++ "    Magnetics Image Display Type    = GREY\n"
  ++ "    Magnetics Image Display Num Contour    = 25\n"
  ++ "    False Easting    = 0.000000\n"
  ++ "    False Northing    = 0.000000\n"
  ++ "\n"
  ++ "#Window Positions\n"
  ++ "    Num Windows    = 16\n"
  ++ "    Name    = Block Diagram\n"
  ++ "    X    = 60\n"
  ++ "    Y    = 60\n"
  ++ "    Width    = 500\n"
  ++ "    Height    = 300\n"
  ++ "    Name    = Movie\n"
  ++ "    X    = 60\n"
  ++ "    Y    = 60\n"
  ++ "    Width    = -1\n"
  ++ "    Height    = -1\n"
  ++ "    Name    = Well Log\n"
  ++ "    X    = 60\n"
  ++ "    Y    = 60\n"
  ++ "    Width    = 400\n"
  ++ "    Height    = 430\n"
  ++ "    Name    = Section\n"
  ++ "    X    = 14\n"
  ++ "    Y    = 16\n"
  ++ "    Width    = 490\n"
  ++ "    Height    = -1\n"
  ++ "    Name    = Topography Map\n"
  ++ "    X    = 60\n"
  ++ "    Y    = 60\n"
  ++ "    Width    = 490\n"
  ++ "    Height    = 375\n"
  ++ "    Name    = 3D Topography Map\n"
  ++ "    X    = 60\n"
  ++ "    Y    = 60\n"
  ++ "    Width    = 490\n"
  ++ "    Height    = 375\n"
  ++ "    Name    = 3D Stratigraphy\n"
  ++ "    X    = 60\n"
  ++ "    Y    = 60\n"
  ++ "    Width    = 490\n"
  ++ "    Height    = 375\n"
  ++ "    Name    = Line Map\n"
  ++ "    X    = 60\n"
  ++ "    Y    = 60\n"
  ++ "    Width    = 490\n"
  ++ "    Height    = -1\n"
  ++ "    Name    = Profile - From Image\n"
  ++ "    X    = 60\n"
  ++ "    Y    = 60\n"
  ++ "    Width    = 490\n"
  ++ "    Height    = 600\n"
  ++ "    Name    = Sterographic Projections\n"
  ++ "    X    = 60\n"
  ++ "    Y    = 60\n"
  ++ "    Width    = 430\n"
  ++ "    Height    = 430\n"
  ++ "    Name    = Stratigraphic Column\n"
  ++ "    X    = 60\n"
  ++ "    Y    = 60\n"
  ++ "    Width    = 230\n"
  ++ "    Height    = 400\n"
  ++ "    Name    = Image\n"
  ++ "    X    = 30\n"
  ++ "    Y    = 30\n"
  ++ "    Width    = -1\n"
  ++ "    Height    = -1\n"
  ++ "    Name    = Contour\n"
  ++ "    X    = 30\n"
  ++ "    Y    = 30\n"
  ++ "    Width    = -1\n"
  ++ "    Height    = -1\n"
  ++ "    Name    = Toolbar\n"
  ++ "    X    = 10\n"
  ++ "    Y    = 0\n"
  ++ "    Width    = -1\n"
  ++ "    Height    = -1\n"
  ++ "    Name    = History\n"
  ++ "    X    = 229\n"
  ++ "    Y    = 160\n"
  ++ "    Width    = 762\n"
  ++ "    Height    = 898\n"
  ++ "    Name    = History\n"
  ++ "    X    = 229\n"
  ++ "    Y    = 160\n"
  ++ "    Width    = 762\n"
  ++ "    Height    = 898\n"
  ++ "\n"
  ++ "#Icon Positions\n"
  ++ "    Num Icons    = 3\n"
  ++ "    Row    = 1\n"
  ++ "    Column    = 1\n"
  ++ "    X Position    = 1\n"
  ++ "    Y Position    = 1\n"
  ++ "    Row    = 1\n"
  ++ "    Column    = 2\n"
  ++ "    X Position    = 4\n"
  ++ "    Y Position    = 1\n"
  ++ "    Row    = 1\n"
  ++ "    Column    = 3\n"
  ++ "    X Position    = 7\n"
  ++ "    Y Position    = 1\n"
  ++ "    Floating Menu Rows    = 1\n"
  ++ "    Floating Menu Cols    = 24\n"
  ++ "End of Status Report"

/-- NoddyHistory._create_header (src/history.py lines 571-585): the full
header string, including the trailing space after the file name and the
blank line block at the end. -/
def _create_header (filename timeStr : Line) : Line :=
  S "#Filename = " ++ filename ++ S " \n#Date Saved = " ++ timeStr
    ++ S "\nFileType = 111\nVersion = 7.11\n\n"

/-- Header block of write_history: the header string split on newlines,
each piece re-terminated with a newline. -/
def headerLines (filename timeStr : Line) : List Line :=
  (splitChar '\n' (_create_header filename timeStr)).map (fun l => l ++ ['\n'])

/-- NoddyHistory.create_footer_from_template (src/history.py lines
457-462): template lines with four-space runs replaced by tabs, newline
re-appended. -/
def create_footer_from_template : List Line :=
  (splitChar '\n' (S footerTemplate)).map (fun l => pyReplace l (S "    ") (S "\t") ++ ['\n'])

/-- Python `sorted(self.events.keys())` combined with the dict lookups of
the write loop: with the unique keys of a dict this is exactly a stable
sort of the key-value pairs by key. -/
def sortEvents (evs : List (Int × Event)) : List (Int × Event) :=
  List.insertionSort (fun a b => a.1 ≤ b.1) evs

/-- Line assembly of NoddyHistory.write_history (src/history.py lines
901-938): regenerated header (using the existing `filename` attribute if
present, else the argument), the recomputed event-count line, the event
blocks in ascending key order, then the footer (from the template when the
state carries none).  `update_all_event_properties` re-encodes mutated
properties inside events.py (not under src/); per the spec the raw lines
are used verbatim when nothing was mutated, which is the identity on the
modelled record. -/
def write_history_lines (d : NoddyHistory) (fnameArg timeStr : Line) : List Line :=
  let fname := d.filename.getD fnameArg
  headerLines fname timeStr
    ++ [S "No of Events\t= " ++ intStr (d.events.length : Int) ++ ['\n']]
    ++ (sortEvents d.events).flatMap (fun p => p.2.event_lines)
    ++ (match d.footer_lines with | some f => f | none => create_footer_from_template)

/-- Write loop of write_history (src/history.py lines 941-947): emit a
blank line before any `BlockOptions` line whose in-memory predecessor is
not already blank.  `prev` starts at the final line because Python
`history_lines[i-1]` wraps around at `i = 0`. -/
def insertBlankAux (prev : Line) : List Line → List Line
  | [] => []
  | l :: rest =>
    (if containsSub blockOptionsAnchor l = true ∧ prev ≠ ['\n'] then [['\n'], l] else [l])
      ++ insertBlankAux l rest

/-- NoddyHistory.write_history (src/history.py lines 901-949): the full
sequence of lines written to the file. -/
def write_history (d : NoddyHistory) (fnameArg timeStr : Line) : List Line :=
  let hl := write_history_lines d fnameArg timeStr
  insertBlankAux (hl.getLastD []) hl

/-- NoddyHistory.update_event_numbers (src/history.py lines 491-494):
rewrite the embedded event number of every event to its key. -/
def update_event_numbers (evs : List (Int × Event)) : List (Int × Event) :=
  evs.map (fun p => (p.1, setEventNumber p.1 p.2))

/-- NoddyHistory.swap_events (src/history.py lines 464-474): exchange the
records stored at two keys, then renumber all embedded event numbers. -/
def swap_events (a b : Int) (d : NoddyHistory) : Except PyErr NoddyHistory :=
  match pyDictGet a d.events, pyDictGet b d.events with
  | some ea, some eb =>
    .ok { d with events := update_event_numbers (pyDictSet b ea (pyDictSet a eb d.events)) }
  | _, _ => .error .keyError

/-- A Python dict with string keys, as used for `event_options` and the
builder parameter records. -/
abbrev PyDict := List (Line × PyVal)

/-- Python `d[k]` with `KeyError` on a missing key. -/
def dictGetE (k : Line) (d : PyDict) : Except PyErr PyVal :=
  (pyDictGet k d).elim (.error .keyError) .ok

/-- Python `d.get(k, default)`. -/
def dictGetD (k : Line) (v : PyVal) (d : PyDict) : PyVal := (pyDictGet k d).getD v

/-- Numeric coercion performed by Python `"%.1f" % x` and arithmetic:
`TypeError` on non-numbers. -/
def asNumE : PyVal → Except PyErr ℚ
  | .int i => .ok (i : ℚ)
  | .float q => .ok q
  | _ => .error .typeError

/-- Python int-typed argument (`range(n)` bounds and similar). -/
def asIntE : PyVal → Except PyErr Int
  | .int i => .ok i
  | _ => .error .typeError

/-- Python str-typed argument of `str.replace`. -/
def asStrE : PyVal → Except PyErr Line
  | .str s => .ok s
  | _ => .error .typeError

/-- Python list/tuple-typed argument. -/
def asListE : PyVal → Except PyErr (List PyVal)
  | .list l => .ok l
  | .tup l => .ok l
  | _ => .error .typeError

/-- Python `"%s" % x` on the scalar subset the source feeds it (strings
and ints; the repr of other values is outside the modelled subset, and no
source call site reaches it). -/
def pyStrOf : PyVal → Except PyErr Line
  | .str s => .ok s
  | .int i => .ok (intStr i)
  | _ => .error .typeError

/-- Python `l[i]` with `IndexError` on a missing index. -/
def listGetE {α : Type} (l : List α) (i : Int) : Except PyErr α :=
  (pyListGet l i).elim (.error .indexError) .ok

/-- Python `x[i]` on a `PyVal`: tuples and lists index their elements,
strings index one-character strings, anything else is a `TypeError`. -/
def pyValIndexE (v : PyVal) (i : Int) : Except PyErr PyVal :=
  match v with
  | .tup l => listGetE l i
  | .list l => listGetE l i
  | .str s => (listGetE s i).map (fun c => PyVal.str [c])
  | _ => .error .typeError

/-- Python `x == 'top'` for an arbitrary value: only a string equal to
"top" compares true (a tuple never equals a string). -/
def pyValIsTop : PyVal → Bool
  | .str s => s = S "top"
  | _ => false

/-- Python `x + y` as used by `change_event_params` `+=`: int+int stays
int, numeric mixes become floats, str+str concatenates, anything else is
a `TypeError`. -/
def pyAdd : PyVal → PyVal → Except PyErr PyVal
  | .int i, .int j => .ok (.int (i + j))
  | .int i, .float q => .ok (.float ((i : ℚ) + q))
  | .float q, .int j => .ok (.float (q + (j : ℚ)))
  | .float q, .float r => .ok (.float (q + r))
  | .str s, .str t => .ok (.str (s ++ t))
  | _, _ => .error .typeError

/-- One assignment of NoddyHistory.set_event_params (src/history.py lines
844-853): `self.events[key].properties[sub_key] = val`, an absolute write
into the top-level property mapping whatever the sub-key is. -/
def setOneParam (key : Int) (sk : PKey) (v : PyVal) (evs : List (Int × Event)) :
    Except PyErr (List (Int × Event)) :=
  match pyDictGet key evs with
  | none => .error .keyError
  | some ev => .ok (pyDictSet key { ev with properties := pyDictSet sk v ev.properties } evs)

/-- NoddyHistory.set_event_params (src/history.py lines 844-853). -/
def set_event_params (pd : List (Int × List (PKey × PyVal))) (d : NoddyHistory) :
    Except PyErr NoddyHistory :=
  (pd.foldlM
      (fun (evs : List (Int × Event)) (kv : Int × List (PKey × PyVal)) =>
        kv.2.foldlM (fun evs skv => setOneParam kv.1 skv.1 skv.2 evs) evs)
      d.events).map
    (fun evs => { d with events := evs })

/-- One update of NoddyHistory.change_event_params (src/history.py lines
855-869): an integer sub-key addresses a stratigraphic layer
(`self.events[key].layers[sub_key].properties[val['property']] += val['val']`),
any other sub-key is a relative update of a top-level property
(`self.events[key].properties[sub_key] += val`). -/
def changeOneParam (key : Int) (sk : PKey) (v : PyVal) (evs : List (Int × Event)) :
    Except PyErr (List (Int × Event)) :=
  match pyDictGet key evs with
  | none => .error .keyError
  | some ev =>
    match sk with
    | .int i => do
      let layer ← listGetE ev.layers i
      let entries ← (match v with
        | .dict entries => Except.ok entries
        | _ => Except.error .typeError)
      let pv ← dictGetE (S "property") entries
      let p ← asStrE pv
      let old ← dictGetE p layer.properties
      let dv ← dictGetE (S "val") entries
      let sum ← pyAdd old dv
      let layer' : Layer := { properties := pyDictSet p sum layer.properties }
      Except.ok (pyDictSet key { ev with layers := pyListSet ev.layers i layer' } evs)
    | .str s => do
      let old ← (pyDictGet (PKey.str s) ev.properties).elim (Except.error .keyError) Except.ok
      let sum ← pyAdd old v
      Except.ok (pyDictSet key { ev with properties := pyDictSet (PKey.str s) sum ev.properties } evs)

/-- NoddyHistory.change_event_params (src/history.py lines 855-869). -/
def change_event_params (cd : List (Int × List (PKey × PyVal))) (d : NoddyHistory) :
    Except PyErr NoddyHistory :=
  (cd.foldlM
      (fun (evs : List (Int × Event)) (kv : Int × List (PKey × PyVal)) =>
        kv.2.foldlM (fun evs skv => changeOneParam kv.1 skv.1 skv.2 evs) evs)
      d.events).map
    (fun evs => { d with events := evs })

/-- numpy.cumsum on a list of rationals (running-sum accumulator). -/
def npCumsumAux (acc : ℚ) : List ℚ → List ℚ
  | [] => []
  | x :: rest => (acc + x) :: npCumsumAux (acc + x) rest

/-- numpy.cumsum as called by the stratigraphy builders. -/
def npCumsum (l : List ℚ) : List ℚ := npCumsumAux 0 l

/-- Fuel-bounded search for the least `k` with `q * 10^k ≥ 1` (used for the
decimal exponent of a value below one). -/
def negExpAux (q : ℚ) : Nat → Nat → Nat
  | 0, k => k
  | fuel + 1, k => if 1 ≤ q * 10 ^ k then k else negExpAux q fuel (k + 1)

/-- Decimal exponent of a positive rational: the unique `e` with
`10^e ≤ q < 10^(e+1)` (fuel-bounded below one; the fuel covers every
denominator magnitude the claims evaluate). -/
def decExp (q : ℚ) : Int :=
  if 1 ≤ q then ((natDigits ⌊q⌋.toNat).length - 1 : Nat)
  else -(negExpAux q (q.den.succ.log2 + 64) 1 : Nat)

/-- Digit assembly of Python `"%e"`: seven mantissa digits `d.dddddd` and
a two-digit signed exponent. -/
def fmtEDigits (m : Nat) (e : Int) : Line :=
  (zeroPad 7 (natDigits m)).take 1 ++ '.' :: (zeroPad 7 (natDigits m)).drop 1
    ++ 'e' :: (if e < 0 then '-' else '+') :: zeroPad 2 (natDigits e.natAbs)

/-- Mantissa-and-exponent rendering of Python `"%e" % q` for positive `q`:
six fraction digits, two-digit signed exponent, carrying over when the
rounded mantissa reaches ten. -/
def fmtEPos (q : ℚ) : Line :=
  if (roundHalfEven (q * (10 : ℚ) ^ ((6 : Int) - decExp q))).toNat = 10 ^ 7
  then fmtEDigits (10 ^ 6) (decExp q + 1)
  else fmtEDigits (roundHalfEven (q * (10 : ℚ) ^ ((6 : Int) - decExp q))).toNat (decExp q)

/-- Python `"%e" % q` (scientific notation with six fraction digits). -/
def fmtE (q : ℚ) : Line :=
  if q = 0 then S "0.000000e+00"
  else if q < 0 then '-' :: fmtEPos (-q) else fmtEPos q

/-- Per-layer line block of _create_stratigraphy (src/history.py lines
609-617): the layer template with `$NAME$` and `$HEIGHT$` substituted,
four-space runs turned into tabs, then `$DENSITY$` substituted, split on
newlines. -/
def stratiLayerLines (name : Line) (height density : ℚ) : List Line :=
  splitChar '\n'
    (pyReplace
      (pyReplace
        (pyReplace (pyReplace (S stratiLayerTemplate) (S "$NAME$") name)
          (S "$HEIGHT$") (fmtFixed 1 height))
        (S "    ") (S "\t"))
      (S "$DENSITY$") (fmtE density))

/-- Per-layer line block of _create_unconformity (src/history.py lines
826-833): as in the stratigraphy builder but with no density substitution,
so the emitted lines keep the literal `$DENSITY$` placeholder. -/
def unconfLayerLines (name : Line) (height : ℚ) : List Line :=
  splitChar '\n'
    (pyReplace
      (pyReplace (pyReplace (S stratiLayerTemplate) (S "$NAME$") name)
        (S "$HEIGHT$") (fmtFixed 1 height))
      (S "    ") (S "\t"))

/-- Effectful map over a list in the `Except` monad (the loop bodies of
the builders). -/
def exceptMapM {e a b : Type} (f : a → Except e b) : List a → Except e (List b)
  | [] => .ok []
  | x :: xs => do
    let y ← f x
    let ys ← exceptMapM f xs
    .ok (y :: ys)

/-- NoddyHistory._create_stratigraphy (src/history.py lines 587-628).
Each layer contributes the template block with its name, the running sum
of the supplied thicknesses as its height, and its density (defaulting to
4.0 when the options carry none: only a missing `density` key is caught,
like the `except KeyError` of the source): the loop body of the builder. -/
def stratiLayerBody (opts : PyDict) (i : Nat) : Except PyErr (List Line) := do
  let name ← asStrE (← listGetE (← asListE (← dictGetE (S "layer_names") opts)) (i : Int))
  let density ← (match pyDictGet (S "density") opts with
    | none => Except.ok (4 : ℚ)
    | some dv => do asNumE (← listGetE (← asListE dv) (i : Int)))
  let thicks ← exceptMapM asNumE (← asListE (← dictGetE (S "layer_thickness") opts))
  let h ← listGetE (npCumsum thicks) (i : Int)
  Except.ok (stratiLayerLines name h density)

/-- NoddyHistory._create_stratigraphy (src/history.py lines 587-628): the
count line, the per-layer blocks, and the event name line. -/
def _create_stratigraphy (opts : PyDict) : Except PyErr Event := do
  let nl ← asIntE (← dictGetE (S "num_layers") opts)
  let layerBlocks ← exceptMapM (stratiLayerBody opts) (List.range nl.toNat)
  let tmp_lines := [([] : Line)] ++ [S "\tNum Layers\t= " ++ intStr nl]
    ++ layerBlocks.flatten ++ [S "\tName\t= Strat"]
  Except.ok
    { event_type := []
      event_lines := tmp_lines.map (fun l => l ++ ['\n'])
      event_number := 0
      properties := []
      layers := []
      num_layers := nl }

/-- NoddyHistory._create_fault (src/history.py lines 630-691).  Template
substitution in source order; note that the `'top'` convenience check of
the source compares the whole `pos` value with the string, so a tuple
position `(x, y, 'top')` never takes the `self.zmax` branch and instead
feeds the string `'top'` to `"%.1f"`, a `TypeError`. -/
def _create_fault (d : NoddyHistory) (opts : PyDict) : Except PyErr Event := do
  let name ← asStrE (← dictGetE (S "name") opts)
  let t1 := pyReplace (S faultTemplate) (S "$NAME$") name
  let pos ← dictGetE (S "pos") opts
  let t2 := pyReplace t1 (S "$POS_X$") (fmtFixed 1 (← asNumE (← pyValIndexE pos 0)))
  let t3 := pyReplace t2 (S "$POS_Y$") (fmtFixed 1 (← asNumE (← pyValIndexE pos 1)))
  let t4 ← (if pyValIsTop pos then do
      let z ← (match d.zmax with
        | some z => Except.ok z
        | none => Except.error PyErr.attributeError)
      Except.ok (pyReplace t3 (S "$POS_Z$") (fmtFixed 1 z))
    else do
      Except.ok (pyReplace t3 (S "$POS_Z$") (fmtFixed 1 (← asNumE (← pyValIndexE pos 2)))))
  let t5 := pyReplace t4 (S "$DIP_DIR$") (fmtFixed 1 (← asNumE (← dictGetE (S "dip_dir") opts)))
  let t6 := pyReplace t5 (S "$DIP$") (fmtFixed 1 (← asNumE (← dictGetE (S "dip") opts)))
  let t7 := pyReplace t6 (S "$SLIP$") (fmtFixed 1 (← asNumE (← dictGetE (S "slip") opts)))
  let t8 := pyReplace t7 (S "$MOVEMENT$")
    (← pyStrOf (dictGetD (S "movement") (.str (S "Hanging Wall")) opts))
  let t9 := pyReplace t8 (S "$GEOMETRY$")
    (← pyStrOf (dictGetD (S "geometry") (.str (S "Translation")) opts))
  let t10 := pyReplace t9 (S "$ROTATION$")
    (fmtFixed 1 (← asNumE (dictGetD (S "rotation") (.float 30) opts)))
  let t11 := pyReplace t10 (S "$AMPLITUDE$")
    (fmtFixed 1 (← asNumE (dictGetD (S "amplitude") (.float 2000) opts)))
  let t12 := pyReplace t11 (S "$RADIUS$")
    (fmtFixed 1 (← asNumE (dictGetD (S "radius") (.float 1000) opts)))
  let t13 := pyReplace t12 (S "$XAXIS$")
    (fmtFixed 1 (← asNumE (dictGetD (S "xaxis") (.float 2000) opts)))
  let t14 := pyReplace t13 (S "$YAXIS$")
    (fmtFixed 1 (← asNumE (dictGetD (S "yaxis") (.float 2000) opts)))
  let t15 := pyReplace t14 (S "$ZAXIS$")
    (fmtFixed 1 (← asNumE (dictGetD (S "zaxis") (.float 2000) opts)))
  let tmp_lines := [([] : Line)] ++ splitChar '\n' t15
  Except.ok
    { event_type := []
      event_lines := tmp_lines.map (fun l => l ++ ['\n'])
      event_number := 0
      properties := []
      layers := [] }

/-- NoddyHistory._create_fold (src/history.py lines 693-738). -/
def _create_fold (d : NoddyHistory) (opts : PyDict) : Except PyErr Event := do
  let name ← asStrE (← dictGetE (S "name") opts)
  let t1 := pyReplace (S foldTemplate) (S "$NAME$") name
  let pos ← dictGetE (S "pos") opts
  let t2 := pyReplace t1 (S "$POS_X$") (fmtFixed 1 (← asNumE (← pyValIndexE pos 0)))
  let t3 := pyReplace t2 (S "$POS_Y$") (fmtFixed 1 (← asNumE (← pyValIndexE pos 1)))
  let t4 ← (if pyValIsTop pos then do
      let z ← (match d.zmax with
        | some z => Except.ok z
        | none => Except.error PyErr.attributeError)
      Except.ok (pyReplace t3 (S "$POS_Z$") (fmtFixed 1 z))
    else do
      Except.ok (pyReplace t3 (S "$POS_Z$") (fmtFixed 1 (← asNumE (← pyValIndexE pos 2)))))
  let t5 := pyReplace t4 (S "$WAVELENGTH$")
    (fmtFixed 1 (← asNumE (← dictGetE (S "wavelength") opts)))
  let t6 := pyReplace t5 (S "$AMPLITUDE$")
    (fmtFixed 1 (← asNumE (← dictGetE (S "amplitude") opts)))
  let t7 := pyReplace t6 (S "$DIP_DIR$")
    (fmtFixed 1 (← asNumE (dictGetD (S "dip_dir") (.float 90) opts)))
  let t8 := pyReplace t7 (S "$DIP$")
    (fmtFixed 1 (← asNumE (dictGetD (S "dip") (.float 90) opts)))
  let tmp_lines := [([] : Line)] ++ splitChar '\n' t8
  Except.ok
    { event_type := []
      event_lines := tmp_lines.map (fun l => l ++ ['\n'])
      event_number := 0
      properties := []
      layers := [] }

/-- NoddyHistory._create_tilt (src/history.py lines 741-783). -/
def _create_tilt (d : NoddyHistory) (opts : PyDict) : Except PyErr Event := do
  let name ← asStrE (← dictGetE (S "name") opts)
  let t1 := pyReplace (S tiltTemplate) (S "$NAME$") name
  let pos ← dictGetE (S "pos") opts
  let t2 := pyReplace t1 (S "$POS_X$") (fmtFixed 1 (← asNumE (← pyValIndexE pos 0)))
  let t3 := pyReplace t2 (S "$POS_Y$") (fmtFixed 1 (← asNumE (← pyValIndexE pos 1)))
  let t4 ← (if pyValIsTop pos then do
      let z ← (match d.zmax with
        | some z => Except.ok z
        | none => Except.error PyErr.attributeError)
      Except.ok (pyReplace t3 (S "$POS_Z$") (fmtFixed 1 z))
    else do
      Except.ok (pyReplace t3 (S "$POS_Z$") (fmtFixed 1 (← asNumE (← pyValIndexE pos 2)))))
  let t5 := pyReplace t4 (S "$ROTATION$")
    (fmtFixed 1 (← asNumE (← dictGetE (S "rotation") opts)))
  let t6 := pyReplace t5 (S "$PLUNGE_DIRECTION$")
    (fmtFixed 1 (← asNumE (← dictGetE (S "plunge_direction") opts)))
  let t7 := pyReplace t6 (S "$PLUNGE$")
    (fmtFixed 1 (← asNumE (← dictGetE (S "plunge") opts)))
  let tmp_lines := [([] : Line)] ++ splitChar '\n' t7
  Except.ok
    { event_type := []
      event_lines := tmp_lines.map (fun l => l ++ ['\n'])
      event_number := 0
      properties := []
      layers := [] }

/-- NoddyHistory._create_unconformity (src/history.py lines 786-842). -/
def _create_unconformity (d : NoddyHistory) (opts : PyDict) : Except PyErr Event := do
  let name ← asStrE (← dictGetE (S "name") opts)
  let t1 := pyReplace (S unconformityTemplate) (S "$NAME$") name
  let pos ← dictGetE (S "pos") opts
  let t2 := pyReplace t1 (S "$POS_X$") (fmtFixed 1 (← asNumE (← pyValIndexE pos 0)))
  let t3 := pyReplace t2 (S "$POS_Y$") (fmtFixed 1 (← asNumE (← pyValIndexE pos 1)))
  let t4 ← (if pyValIsTop pos then do
      let z ← (match d.zmax with
        | some z => Except.ok z
        | none => Except.error PyErr.attributeError)
      Except.ok (pyReplace t3 (S "$POS_Z$") (fmtFixed 1 z))
    else do
      Except.ok (pyReplace t3 (S "$POS_Z$") (fmtFixed 1 (← asNumE (← pyValIndexE pos 2)))))
  let t5 := pyReplace t4 (S "$DIP_DIRECTION$")
    (fmtFixed 1 (← asNumE (← dictGetE (S "dip_direction") opts)))
  let t6 := pyReplace t5 (S "$DIP$")
    (fmtFixed 1 (← asNumE (← dictGetE (S "dip") opts)))
  let nl ← asIntE (← dictGetE (S "num_layers") opts)
  let layerBlocks ← exceptMapM (fun i => do
    let lname ← asStrE (← listGetE (← asListE (← dictGetE (S "layer_names") opts)) (i : Int))
    let thicks ← exceptMapM asNumE (← asListE (← dictGetE (S "layer_thickness") opts))
    let h ← listGetE (npCumsum thicks) (i : Int)
    Except.ok (unconfLayerLines lname h)) (List.range nl.toNat)
  let nameLine := S "\tName\t= "
    ++ (← pyStrOf (dictGetD (S "name") (.str (S "Unconf")) opts))
  let tmp_lines := [([] : Line)] ++ splitChar '\n' t6
    ++ [S "\tNum Layers\t= " ++ intStr nl] ++ layerBlocks.flatten ++ [nameLine]
  Except.ok
    { event_type := []
      event_lines := tmp_lines.map (fun l => l ++ ['\n'])
      event_number := 0
      properties := []
      layers := []
      num_layers := nl }

/-- Type dispatch of add_event (src/history.py lines 536-558): build the
event and stamp its `event_type`; unknown type names raise `NameError`. -/
def createDispatch (d : NoddyHistory) (event_type : Line) (opts : PyDict) :
    Except PyErr Event :=
  if event_type = S "stratigraphy" then do
    let e ← _create_stratigraphy opts
    Except.ok { e with event_type := S "STRATIGRAPHY" }
  else if event_type = S "fault" then do
    let e ← _create_fault d opts
    Except.ok { e with event_type := S "FAULT" }
  else if event_type = S "tilt" then do
    let e ← _create_tilt d opts
    Except.ok { e with event_type := S "TILT" }
  else if event_type = S "unconformity" then do
    let e ← _create_unconformity d opts
    Except.ok { e with event_type := S "UNCONFORMITY" }
  else if event_type = S "fold" then do
    let e ← _create_fold d opts
    Except.ok { e with event_type := S "FOLD" }
  else Except.error PyErr.nameError

/-- NoddyHistory.add_event (src/history.py lines 523-569).  The counter
default argument is evaluated unconditionally, so the counter attribute is
required and bumped even when an explicit event number is supplied.  The
line-splice expression at the end of the source is computed and its value
discarded, so `history_lines` is untouched. -/
def add_event (d : NoddyHistory) (event_type : Line) (opts : PyDict)
    (event_num_arg : Option Int) : Except PyErr NoddyHistory := do
  let c0 ← (match d.event_counter with
    | some c => Except.ok c
    | none => Except.error PyErr.attributeError)
  let counter := c0 + 1
  let event_num := event_num_arg.getD counter
  let ev0 ← createDispatch d event_type opts
  let ev := setEventNumber event_num ev0
  let newEnd := d.all_events_end + ev.event_lines.length
  let _discarded := pySlice d.history_lines 0 d.all_events_begin
    ++ ev.event_lines ++ pySlice d.history_lines newEnd (d.history_lines.length : Int)
  Except.ok
    { d with
      events := pyDictSet event_num ev d.events
      event_counter := some counter
      all_events_end := newEnd }

/-! Correctness lemmas for the digit and number primitives. -/

theorem digitChar_isDigit {d : Nat} : isDigitChar (digitChar d) = true := by
  unfold digitChar
  split_ifs <;> decide

theorem charVal_digitChar {d : Nat} (h : d < 10) : charVal (digitChar d) = d := by
  unfold digitChar
  split_ifs with h0 h1 h2 h3 h4 h5 h6 h7 h8
  · subst h0; decide
  · subst h1; decide
  · subst h2; decide
  · subst h3; decide
  · subst h4; decide
  · subst h5; decide
  · subst h6; decide
  · subst h7; decide
  · subst h8; decide
  · have h9 : d = 9 := by omega
    subst h9; decide

theorem digitsRevAux_mem_lt {fuel n d : Nat} (h : d ∈ digitsRevAux fuel n) : d < 10 := by
  induction fuel generalizing n with
  | zero => simp [digitsRevAux] at h
  | succ fuel ih =>
    cases n with
    | zero => simp [digitsRevAux] at h
    | succ m =>
      simp only [digitsRevAux, List.mem_cons] at h
      rcases h with h | h
      · omega
      · exact ih h

theorem digitsRevAux_ofDigits {fuel n : Nat} (h : n ≤ fuel) :
    Nat.ofDigits 10 (digitsRevAux fuel n) = n := by
  induction fuel generalizing n with
  | zero =>
    have hn : n = 0 := Nat.le_zero.mp h
    subst hn; simp [digitsRevAux]
  | succ fuel ih =>
    cases n with
    | zero => simp [digitsRevAux]
    | succ m =>
      have hdiv : (m + 1) / 10 ≤ fuel := by omega
      simp only [digitsRevAux, Nat.ofDigits_cons, ih hdiv]
      omega

theorem valBE_append_single (xs : List Nat) (d : Nat) :
    valBE (xs ++ [d]) = 10 * valBE xs + d := by
  simp [valBE, List.foldl_append]

theorem valBE_reverse_ofDigits (ds : List Nat) :
    valBE ds.reverse = Nat.ofDigits 10 ds := by
  induction ds with
  | nil => simp [valBE, Nat.ofDigits]
  | cons d ds ih =>
    simp only [List.reverse_cons, valBE_append_single, ih, Nat.ofDigits_cons]
    ring

theorem map_charVal_digitChar {ds : List Nat} (h : ∀ d ∈ ds, d < 10) :
    (ds.map digitChar).map charVal = ds := by
  induction ds with
  | nil => rfl
  | cons d ds ih =>
    simp only [List.map_cons, charVal_digitChar (h d (List.mem_cons_self d ds)),
      ih (fun x hx => h x (List.mem_cons_of_mem d hx))]

theorem valBE_natDigits (n : Nat) : valBE ((natDigits n).map charVal) = n := by
  unfold natDigits
  by_cases h : n = 0
  · simp [h, valBE, charVal]
  · simp only [h, if_false]
    rw [← List.map_reverse, map_charVal_digitChar
      (fun d hd => digitsRevAux_mem_lt (List.mem_reverse.mp hd))]
    rw [valBE_reverse_ofDigits, digitsRevAux_ofDigits (Nat.le_refl n)]

theorem natDigits_all_digit {n : Nat} : ∀ c ∈ natDigits n, isDigitChar c = true := by
  intro c hc
  unfold natDigits at hc
  by_cases h : n = 0
  · simp [h] at hc; subst hc; decide
  · simp only [h, if_false, List.mem_reverse, List.mem_map] at hc
    obtain ⟨d, _, rfl⟩ := hc
    exact digitChar_isDigit

theorem natDigits_ne_nil {n : Nat} : natDigits n ≠ [] := by
  unfold natDigits
  by_cases h : n = 0
  · simp [h]
  · simp only [h, if_false]
    intro hcon
    apply h
    have hrev : digitsRevAux n n = [] := by
      rcases hd : digitsRevAux n n with _ | ⟨a, l⟩
      · rfl
      · rw [hd] at hcon; simp at hcon
    have hv := digitsRevAux_ofDigits (Nat.le_refl n)
    rw [hrev] at hv
    simpa [Nat.ofDigits] using hv.symm

theorem parseDigits_natDigits (n : Nat) : parseDigits (natDigits n) = some n := by
  unfold parseDigits
  rw [if_neg (by simpa using natDigits_ne_nil)]
  rw [if_pos (by simpa using natDigits_all_digit)]
  rw [valBE_natDigits]

/-! Lemmas about stripping, splitting and fixed-point parsing. -/

theorem dropWhile_append_all {p : Char → Bool} {a b : Line}
    (h : ∀ c ∈ a, p c = true) : List.dropWhile p (a ++ b) = List.dropWhile p b := by
  induction a with
  | nil => rfl
  | cons c rest ih =>
    rw [List.cons_append, List.dropWhile_cons, if_pos (h c (List.mem_cons_self c rest))]
    exact ih (fun x hx => h x (List.mem_cons_of_mem c hx))

theorem pyStripR_append_allspace {a b : Line} (h : ∀ c ∈ b, isPySpace c = true) :
    pyStripR (a ++ b) = pyStripR a := by
  unfold pyStripR
  rw [List.reverse_append, dropWhile_append_all (fun c hc => h c (List.mem_reverse.mp hc))]

theorem pyStripR_append_nonspace {a b : Line} (hb : b ≠ [])
    (h : ∀ c ∈ b, isPySpace c = false) : pyStripR (a ++ b) = a ++ b := by
  unfold pyStripR
  rw [List.reverse_append]
  obtain ⟨c, rest, hbr⟩ : ∃ c rest, b.reverse = c :: rest := by
    rcases hr : b.reverse with _ | ⟨c, rest⟩
    · exact absurd (by simpa using congrArg List.reverse hr) hb
    · exact ⟨c, rest, rfl⟩
  have hc : c ∈ b := by
    rw [← List.mem_reverse, hbr]; exact List.mem_cons_self c rest
  rw [hbr, List.cons_append, List.dropWhile_cons, if_neg (by simp [h c hc])]
  have hb2 : rest.reverse ++ [c] = b := by
    have : (c :: rest).reverse = b := by rw [← hbr, List.reverse_reverse]
    rw [← this, List.reverse_cons]
  simp only [List.reverse_cons, List.reverse_append, List.reverse_reverse, List.append_assoc]
  rw [hb2]

theorem pyStripR_nonspace {b : Line} (hb : b ≠ [])
    (h : ∀ c ∈ b, isPySpace c = false) : pyStripR b = b := by
  have := pyStripR_append_nonspace (a := []) hb h
  simpa using this

theorem pyStripL_append_allspace {a b : Line} (h : ∀ c ∈ a, isPySpace c = true) :
    pyStripL (a ++ b) = pyStripL b := dropWhile_append_all h

theorem pyStripL_cons_nonspace {c : Char} {l : Line} (h : isPySpace c = false) :
    pyStripL (c :: l) = c :: l := by
  unfold pyStripL
  rw [List.dropWhile_cons, if_neg (by simp [h])]

theorem replicate_space_all {k : Nat} : ∀ c ∈ List.replicate k ' ', isPySpace c = true := by
  intro c hc
  rw [List.eq_of_mem_replicate hc]
  decide

theorem digit_nonspace {c : Char} (h : isDigitChar c = true) : isPySpace c = false := by
  revert h
  unfold isDigitChar isPySpace
  intro h
  simp only [Bool.and_eq_true, decide_eq_true_eq] at h
  obtain ⟨h1, h2⟩ := h
  simp only [Bool.or_eq_false_iff, decide_eq_false_iff_not]
  refine ⟨⟨⟨⟨⟨?_, ?_⟩, ?_⟩, ?_⟩, ?_⟩, ?_⟩ <;>
    (intro hcon; subst hcon; revert h1 h2; decide)

theorem zeroPad_all_digit {k : Nat} {ds : Line} (h : ∀ c ∈ ds, isDigitChar c = true) :
    ∀ c ∈ zeroPad k ds, isDigitChar c = true := by
  intro c hc
  unfold zeroPad at hc
  rcases List.mem_append.mp hc with hc | hc
  · rw [List.eq_of_mem_replicate hc]; decide
  · exact h c hc

theorem zeroPad_length {k : Nat} {ds : Line} (h : ds.length ≤ k) :
    (zeroPad k ds).length = k := by
  unfold zeroPad
  simp [List.length_append, List.length_replicate]
  omega

theorem zeroPad_ne_nil {k : Nat} {ds : Line} (h : ds ≠ []) : zeroPad k ds ≠ [] := by
  unfold zeroPad
  intro hcon
  rcases List.append_eq_nil.mp hcon with ⟨_, h2⟩
  exact h h2

theorem valBE_replicate_zero {k : Nat} {ds : List Nat} :
    valBE (List.replicate k 0 ++ ds) = valBE ds := by
  induction k with
  | zero => rfl
  | succ k ih =>
    rw [List.replicate_succ, List.cons_append]
    show valBE (List.replicate k 0 ++ ds) = valBE ds
    exact ih

theorem digitsRevAux_length_le {fuel n k : Nat} (h : n < 10 ^ k) :
    (digitsRevAux fuel n).length ≤ k := by
  induction fuel generalizing n k with
  | zero => simp [digitsRevAux]
  | succ fuel ih =>
    cases n with
    | zero => simp [digitsRevAux]
    | succ m =>
      cases k with
      | zero => simp at h
      | succ k =>
        have hd : (m + 1) / 10 < 10 ^ k := by
          rw [Nat.div_lt_iff_lt_mul (by omega : 0 < 10)]
          calc m + 1 < 10 ^ (k + 1) := h
          _ = 10 ^ k * 10 := by rw [pow_succ]
        simpa [digitsRevAux] using ih hd

theorem natDigits_length_le {n k : Nat} (hk : 0 < k) (h : n < 10 ^ k) :
    (natDigits n).length ≤ k := by
  unfold natDigits
  by_cases h0 : n = 0
  · simpa [h0] using hk
  · simpa [h0] using digitsRevAux_length_le h

theorem takeWhile_append_stop {p : Char → Bool} {a : Line} {b0 : Char} {bs : Line}
    (ha : ∀ c ∈ a, p c = true) (hb : p b0 = false) :
    List.takeWhile p (a ++ b0 :: bs) = a := by
  induction a with
  | nil => rw [List.nil_append, List.takeWhile_cons, if_neg (by simp [hb])]
  | cons c rest ih =>
    rw [List.cons_append, List.takeWhile_cons, if_pos (ha c (List.mem_cons_self c rest))]
    rw [ih (fun x hx => ha x (List.mem_cons_of_mem c hx))]

theorem pyFloatCore_digits_dot {A B : Line}
    (hA : ∀ c ∈ A, isDigitChar c = true) (hAne : A ≠ [])
    (hB : ∀ c ∈ B, isDigitChar c = true) :
    pyFloatCore (A ++ '.' :: B) =
      some (mkRatDec (valBE (A.map charVal)) (valBE (B.map charVal)) B.length) := by
  unfold pyFloatCore
  have ht : List.takeWhile isDigitChar (A ++ '.' :: B) = A :=
    takeWhile_append_stop hA (by decide)
  rw [ht, List.drop_left]
  have hall : B.all isDigitChar = true := List.all_eq_true.mpr (by simpa using hB)
  simp [pyFloatParts, hall, List.isEmpty_iff, hAne]

theorem fmtFixedNN_all {p n : Nat} :
    ∀ c ∈ fmtFixedNN p n, isDigitChar c = true ∨ c = '.' := by
  intro c hc
  unfold fmtFixedNN at hc
  rcases List.mem_append.mp hc with hc | hc
  · exact Or.inl (natDigits_all_digit c hc)
  · rcases List.mem_cons.mp hc with hc | hc
    · exact Or.inr hc
    · exact Or.inl (zeroPad_all_digit natDigits_all_digit c hc)

theorem fmtFixedNN_nonspace {p n : Nat} :
    ∀ c ∈ fmtFixedNN p n, isPySpace c = false := by
  intro c hc
  rcases fmtFixedNN_all c hc with h | h
  · exact digit_nonspace h
  · subst h; decide

theorem fmtFixedNN_ne_nil {p n : Nat} : fmtFixedNN p n ≠ [] := by
  unfold fmtFixedNN
  intro hcon
  rcases List.append_eq_nil.mp hcon with ⟨h1, _⟩
  exact natDigits_ne_nil h1

theorem digit_not_sign {c : Char} (h : isDigitChar c = true) : c ≠ '-' ∧ c ≠ '+' := by
  constructor <;> (intro hcon; subst hcon; revert h; decide)

theorem map_charVal_zeroPad {k : Nat} {ds : Line} :
    (zeroPad k ds).map charVal = List.replicate (k - ds.length) 0 ++ ds.map charVal := by
  unfold zeroPad
  rw [List.map_append, List.map_replicate]
  rfl

theorem pyFloatSigned_digit_head {c : Char} {rest : Line} (h : isDigitChar c = true) :
    pyFloatSigned (c :: rest) = pyFloatCore (c :: rest) := by
  have h1 := (digit_not_sign h).1
  have h2 := (digit_not_sign h).2
  simp [pyFloatSigned, h1, h2]

theorem pyFloat_format (w p n : Nat) (hp : 0 < p) :
    pyFloat (pyStripR (padWidth w (fmtFixedNN p n) ++ S "\r\n")) =
      some (mkRatDec (n / 10 ^ p) (n % 10 ^ p) p) := by
  have hcrlf : ∀ c ∈ S "\r\n", isPySpace c = true := by decide
  rw [pyStripR_append_allspace hcrlf]
  unfold padWidth
  rw [pyStripR_append_nonspace fmtFixedNN_ne_nil fmtFixedNN_nonspace]
  unfold pyFloat pyStrip
  rw [pyStripR_append_nonspace fmtFixedNN_ne_nil fmtFixedNN_nonspace]
  rw [pyStripL_append_allspace replicate_space_all]
  unfold fmtFixedNN
  obtain ⟨c, cs, hnd⟩ := List.exists_cons_of_ne_nil (natDigits_ne_nil (n := n / 10 ^ p))
  have hcd : isDigitChar c = true := by
    apply natDigits_all_digit
    rw [hnd]; exact List.mem_cons_self c cs
  rw [hnd, List.cons_append]
  rw [pyStripL_cons_nonspace (digit_nonspace hcd)]
  rw [pyFloatSigned_digit_head hcd]
  rw [← List.cons_append, ← hnd]
  rw [pyFloatCore_digits_dot natDigits_all_digit natDigits_ne_nil
    (zeroPad_all_digit natDigits_all_digit)]
  have hmod : n % 10 ^ p < 10 ^ p := Nat.mod_lt n (Nat.pos_pow_of_pos p (by omega))
  have hlen : (zeroPad p (natDigits (n % 10 ^ p))).length = p :=
    zeroPad_length (natDigits_length_le hp hmod)
  rw [hlen, valBE_natDigits, map_charVal_zeroPad, valBE_replicate_zero, valBE_natDigits]

theorem mkRatDec_div (n p : Nat) : mkRatDec (n / 10 ^ p) (n % 10 ^ p) p = (n : ℚ) / 10 ^ p := by
  unfold mkRatDec
  have h10 : ((10 : ℚ) ^ p) ≠ 0 := by positivity
  rw [eq_div_iff h10, add_mul, div_mul_cancel₀ _ h10]
  have hdm := Nat.div_add_mod n (10 ^ p)
  calc ((n / 10 ^ p : ℕ) : ℚ) * 10 ^ p + ((n % 10 ^ p : ℕ) : ℚ)
      = ((10 ^ p * (n / 10 ^ p) + n % 10 ^ p : ℕ) : ℚ) := by push_cast; ring
    _ = (n : ℚ) := by rw [hdm]

theorem roundHalfEven_nonneg {q : ℚ} (h : 0 ≤ q) : 0 ≤ roundHalfEven q := by
  have hf : (0 : ℤ) ≤ ⌊q⌋ := Int.floor_nonneg.mpr h
  unfold roundHalfEven
  split_ifs <;> omega

theorem roundHalfEven_intCast (m : ℤ) : roundHalfEven ((m : ℤ) : ℚ) = m := by
  unfold roundHalfEven
  rw [Int.floor_intCast]
  rw [if_pos]
  rw [sub_self]
  norm_num

theorem fmtFixed_nonneg {p : Nat} {q : ℚ} (h : 0 ≤ q) :
    fmtFixed p q = fmtFixedNN p (roundHalfEven (q * 10 ^ p)).toNat := by
  unfold fmtFixed
  rw [if_neg (not_lt.mpr h)]

/-! Lemmas about splitChar. -/

theorem splitChar_ne_nil {c : Char} {l : Line} : splitChar c l ≠ [] := by
  induction l with
  | nil => simp [splitChar]
  | cons a rest ih =>
    unfold splitChar
    by_cases h : a = c
    · simp [h]
    · simp only [h, if_false]
      rcases hs : splitChar c rest with _ | ⟨p, ps⟩
      · simp
      · simp

theorem splitChar_cons_ne {c x : Char} {l : Line} (hx : ¬x = c) :
    splitChar c (x :: l) = (x :: (splitChar c l).headI) :: (splitChar c l).tail := by
  rcases hs : splitChar c l with _ | ⟨p, ps⟩
  · exact absurd hs splitChar_ne_nil
  · conv_lhs => unfold splitChar
    simp only [hx, if_false, hs]
    rfl

theorem splitChar_no_sep {c : Char} {l : Line} (h : c ∉ l) : splitChar c l = [l] := by
  induction l with
  | nil => rfl
  | cons a rest ih =>
    unfold splitChar
    have ha : ¬a = c := by
      intro hcon; exact h (by rw [hcon]; exact List.mem_cons_self c rest)
    simp only [ha, if_false]
    rw [ih (fun hm => h (List.mem_cons_of_mem a hm))]

theorem splitChar_append_sep {c : Char} {a b : Line} (h : c ∉ a) :
    splitChar c (a ++ c :: b) = a :: splitChar c b := by
  induction a with
  | nil => simp [splitChar]
  | cons x rest ih =>
    have hx : ¬x = c := by
      intro hcon; exact h (by rw [hcon]; exact List.mem_cons_self c rest)
    rw [List.cons_append, splitChar_cons_ne hx, ih (fun hm => h (List.mem_cons_of_mem x hm))]
    rfl

theorem splitChar_headI_isPrefix {c : Char} {l : Line} :
    (splitChar c l).headI <+: l := by
  induction l with
  | nil => simp [splitChar]
  | cons a rest ih =>
    unfold splitChar
    by_cases h : a = c
    · simp [h]
    · simp only [h, if_false]
      rcases hs : splitChar c rest with _ | ⟨p, ps⟩
      · exact absurd hs splitChar_ne_nil
      · rw [hs] at ih
        simp only [List.headI] at ih ⊢
        obtain ⟨t, ht⟩ := ih
        exact ⟨t, by rw [List.cons_append, ht]⟩

theorem splitChar_headI_not_mem {c : Char} {l : Line} : c ∉ (splitChar c l).headI := by
  induction l with
  | nil => simp [splitChar]
  | cons a rest ih =>
    unfold splitChar
    by_cases h : a = c
    · simp [h]
    · simp only [h, if_false]
      rcases hs : splitChar c rest with _ | ⟨p, ps⟩
      · exact absurd hs splitChar_ne_nil
      · rw [hs] at ih
        simp only [List.headI] at ih ⊢
        intro hmem
        rcases List.mem_cons.mp hmem with hm | hm
        · exact h hm.symm
        · exact ih hm

/-! Claim C1: cube-size update and read-back. -/

theorem containsSub_iff {n h : Line} : containsSub n h = true ↔ n <:+: h := by
  unfold containsSub
  exact decide_eq_true_iff

theorem containsSub_of_headI_within {anchor l : Line} {c : Char}
    (h : containsSub anchor ((splitChar c l).headI) = true) : containsSub anchor l = true := by
  rw [containsSub_iff] at h ⊢
  exact h.trans (splitChar_headI_isPrefix.isInfix)

theorem fmtFixedNN_no_eq {p n : Nat} : '=' ∉ fmtFixedNN p n := by
  intro h
  rcases fmtFixedNN_all '=' h with h | h
  · revert h; decide
  · revert h; decide

theorem cubeValue_no_eq {v : ℚ} (hv : 0 ≤ v) :
    '=' ∉ padWidth 7 (fmtFixed 2 v) ++ S "\r\n" := by
  rw [fmtFixed_nonneg hv]
  intro h
  rcases List.mem_append.mp h with h | h
  · unfold padWidth at h
    rcases List.mem_append.mp h with h | h
    · exact absurd (List.eq_of_mem_replicate h) (by decide)
    · exact fmtFixedNN_no_eq h
  · revert h; decide

theorem find?_append_none {α : Type} {p : α → Bool} {a b : List α}
    (h : a.find? p = none) : (a ++ b).find? p = b.find? p := by
  induction a with
  | nil => rfl
  | cons x rest ih =>
    rw [List.cons_append]
    simp only [List.find?] at h ⊢
    cases hpx : p x
    · simp only [hpx] at h ⊢
      exact ih h
    · simp only [hpx] at h
      simp at h

/-- The stored cube size after `change_cube_size v`: the formatted value,
that is `v` rounded to two decimal places. -/
def cubeStored (v : ℚ) : ℚ := ((roundHalfEven (v * 10 ^ 2) : ℤ) : ℚ) / 10 ^ 2

theorem parse_changeCubeRewrite {v : ℚ} (hv : 0 ≤ v) (line : Line) :
    (match (splitChar '=' (changeCubeRewrite v line)).get? 1 with
      | none => Except.error PyErr.indexError
      | some part =>
        match pyFloat (pyStripR part) with
        | none => Except.error PyErr.valueError
        | some q => Except.ok (some q)) = Except.ok (some (cubeStored v)) := by
  unfold changeCubeRewrite
  rw [splitChar_append_sep splitChar_headI_not_mem]
  rw [splitChar_no_sep (cubeValue_no_eq hv)]
  simp only [List.get?]
  rw [fmtFixed_nonneg hv]
  rw [pyFloat_format 7 2 _ (by omega)]
  rw [mkRatDec_div]
  have hcast : ∀ m : ℤ, 0 ≤ m → ((m.toNat : ℕ) : ℚ) = (m : ℚ) := fun m hm => by
    exact_mod_cast Int.toNat_of_nonneg hm
  rw [hcast _ (roundHalfEven_nonneg (by positivity))]
  rfl

theorem changeCubeRewrite_contains_of_headI {anchor line : Line}
    (h : containsSub anchor ((splitChar '=' line).headI) = true) :
    containsSub anchor (changeCubeRewrite v line) = true := by
  rw [containsSub_iff] at h ⊢
  unfold changeCubeRewrite
  obtain ⟨s, u, hsu⟩ := h
  refine ⟨s, u ++ '=' :: (padWidth 7 (fmtFixed 2 v) ++ S "\r\n"), ?_⟩
  rw [← hsu]
  simp [List.append_assoc]

theorem changeCubeLine_geology {v : ℚ} {line : Line}
    (h : containsSub geologyAnchor line = true) :
    changeCubeLine v line = changeCubeRewrite v line := by
  unfold changeCubeLine
  simp only [h, if_true]

theorem changeCubeLine_geophysics {v : ℚ} {line : Line}
    (h : containsSub geophysicsAnchor line = true) :
    changeCubeLine v line = changeCubeRewrite v line := by
  unfold changeCubeLine
  by_cases hg : containsSub geologyAnchor line = true
  · simp only [hg, if_true]
  · simp only [h, if_true]
    simp only [Bool.not_eq_true] at hg
    simp only [hg, if_true]
    simp

theorem changeCubeLine_skip {v : ℚ} {line : Line}
    (h1 : containsSub geologyAnchor line = false)
    (h2 : containsSub geophysicsAnchor line = false) :
    changeCubeLine v line = line := by
  unfold changeCubeLine
  simp [h1, h2]

theorem cubeStored_exact {v : ℚ} (h : (v * 10 ^ 2).den = 1) : cubeStored v = v := by
  unfold cubeStored
  have hnum : (((v * 10 ^ 2).num : ℤ) : ℚ) = v * 10 ^ 2 := by
    rw [← Rat.den_eq_one_iff]
    exact h
  rw [show v * 10 ^ 2 = (((v * 10 ^ 2).num : ℤ) : ℚ) from hnum.symm, roundHalfEven_intCast]
  rw [hnum]
  field_simp

theorem map_id_of_mem {α : Type} {f : α → α} {l : List α} (h : ∀ x ∈ l, f x = x) :
    l.map f = l := by
  induction l with
  | nil => rfl
  | cons x rest ih =>
    rw [List.map_cons, h x (List.mem_cons_self x rest),
      ih (fun y hy => h y (List.mem_cons_of_mem x hy))]

theorem cube_roundtrip_general (A B C : List Line) (g1 g2 : Line) (v : ℚ) (hv : 0 ≤ v)
    (hA : ∀ l ∈ A, containsSub geologyAnchor l = false ∧ containsSub geophysicsAnchor l = false)
    (hB : ∀ l ∈ B, containsSub geologyAnchor l = false ∧ containsSub geophysicsAnchor l = false)
    (hg1 : containsSub geologyAnchor ((splitChar '=' g1).headI) = true)
    (hg2 : containsSub geophysicsAnchor ((splitChar '=' g2).headI) = true) :
    get_cube_size (S "Geology") (change_cube_size v (A ++ g1 :: (B ++ g2 :: C)))
        = .ok (some (cubeStored v)) ∧
    get_cube_size (S "Geophysics") (change_cube_size v (A ++ g1 :: (B ++ g2 :: C)))
        = .ok (some (cubeStored v)) := by
  have hmap : change_cube_size v (A ++ g1 :: (B ++ g2 :: C)) =
      A ++ changeCubeRewrite v g1 ::
        (B ++ changeCubeRewrite v g2 :: C.map (changeCubeLine v)) := by
    unfold change_cube_size
    rw [List.map_append, List.map_cons, List.map_append, List.map_cons]
    rw [map_id_of_mem (fun x hx => changeCubeLine_skip (hA x hx).1 (hA x hx).2)]
    rw [map_id_of_mem (fun x hx => changeCubeLine_skip (hB x hx).1 (hB x hx).2)]
    rw [changeCubeLine_geology (containsSub_of_headI_within hg1)]
    rw [changeCubeLine_geophysics (containsSub_of_headI_within hg2)]
  rw [hmap]
  constructor
  · unfold get_cube_size
    rw [show cubeAnchorFor (S "Geology") = geologyAnchor from by
      unfold cubeAnchorFor; rw [if_pos (by decide)]]
    rw [find?_append_none (List.find?_eq_none.mpr (fun x hx => by simp [(hA x hx).1]))]
    simp only [List.find?, changeCubeRewrite_contains_of_headI hg1]
    exact parse_changeCubeRewrite hv g1
  · unfold get_cube_size
    rw [show cubeAnchorFor (S "Geophysics") = geophysicsAnchor from by
      unfold cubeAnchorFor; rw [if_neg (by decide)]]
    rw [find?_append_none (List.find?_eq_none.mpr (fun x hx => by simp [(hA x hx).2]))]
    by_cases h1 : containsSub geophysicsAnchor (changeCubeRewrite v g1) = true
    · simp only [List.find?, h1]
      exact parse_changeCubeRewrite hv g1
    · have hfalse : containsSub geophysicsAnchor (changeCubeRewrite v g1) = false := by
        revert h1; cases containsSub geophysicsAnchor (changeCubeRewrite v g1) <;> simp
      simp only [List.find?, hfalse]
      rw [find?_append_none (List.find?_eq_none.mpr (fun x hx => by simp [(hB x hx).2]))]
      simp only [List.find?, changeCubeRewrite_contains_of_headI hg2]
      exact parse_changeCubeRewrite hv g2

/-- C1 (corrected): on a footer whose cube-size anchor lines are present
(geology first, as in the fixed format), `change_cube_size v` rewrites both
cube-size fields to the same formatted value, and both
`get_cube_size(type='Geology')` and `get_cube_size(type='Geophysics')`
afterwards return that value: `v` rounded to two decimal places by the
`'%7.2f'` write format, equal to `v` exactly whenever `v * 100` is an
integer.  The claim as stated (the getters return `v` itself for every
`v`) fails for values finer than the two-decimal format, see the
counterexample. -/
theorem claim_C1_cube_size_consistency (A B C : List Line) (g1 g2 : Line) (v : ℚ)
    (hv : 0 ≤ v)
    (hA : ∀ l ∈ A, containsSub geologyAnchor l = false ∧ containsSub geophysicsAnchor l = false)
    (hB : ∀ l ∈ B, containsSub geologyAnchor l = false ∧ containsSub geophysicsAnchor l = false)
    (hg1 : containsSub geologyAnchor ((splitChar '=' g1).headI) = true)
    (hg2 : containsSub geophysicsAnchor ((splitChar '=' g2).headI) = true) :
    get_cube_size (S "Geology") (change_cube_size v (A ++ g1 :: (B ++ g2 :: C)))
        = .ok (some (cubeStored v)) ∧
    get_cube_size (S "Geophysics") (change_cube_size v (A ++ g1 :: (B ++ g2 :: C)))
        = .ok (some (cubeStored v)) ∧
    ((v * 10 ^ 2).den = 1 → cubeStored v = v) := by
  obtain ⟨h1, h2⟩ := cube_roundtrip_general A B C g1 g2 v hv hA hB hg1 hg2
  exact ⟨h1, h2, fun h => cubeStored_exact h⟩

/-- Witness for C1: a concrete footer in the shape of the built-in
template, updated to cube size 50. -/
theorem claim_C1_cube_size_consistency_witness :
    get_cube_size (S "Geology")
        (change_cube_size 50 ([S "#BlockOptions\n"] ++ S "    Geology Cube Size    =  50.00\n" ::
          ([] ++ S "    Geophysics Cube Size    = 50.00\n" :: [])))
        = .ok (some (cubeStored 50)) ∧
    get_cube_size (S "Geophysics")
        (change_cube_size 50 ([S "#BlockOptions\n"] ++ S "    Geology Cube Size    =  50.00\n" ::
          ([] ++ S "    Geophysics Cube Size    = 50.00\n" :: [])))
        = .ok (some (cubeStored 50)) ∧
    (((50 : ℚ) * 10 ^ 2).den = 1 → cubeStored 50 = 50) :=
  claim_C1_cube_size_consistency [S "#BlockOptions\n"] [] []
    (S "    Geology Cube Size    =  50.00\n") (S "    Geophysics Cube Size    = 50.00\n")
    50 (by norm_num) (by decide) (by decide) (by decide) (by decide)

theorem cubeStored_eighth : cubeStored (1/8 : ℚ) = 3/25 := by
  unfold cubeStored
  have h1 : (1/8 : ℚ) * 10 ^ 2 = 25/2 := by norm_num
  have hfl : ⌊(25/2 : ℚ)⌋ = 12 := by
    rw [Int.floor_eq_iff]
    constructor <;> norm_num
  rw [h1]
  unfold roundHalfEven
  rw [hfl]
  rw [if_neg (by norm_num), if_neg (by norm_num), if_pos (by decide)]
  norm_num

/-- Counterexample for C1: after `change_cube_size (1/8)` on the template
footer, both getters return `0.12`, not the requested `1/8 = 0.125` - the
`'%7.2f'` format rounds the stored value to two decimal places. -/
theorem claim_C1_cube_size_consistency_cex :
    get_cube_size (S "Geology")
        (change_cube_size (1/8 : ℚ) ([S "#BlockOptions\n"] ++
          S "    Geology Cube Size    =  50.00\n" ::
          ([] ++ S "    Geophysics Cube Size    = 50.00\n" :: [])))
        = .ok (some (3/25 : ℚ)) ∧
    (3/25 : ℚ) ≠ (1/8 : ℚ) := by
  have h := (cube_roundtrip_general [S "#BlockOptions\n"] [] []
    (S "    Geology Cube Size    =  50.00\n") (S "    Geophysics Cube Size    = 50.00\n")
    (1/8 : ℚ) (by norm_num) (by decide) (by decide) (by decide) (by decide)).1
  rw [cubeStored_eighth] at h
  exact ⟨h, by norm_num⟩

/-! Association-list dictionary lemmas. -/

theorem find?_append_some {α : Type} {p : α → Bool} {a b : List α} {x : α}
    (h : a.find? p = some x) : (a ++ b).find? p = some x := by
  induction a with
  | nil => simp [List.find?] at h
  | cons y rest ih =>
    rw [List.cons_append]
    simp only [List.find?] at h ⊢
    cases hpy : p y
    · simp only [hpy] at h ⊢
      exact ih h
    · simp only [hpy] at h ⊢
      exact h

theorem pyDictGet_set_same {κ ν : Type} [DecidableEq κ] (k : κ) (v : ν) (l : List (κ × ν)) :
    pyDictGet k (pyDictSet k v l) = some v := by
  unfold pyDictSet
  by_cases hany : l.any (fun p => decide (p.1 = k)) = true
  · rw [if_pos hany]
    induction l with
    | nil => simp at hany
    | cons p rest ih =>
      rw [List.map_cons]
      unfold pyDictGet
      by_cases hpk : p.1 = k
      · rw [if_pos hpk]
        simp [List.find?]
      · rw [if_neg hpk]
        have hrest : rest.any (fun p => decide (p.1 = k)) = true := by
          simpa [hpk] using hany
        have := ih hrest
        unfold pyDictGet at this
        simpa [List.find?, hpk] using this
  · rw [if_neg hany]
    unfold pyDictGet
    rw [find?_append_none]
    · simp [List.find?]
    · rw [List.find?_eq_none]
      intro x hx
      simp only [List.any_eq_true, not_exists] at hany
      intro hcon
      exact hany x ⟨hx, hcon⟩

theorem pyDictGet_set_other {κ ν : Type} [DecidableEq κ] {k k' : κ} (v : ν)
    (l : List (κ × ν)) (hkk : ¬k' = k) :
    pyDictGet k' (pyDictSet k v l) = pyDictGet k' l := by
  have hkk' : ¬k = k' := fun hcon => hkk hcon.symm
  unfold pyDictSet
  by_cases hany : l.any (fun p => decide (p.1 = k)) = true
  · rw [if_pos hany]
    clear hany
    induction l with
    | nil => rfl
    | cons p rest ih =>
      rw [List.map_cons]
      unfold pyDictGet at ih ⊢
      by_cases hpk : p.1 = k
      · rw [if_pos hpk]
        have hne2 : ¬(p.1 = k') := by rw [hpk]; exact hkk'
        simp only [List.find?, hkk', hne2, decide_eq_false]
        simpa using ih
      · rw [if_neg hpk]
        simp only [List.find?]
        cases hp' : decide (p.1 = k')
        · simpa using ih
        · rfl
  · rw [if_neg hany]
    unfold pyDictGet
    rcases hfx : l.find? (fun p => decide (p.1 = k')) with _ | x
    · rw [find?_append_none hfx, hfx]
      simp [List.find?, hkk']
    · rw [find?_append_some hfx, hfx]

theorem pyDictGet_map_value {κ ν : Type} [DecidableEq κ] (k : κ) (f : κ → ν → ν)
    (l : List (κ × ν)) :
    pyDictGet k (l.map (fun p => (p.1, f p.1 p.2))) = (pyDictGet k l).map (f k) := by
  induction l with
  | nil => rfl
  | cons p rest ih =>
    rw [List.map_cons]
    unfold pyDictGet at ih ⊢
    simp only [List.find?]
    cases hpk : decide (p.1 = k)
    · simpa using ih
    · have : p.1 = k := of_decide_eq_true hpk
      subst this
      simp

/-! Claim C4: swap involution. -/

theorem swap_events_ok {d : NoddyHistory} {a b : Int} {ea eb : Event}
    (ha : pyDictGet a d.events = some ea) (hb : pyDictGet b d.events = some eb) :
    swap_events a b d = .ok { d with events := update_event_numbers (pyDictSet b ea (pyDictSet a eb d.events)) } := by
  unfold swap_events
  rw [ha, hb]

/-- C4 (confirmed): swapping the events at two present order-numbers twice
restores the original association: each key again stores its original
record, with `properties`, `layers`, `event_type` and raw lines untouched,
and the embedded event-number field rewritten back to the key by
`update_event_numbers`. -/
theorem claim_C4_swap_involution (d : NoddyHistory) (a b : Int) (ea eb : Event)
    (ha : pyDictGet a d.events = some ea) (hb : pyDictGet b d.events = some eb) :
    ∃ d1 d2, swap_events a b d = .ok d1 ∧ swap_events a b d1 = .ok d2 ∧
      pyDictGet a d2.events = some { ea with event_number := a } ∧
      pyDictGet b d2.events = some { eb with event_number := b } := by
  have heab : a = b → ea = eb := by
    intro hab
    rw [hab, hb] at ha
    exact (Option.some.inj ha).symm
  have h1 := swap_events_ok ha hb
  have hga : pyDictGet a (update_event_numbers (pyDictSet b ea (pyDictSet a eb d.events)))
      = some (setEventNumber a eb) := by
    simp only [update_event_numbers]
    rw [pyDictGet_map_value]
    by_cases hab : a = b
    · rw [← hab, pyDictGet_set_same, heab hab]
      rfl
    · rw [pyDictGet_set_other _ _ hab, pyDictGet_set_same]
      rfl
  have hgb : pyDictGet b (update_event_numbers (pyDictSet b ea (pyDictSet a eb d.events)))
      = some (setEventNumber b ea) := by
    simp only [update_event_numbers]
    rw [pyDictGet_map_value, pyDictGet_set_same]
    rfl
  have h2 := swap_events_ok (d := { d with events := update_event_numbers (pyDictSet b ea (pyDictSet a eb d.events)) }) hga hgb
  refine ⟨_, _, h1, h2, ?_, ?_⟩
  · simp only [update_event_numbers]
    rw [pyDictGet_map_value]
    by_cases hab : a = b
    · rw [← hab, pyDictGet_set_same, heab hab]
      rfl
    · rw [pyDictGet_set_other _ _ hab, pyDictGet_set_same]
      rfl
  · simp only [update_event_numbers]
    rw [pyDictGet_map_value, pyDictGet_set_same]
    rfl

/-- A concrete two-event history used by the C4 witness. -/
def c4faultEvent : Event :=
  { event_type := S "FAULT"
    event_lines := [S "Event #1\t= FAULT\n"]
    event_number := 1
    properties := [(PKey.str (S "Slip"), PyVal.float 100)]
    layers := [] }

/-- Second event of the C4 witness history. -/
def c4tiltEvent : Event :=
  { event_type := S "TILT"
    event_lines := [S "Event #2\t= TILT\n"]
    event_number := 2
    properties := []
    layers := [] }

/-- The C4 witness history state. -/
def c4doc : NoddyHistory :=
  { history_lines := []
    events := [(1, c4faultEvent), (2, c4tiltEvent)]
    footer_lines := some []
    filename := none
    n_events := some 2
    event_counter := none
    all_events_begin := 7
    all_events_end := 8 }

/-- Witness for C4 at a concrete two-event history. -/
theorem claim_C4_swap_involution_witness :
    ∃ d1 d2, swap_events 1 2 c4doc = .ok d1 ∧ swap_events 1 2 d1 = .ok d2 ∧
      pyDictGet 1 d2.events = some { c4faultEvent with event_number := 1 } ∧
      pyDictGet 2 d2.events = some { c4tiltEvent with event_number := 2 } :=
  claim_C4_swap_involution c4doc 1 2 c4faultEvent c4tiltEvent rfl rfl

/-! Claim C9: absolute vs relative parameter updates. -/

theorem exceptBindOk {e a b : Type} (x : a) (f : a → Except e b) :
    (Except.ok x : Except e a) >>= f = f x := rfl

theorem exceptBindErr {e a b : Type} (x : e) (f : a → Except e b) :
    (Except.error x : Except e a) >>= f = Except.error x := rfl

theorem set_event_params_single (d : NoddyHistory) (k : Int) (sk : PKey) (v : PyVal)
    (ev : Event) (hget : pyDictGet k d.events = some ev) :
    set_event_params [(k, [(sk, v)])] d =
      .ok { d with events := pyDictSet k { ev with properties := pyDictSet sk v ev.properties } d.events } := by
  unfold set_event_params
  simp only [List.foldlM, setOneParam, hget]
  rfl

theorem change_event_params_str (d : NoddyHistory) (k : Int) (s : Line) (q dq : ℚ)
    (ev : Event) (hget : pyDictGet k d.events = some ev)
    (hold : pyDictGet (PKey.str s) ev.properties = some (PyVal.float q)) :
    change_event_params [(k, [(PKey.str s, PyVal.float dq)])] d =
      .ok { d with events := (pyDictSet k
        { ev with properties := pyDictSet (PKey.str s) (PyVal.float (q + dq)) ev.properties }
        d.events) } := by
  unfold change_event_params
  simp only [List.foldlM, changeOneParam, hget, hold]
  rfl

theorem change_event_params_layer (d : NoddyHistory) (k : Int) (i : Int) (p : Line)
    (q dq : ℚ) (ev : Event) (layer : Layer)
    (hget : pyDictGet k d.events = some ev)
    (hlay : pyListGet ev.layers i = some layer)
    (hold : pyDictGet p layer.properties = some (PyVal.float q)) :
    change_event_params
        [(k, [(PKey.int i, PyVal.dict [(S "property", PyVal.str p), (S "val", PyVal.float dq)])])] d =
      .ok { d with events := (pyDictSet k
        { ev with layers := pyListSet ev.layers i { properties := pyDictSet p (PyVal.float (q + dq)) layer.properties } }
        d.events) } := by
  have hp : dictGetE (S "property") [(S "property", PyVal.str p), (S "val", PyVal.float dq)]
      = Except.ok (PyVal.str p) := rfl
  have hv : dictGetE (S "val") [(S "property", PyVal.str p), (S "val", PyVal.float dq)]
      = Except.ok (PyVal.float dq) := rfl
  have ho : dictGetE p layer.properties = Except.ok (PyVal.float q) := by
    unfold dictGetE
    rw [hold]
    rfl
  have hl : listGetE ev.layers i = Except.ok layer := by
    unfold listGetE
    rw [hlay]
    rfl
  unfold change_event_params
  simp only [List.foldlM, changeOneParam, hget, hl]
  simp only [exceptBindOk, hp, asStrE, ho, hv, pyAdd]
  rfl

/-- C9 (corrected): `set_event_params` writes named properties absolutely
and `change_event_params` adds the given delta; `change_event_params`
treats an integer sub-key as a stratigraphic layer index, but
`set_event_params` has no such branch - an integer sub-key there is stored
as an ordinary (integer-keyed) entry of the top-level property mapping and
the layer list is left untouched (see the counterexample). -/
theorem claim_C9_param_updates :
    (∀ (d : NoddyHistory) (k : Int) (sk : PKey) (v : PyVal) (ev : Event),
      pyDictGet k d.events = some ev →
      set_event_params [(k, [(sk, v)])] d =
        .ok { d with events := pyDictSet k { ev with properties := pyDictSet sk v ev.properties } d.events }) ∧
    (∀ (d : NoddyHistory) (k : Int) (s : Line) (q dq : ℚ) (ev : Event),
      pyDictGet k d.events = some ev →
      pyDictGet (PKey.str s) ev.properties = some (PyVal.float q) →
      change_event_params [(k, [(PKey.str s, PyVal.float dq)])] d =
        .ok { d with events := (pyDictSet k
          { ev with properties := pyDictSet (PKey.str s) (PyVal.float (q + dq)) ev.properties }
          d.events) }) ∧
    (∀ (d : NoddyHistory) (k : Int) (i : Int) (p : Line) (q dq : ℚ) (ev : Event) (layer : Layer),
      pyDictGet k d.events = some ev →
      pyListGet ev.layers i = some layer →
      pyDictGet p layer.properties = some (PyVal.float q) →
      change_event_params
          [(k, [(PKey.int i, PyVal.dict [(S "property", PyVal.str p), (S "val", PyVal.float dq)])])] d =
        .ok { d with events := (pyDictSet k
          { ev with layers := pyListSet ev.layers i { properties := pyDictSet p (PyVal.float (q + dq)) layer.properties } }
          d.events) }) :=
  ⟨set_event_params_single, change_event_params_str, change_event_params_layer⟩

/-- Concrete one-event history with one stratigraphic layer, for C9. -/
def c9event : Event :=
  { event_type := S "STRATIGRAPHY"
    event_lines := []
    event_number := 1
    properties := [(PKey.str (S "X"), PyVal.float 0)]
    layers := [{ properties := [(S "Height", PyVal.float 10)] }] }

/-- The C9 witness and counterexample history state. -/
def c9doc : NoddyHistory :=
  { history_lines := []
    events := [(1, c9event)]
    footer_lines := some []
    filename := none
    n_events := some 1
    event_counter := none
    all_events_begin := 7
    all_events_end := 7 }

/-- Witness for C9 at the concrete history. -/
theorem claim_C9_param_updates_witness :
    set_event_params [((1 : Int), [(PKey.str (S "X"), PyVal.float 7)])] c9doc =
      .ok { c9doc with events := (pyDictSet 1
        { c9event with properties := pyDictSet (PKey.str (S "X")) (PyVal.float 7) c9event.properties }
        c9doc.events) } ∧
    change_event_params [((1 : Int), [(PKey.str (S "X"), PyVal.float 5)])] c9doc =
      .ok { c9doc with events := (pyDictSet 1
        { c9event with properties := pyDictSet (PKey.str (S "X")) (PyVal.float (0 + 5)) c9event.properties }
        c9doc.events) } ∧
    change_event_params
        [((1 : Int), [(PKey.int 0, PyVal.dict [(S "property", PyVal.str (S "Height")), (S "val", PyVal.float 5)])])] c9doc =
      .ok { c9doc with events := (pyDictSet 1
        { c9event with layers := pyListSet c9event.layers 0 { properties := pyDictSet (S "Height") (PyVal.float (10 + 5)) [(S "Height", PyVal.float 10)] } }
        c9doc.events) } :=
  ⟨claim_C9_param_updates.1 c9doc 1 _ _ c9event rfl,
   claim_C9_param_updates.2.1 c9doc 1 (S "X") 0 5 c9event rfl rfl,
   claim_C9_param_updates.2.2 c9doc 1 0 (S "Height") 10 5 c9event
     { properties := [(S "Height", PyVal.float 10)] } rfl rfl rfl⟩

/-- Counterexample for C9: an integer sub-key given to `set_event_params`
does not address the layer at that index - the layer list is unchanged and
the value lands in the top-level property mapping under the integer key. -/
theorem claim_C9_param_updates_cex :
    ∃ d', set_event_params [((1 : Int), [(PKey.int 0, PyVal.float 99)])] c9doc = .ok d' ∧
      ∃ ev', pyDictGet 1 d'.events = some ev' ∧
        ev'.layers = [{ properties := [(S "Height", PyVal.float 10)] }] ∧
        pyDictGet (PKey.int 0) ev'.properties = some (PyVal.float 99) := by
  refine ⟨_, rfl, ?_⟩
  refine ⟨_, rfl, rfl, rfl⟩

/-! Claim C10: add_event leaves history_lines alone and the writer never
reads them. -/

/-- NoddyHistory.create_new_history (src/history.py lines 506-516). -/
def create_new_history : NoddyHistory :=
  { history_lines := []
    events := []
    footer_lines := none
    filename := none
    n_events := none
    event_counter := some 0
    all_events_begin := 7
    all_events_end := 7 }

/-- C10 (confirmed): a successful `add_event` changes only the events
mapping, the event counter and the `all_events_end` bookkeeping value -
`history_lines` is untouched (the line-splice expression of the source is
computed but discarded) - and the serialized output does not depend on
`history_lines` at all. -/
theorem claim_C10_add_event_frame (d : NoddyHistory) (ty : Line) (opts : PyDict)
    (numArg : Option Int) (d' : NoddyHistory)
    (h : add_event d ty opts numArg = .ok d') :
    d'.history_lines = d.history_lines ∧
    d'.footer_lines = d.footer_lines ∧
    d'.filename = d.filename ∧
    d'.n_events = d.n_events ∧
    d'.all_events_begin = d.all_events_begin ∧
    (∀ (d0 : NoddyHistory) (hl : List Line) (fn t : Line),
      write_history { d0 with history_lines := hl } fn t = write_history d0 fn t) := by
  unfold add_event at h
  rcases hc : d.event_counter with _ | c
  · rw [hc] at h
    simp only [exceptBindErr] at h
    exact absurd h (by intro hcon; cases hcon)
  · rw [hc] at h
    rcases he : createDispatch d ty opts with e | ev0
    · rw [he] at h
      simp only [exceptBindOk, exceptBindErr] at h
      exact absurd h (by intro hcon; cases hcon)
    · rw [he] at h
      simp only [exceptBindOk] at h
      obtain rfl := (Except.ok.inj h).symm
      exact ⟨rfl, rfl, rfl, rfl, rfl, fun d0 hl fn t => rfl⟩

/-- Concrete option dict for the C10 witness: a one-layer stratigraphy. -/
def c10opts : PyDict :=
  [(S "num_layers", PyVal.int 1),
   (S "layer_names", PyVal.list [PyVal.str (S "A")]),
   (S "layer_thickness", PyVal.list [PyVal.float 100])]

/-- Witness for C10: adding a stratigraphy event to a fresh history. -/
theorem claim_C10_add_event_frame_witness :
    ∃ d', add_event create_new_history (S "stratigraphy") c10opts none = .ok d' ∧
      (d'.history_lines = create_new_history.history_lines ∧
       d'.footer_lines = create_new_history.footer_lines ∧
       d'.filename = create_new_history.filename ∧
       d'.n_events = create_new_history.n_events ∧
       d'.all_events_begin = create_new_history.all_events_begin ∧
       (∀ (d0 : NoddyHistory) (hl : List Line) (fn t : Line),
         write_history { d0 with history_lines := hl } fn t = write_history d0 fn t)) :=
  ⟨_, rfl, claim_C10_add_event_frame create_new_history (S "stratigraphy") c10opts none _ rfl⟩

/-! Claim C7: the 'top' position convenience of the fault builder. -/

/-- Option dict of the C7 scenario: a fault at `pos=(0,0,'top')` with
`dip_dir=45`, `dip=60`, `slip=500`. -/
def c7opts : PyDict :=
  [(S "name", PyVal.str (S "Fault_E")),
   (S "pos", PyVal.tup [PyVal.float 0, PyVal.float 0, PyVal.str (S "top")]),
   (S "dip_dir", PyVal.float 45),
   (S "dip", PyVal.float 60),
   (S "slip", PyVal.float 500)]

/-- C7 (code_bug): the source docstring promises that `'top'` may be
assigned to the z-coordinate of `pos`, but `_create_fault` compares the
whole `pos` value against the string `'top'` (line 659), so a tuple
position `(0, 0, 'top')` never takes the `zmax` branch: the string
`'top'` reaches `"%.1f"` and the call raises a `TypeError` instead of
producing an event with `Z = 5000.0` - even with the document's upper
z-extent available as 5000.  The same failure propagates through
`add_event`. -/
theorem claim_C7_fault_top_typeerror :
    _create_fault { create_new_history with zmax := some 5000 } c7opts
        = .error PyErr.typeError ∧
    add_event { create_new_history with zmax := some 5000 } (S "fault") c7opts none
        = .error PyErr.typeError := ⟨rfl, rfl⟩

/-! Claim C8: stratigraphy layer heights are running sums. -/

theorem npCumsumAux_get {l : List ℚ} {i : Nat} (acc : ℚ) (h : i < l.length) :
    (npCumsumAux acc l).get? i = some (acc + (l.take (i + 1)).sum) := by
  induction l generalizing acc i with
  | nil => simp at h
  | cons x rest ih =>
    cases i with
    | zero => simp [npCumsumAux]
    | succ i =>
      have hi : i < rest.length := by simpa using h
      simp only [npCumsumAux, List.get?, ih (acc + x) hi, List.take_succ_cons, List.sum_cons]
      rw [add_assoc]

theorem npCumsum_get {l : List ℚ} {i : Nat} (h : i < l.length) :
    (npCumsum l).get? i = some ((l.take (i + 1)).sum) := by
  unfold npCumsum
  rw [npCumsumAux_get 0 h, zero_add]

theorem npCumsumAux_length (acc : ℚ) (l : List ℚ) :
    (npCumsumAux acc l).length = l.length := by
  induction l generalizing acc with
  | nil => rfl
  | cons x rest ih => simp [npCumsumAux, ih]

theorem exceptMapM_ok {e a b : Type} {f : a → Except e b} {g : a → b} {xs : List a}
    (h : ∀ x ∈ xs, f x = .ok (g x)) : exceptMapM f xs = .ok (xs.map g) := by
  induction xs with
  | nil => rfl
  | cons x rest ih =>
    unfold exceptMapM
    rw [h x (List.mem_cons_self x rest), ih (fun y hy => h y (List.mem_cons_of_mem x hy))]
    rfl

theorem exceptMapM_asNumE_floats (qs : List ℚ) :
    exceptMapM asNumE (qs.map PyVal.float) = .ok qs := by
  induction qs with
  | nil => rfl
  | cons q rest ih =>
    simp only [List.map_cons]
    unfold exceptMapM
    rw [show asNumE (PyVal.float q) = .ok q from rfl]
    simp only [exceptBindOk]
    rw [ih]
    rfl

/-- Option dict for a stratigraphy built from parallel name and thickness
lists, as a caller of add_event supplies it. -/
def stratOpts (names : List Line) (qs : List ℚ) : PyDict :=
  [(S "num_layers", PyVal.int (names.length : Int)),
   (S "layer_names", PyVal.list (names.map PyVal.str)),
   (S "layer_thickness", PyVal.list (qs.map PyVal.float))]

theorem stratiLayerBody_spec (names : List Line) (qs : List ℚ)
    (hlen : names.length ≤ qs.length) (i : Nat) (hi : i < names.length) :
    stratiLayerBody (stratOpts names qs) i =
      .ok (stratiLayerLines (names.getD i []) ((qs.take (i + 1)).sum) 4) := by
  obtain ⟨nm, hnm⟩ : ∃ nm, names.get? i = some nm := by
    rw [List.get?_eq_get hi]
    exact ⟨_, rfl⟩
  have hgetD : names.getD i [] = nm := by
    rw [List.getD_eq_get?, hnm]
    rfl
  have hname : listGetE (names.map PyVal.str) (i : Int) = .ok (PyVal.str nm) := by
    unfold listGetE pyListGet
    rw [if_neg (by omega : ¬((i : Int) < 0))]
    rw [show ((i : Int)).toNat = i from rfl]
    rw [List.get?_map, hnm]
    rfl
  have hcum : listGetE (npCumsum qs) (i : Int) = .ok ((qs.take (i + 1)).sum) := by
    unfold listGetE pyListGet
    rw [if_neg (by omega : ¬((i : Int) < 0))]
    rw [show ((i : Int)).toNat = i from rfl]
    rw [npCumsum_get (lt_of_lt_of_le hi hlen)]
    rfl
  unfold stratiLayerBody
  rw [show dictGetE (S "layer_names") (stratOpts names qs)
      = .ok (PyVal.list (names.map PyVal.str)) from rfl]
  simp only [exceptBindOk]
  rw [show asListE (PyVal.list (names.map PyVal.str)) = .ok (names.map PyVal.str) from rfl]
  simp only [exceptBindOk]
  rw [hname]
  simp only [exceptBindOk]
  rw [show asStrE (PyVal.str nm) = .ok nm from rfl]
  simp only [exceptBindOk]
  rw [show pyDictGet (S "density") (stratOpts names qs) = (none : Option PyVal) from rfl]
  simp only [exceptBindOk]
  rw [show dictGetE (S "layer_thickness") (stratOpts names qs)
      = .ok (PyVal.list (qs.map PyVal.float)) from rfl]
  simp only [exceptBindOk]
  rw [show asListE (PyVal.list (qs.map PyVal.float)) = .ok (qs.map PyVal.float) from rfl]
  simp only [exceptBindOk]
  rw [exceptMapM_asNumE_floats]
  simp only [exceptBindOk]
  rw [hcum]
  simp only [exceptBindOk]
  rw [hgetD]

theorem create_stratigraphy_spec (names : List Line) (qs : List ℚ)
    (hlen : names.length ≤ qs.length) :
    _create_stratigraphy (stratOpts names qs) =
      .ok { event_type := []
            event_lines := (([([] : Line)] ++ [S "\tNum Layers\t= " ++ intStr (names.length : Int)]
              ++ ((List.range names.length).map
                  (fun i => stratiLayerLines (names.getD i []) ((qs.take (i + 1)).sum) 4)).flatten
              ++ [S "\tName\t= Strat"]).map (fun l => l ++ ['\n']))
            event_number := 0
            properties := []
            layers := []
            num_layers := (names.length : Int) } := by
  unfold _create_stratigraphy
  rw [show dictGetE (S "num_layers") (stratOpts names qs)
      = .ok (PyVal.int (names.length : Int)) from rfl]
  simp only [exceptBindOk]
  rw [show asIntE (PyVal.int (names.length : Int)) = .ok ((names.length : Int)) from rfl]
  simp only [exceptBindOk]
  rw [show ((names.length : Int)).toNat = names.length from rfl]
  rw [exceptMapM_ok (g := fun i => stratiLayerLines (names.getD i []) ((qs.take (i + 1)).sum) 4)
    (fun i hi => stratiLayerBody_spec names qs hlen i (List.mem_range.mp hi))]
  simp only [exceptBindOk]

theorem fmtFixed_natCast (p n : Nat) : fmtFixed p ((n : ℚ)) = fmtFixedNN p (n * 10 ^ p) := by
  rw [fmtFixed_nonneg (by positivity)]
  congr 1
  rw [show ((n : ℚ) * 10 ^ p) = (((n * 10 ^ p : ℕ) : ℤ) : ℚ) from by push_cast; ring]
  rw [roundHalfEven_intCast]
  rfl

theorem fmtFixed_100 : fmtFixed 1 (100 : ℚ) = S "100.0" := by
  rw [show (100 : ℚ) = ((100 : ℕ) : ℚ) from by norm_num, fmtFixed_natCast]
  decide

theorem fmtFixed_300 : fmtFixed 1 (300 : ℚ) = S "300.0" := by
  rw [show (300 : ℚ) = ((300 : ℕ) : ℚ) from by norm_num, fmtFixed_natCast]
  decide

theorem fmtFixed_450 : fmtFixed 1 (450 : ℚ) = S "450.0" := by
  rw [show (450 : ℚ) = ((450 : ℕ) : ℚ) from by norm_num, fmtFixed_natCast]
  decide

theorem decExp_four : decExp (4 : ℚ) = 0 := by
  unfold decExp
  rw [if_pos (by norm_num : (1 : ℚ) ≤ 4)]
  rw [show ⌊(4 : ℚ)⌋ = 4 from by
    rw [show (4 : ℚ) = ((4 : ℤ) : ℚ) from by norm_num, Int.floor_intCast]]
  decide

theorem fmtE_four : fmtE (4 : ℚ) = S "4.000000e+00" := by
  unfold fmtE
  rw [if_neg (by norm_num : ¬(4 : ℚ) = 0), if_neg (by norm_num : ¬(4 : ℚ) < 0)]
  unfold fmtEPos
  rw [decExp_four]
  rw [show roundHalfEven ((4 : ℚ) * (10 : ℚ) ^ ((6 : ℤ) - 0)) = 4000000 from by
    rw [show ((4 : ℚ) * (10 : ℚ) ^ ((6 : ℤ) - 0)) = (((4000000 : ℤ)) : ℚ) from by
      rw [show ((6 : ℤ) - 0) = ((6 : ℕ) : ℤ) from by norm_num, zpow_natCast]
      norm_num]
    rw [roundHalfEven_intCast]]
  decide

set_option maxRecDepth 100000 in
theorem height_line_100 : S "\tHeight\t= 100.0" ∈ stratiLayerLines (S "A") 100 4 := by
  unfold stratiLayerLines
  rw [fmtFixed_100, fmtE_four]
  decide

set_option maxRecDepth 100000 in
theorem height_line_300 : S "\tHeight\t= 300.0" ∈ stratiLayerLines (S "B") 300 4 := by
  unfold stratiLayerLines
  rw [fmtFixed_300, fmtE_four]
  decide

set_option maxRecDepth 100000 in
theorem height_line_450 : S "\tHeight\t= 450.0" ∈ stratiLayerLines (S "C") 450 4 := by
  unfold stratiLayerLines
  rw [fmtFixed_450, fmtE_four]
  decide

/-- C8 (confirmed): `numpy.cumsum`, as used by the stratigraphy builder,
yields running sums; `_create_stratigraphy` substitutes exactly these
running sums as the `$HEIGHT$` of each layer block; and the concrete
thicknesses `[100, 200, 150]` produce the lines `Height = 100.0`,
`Height = 300.0` and `Height = 450.0` in the built event. -/
theorem claim_C8_layer_heights :
    (∀ (l : List ℚ) (i : Nat), i < l.length →
      (npCumsum l).get? i = some ((l.take (i + 1)).sum)) ∧
    (∀ (names : List Line) (qs : List ℚ), names.length ≤ qs.length →
      _create_stratigraphy (stratOpts names qs) =
        .ok { event_type := []
              event_lines := (([([] : Line)]
                ++ [S "\tNum Layers\t= " ++ intStr (names.length : Int)]
                ++ ((List.range names.length).map
                    (fun i => stratiLayerLines (names.getD i []) ((qs.take (i + 1)).sum) 4)).flatten
                ++ [S "\tName\t= Strat"]).map (fun l => l ++ ['\n']))
              event_number := 0
              properties := []
              layers := []
              num_layers := (names.length : Int) }) ∧
    (∃ ev, _create_stratigraphy
        (stratOpts [S "A", S "B", S "C"] [100, 200, 150]) = .ok ev ∧
      S "\tHeight\t= 100.0\n" ∈ ev.event_lines ∧
      S "\tHeight\t= 300.0\n" ∈ ev.event_lines ∧
      S "\tHeight\t= 450.0\n" ∈ ev.event_lines) := by
  refine ⟨fun l i h => npCumsum_get h, fun names qs h => create_stratigraphy_spec names qs h, ?_⟩
  refine ⟨_, create_stratigraphy_spec [S "A", S "B", S "C"] [100, 200, 150] (by decide), ?_, ?_, ?_⟩
  · refine List.mem_map.mpr ⟨S "\tHeight\t= 100.0", ?_, by decide⟩
    refine List.mem_append.mpr (Or.inl (List.mem_append.mpr (Or.inr ?_)))
    refine List.mem_flatten.mpr ⟨stratiLayerLines (S "A") 100 4, ?_, height_line_100⟩
    rw [show List.range ([S "A", S "B", S "C"] : List Line).length = [0, 1, 2] from rfl]
    simp only [List.map_cons, List.map_nil]
    rw [show (([(100 : ℚ), 200, 150]).take (0 + 1)).sum = 100 from by norm_num]
    exact List.mem_cons_self _ _
  · refine List.mem_map.mpr ⟨S "\tHeight\t= 300.0", ?_, by decide⟩
    refine List.mem_append.mpr (Or.inl (List.mem_append.mpr (Or.inr ?_)))
    refine List.mem_flatten.mpr ⟨stratiLayerLines (S "B") 300 4, ?_, height_line_300⟩
    rw [show List.range ([S "A", S "B", S "C"] : List Line).length = [0, 1, 2] from rfl]
    simp only [List.map_cons, List.map_nil]
    rw [show (([(100 : ℚ), 200, 150]).take (1 + 1)).sum = 300 from by norm_num]
    exact List.mem_cons_of_mem _ (List.mem_cons_self _ _)
  · refine List.mem_map.mpr ⟨S "\tHeight\t= 450.0", ?_, by decide⟩
    refine List.mem_append.mpr (Or.inl (List.mem_append.mpr (Or.inr ?_)))
    refine List.mem_flatten.mpr ⟨stratiLayerLines (S "C") 450 4, ?_, height_line_450⟩
    rw [show List.range ([S "A", S "B", S "C"] : List Line).length = [0, 1, 2] from rfl]
    simp only [List.map_cons, List.map_nil]
    rw [show (([(100 : ℚ), 200, 150]).take (2 + 1)).sum = 450 from by norm_num]
    exact List.mem_cons_of_mem _ (List.mem_cons_of_mem _ (List.mem_cons_self _ _))

/-- Witness for C8: the universally quantified conjuncts instantiated at
the concrete thickness list `[100, 200, 150]`. -/
theorem claim_C8_layer_heights_witness :
    (npCumsum [100, 200, 150]).get? 1 = some (([(100 : ℚ), 200, 150].take 2).sum) ∧
    _create_stratigraphy (stratOpts [S "A"] [100]) =
      .ok { event_type := []
            event_lines := (([([] : Line)]
              ++ [S "\tNum Layers\t= " ++ intStr ((1 : Nat) : Int)]
              ++ ((List.range 1).map
                  (fun i => stratiLayerLines ([S "A"].getD i []) ((([(100 : ℚ)]).take (i + 1)).sum) 4)).flatten
              ++ [S "\tName\t= Strat"]).map (fun l => l ++ ['\n']))
            event_number := 0
            properties := []
            layers := []
            num_layers := ((1 : Nat) : Int) } :=
  ⟨claim_C8_layer_heights.1 [100, 200, 150] 1 (by norm_num),
   claim_C8_layer_heights.2.1 [S "A"] [100] (by norm_num)⟩

/-! Claim C6: load-time failure semantics for missing anchors. -/

theorem scanLine_stop_preserved {i : Nat} {l : Line} {st st1 : ScanState}
    (hl : containsSub blockOptionsAnchor l = false)
    (h : scanLine i l st = .ok st1) : st1.last_stop = st.last_stop := by
  unfold scanLine at h
  split_ifs at h with h1 h2 h3
  · rcases hm : (splitChar '=' l).get? 1 with _ | part
    · rw [hm] at h
      exact Except.noConfusion h
    · rw [hm] at h
      dsimp only at h
      rcases hp : pyInt part with _ | n
      · rw [hp] at h
        exact Except.noConfusion h
      · rw [hp] at h
        obtain rfl := Except.ok.inj h
        rfl
  · rcases hm : (splitChar '=' l).get? 1 with _ | part
    · rw [hm] at h
      exact Except.noConfusion h
    · rw [hm] at h
      dsimp only at h
      rcases hp : pyInt (pySlice l 7 9) with _ | n
      · rw [hp] at h
        exact Except.noConfusion h
      · rw [hp] at h
        obtain rfl := Except.ok.inj h
        rfl
  · rw [hl] at h3
    cases h3
  · obtain rfl := Except.ok.inj h
    rfl

theorem scanLines_stop_preserved {lines : List Line} {i : Nat} {st st' : ScanState}
    (hl : ∀ l ∈ lines, containsSub blockOptionsAnchor l = false)
    (h : scanLines i lines st = .ok st') : st'.last_stop = st.last_stop := by
  induction lines generalizing i st with
  | nil =>
    obtain rfl := Except.ok.inj h
    rfl
  | cons l rest ih =>
    unfold scanLines at h
    rcases hs : scanLine i l st with e | st1
    · rw [hs] at h
      exact Except.noConfusion h
    · rw [hs] at h
      simp only [exceptBindOk] at h
      rw [ih (fun x hx => hl x (List.mem_cons_of_mem l hx)) h]
      exact scanLine_stop_preserved (hl l (List.mem_cons_self l rest)) hs

/-- C6 (corrected): when no line contains the footer marker, loading fails
fatally before any events mapping is built (the model is only returned on
the `.ok` path).  The other half of the original claim is false: a missing
event-count declaration does not abort the load, see the counterexample. -/
theorem claim_C6_missing_anchor_failure (lines : List Line)
    (hmk : ∀ l ∈ lines, containsSub blockOptionsAnchor l = false) :
    ∃ e, parseDoc lines = .error e := by
  rcases lines with _ | ⟨l0, rest⟩
  · exact ⟨PyErr.unboundLocalError, rfl⟩
  · unfold parseDoc
    rw [show get_footer_lines (l0 :: rest) = .ok ((l0 :: rest).drop
      (if (l0 :: rest).any (fun l => containsSub hashBlockOptionsAnchor l) then
        (l0 :: rest).findIdx (fun l => containsSub hashBlockOptionsAnchor l)
      else (l0 :: rest).length - 1)) from rfl]
    simp only [exceptBindOk]
    unfold determine_events
    rcases hs : scanLines 0 (l0 :: rest) ⟨none, [], none⟩ with e | st
    · exact ⟨e, rfl⟩
    · simp only [exceptBindOk]
      have hstop : st.last_stop = none := scanLines_stop_preserved hmk hs
      rw [hstop]
      exact ⟨PyErr.unboundLocalError, rfl⟩

/-- Witness for C6 at a concrete marker-less line list. -/
theorem claim_C6_missing_anchor_failure_witness :
    ∃ e, parseDoc [S "#Filename = t.his\n", S "No of Events\t= 1\n",
      S "Event #1\t= FAULT\n"] = .error e :=
  claim_C6_missing_anchor_failure _ (by decide)

/-- Counterexample for C6: a document with a footer marker but no
event-count declaration loads successfully - the events mapping is built
and returned (with the count attribute simply absent), not rejected. -/
theorem claim_C6_missing_anchor_failure_cex :
    ∃ m, parseDoc [S "#Filename = t.his\n", S "Event #1\t= FAULT\n",
        S "\tX = 0\n", S "\n", S "#BlockOptions\n", S "End\n"] = .ok m ∧
      m.events.length = 1 ∧ m.n_events = none := by
  refine ⟨_, rfl, rfl, rfl⟩

/-! Claim C5: end-boundary assignment of the anchor scan. -/

theorem assignEnds_cons_shape (stop : Int) (r : RawEvent0) (rest : List RawEvent0) :
    ∃ e t, assignEnds stop (r :: rest) = ⟨r.type, r.num, r.line_start, e⟩ :: t := by
  cases rest with
  | nil => exact ⟨stop, [], rfl⟩
  | cons r2 rest2 => exact ⟨(r2.line_start : Int) - 1, _, rfl⟩

theorem assignEnds_consec (stop : Int) (rs : List RawEvent0) :
    ∀ (k : Nat) (a b : RawEvent),
      (assignEnds stop rs).get? k = some a →
      (assignEnds stop rs).get? (k + 1) = some b →
      a.line_end = (b.line_start : Int) - 1 := by
  induction rs with
  | nil =>
    intro k a b ha _
    simp [assignEnds] at ha
  | cons r tail ih =>
    cases tail with
    | nil =>
      intro k a b _ hb
      cases k with
      | zero => simp [assignEnds] at hb
      | succ k' => simp [assignEnds] at hb
    | cons r2 rest =>
      intro k a b ha hb
      rw [show assignEnds stop (r :: r2 :: rest) =
        ⟨r.type, r.num, r.line_start, (r2.line_start : Int) - 1⟩ ::
          assignEnds stop (r2 :: rest) from rfl] at ha hb
      cases k with
      | zero =>
        obtain rfl : a = ⟨r.type, r.num, r.line_start, (r2.line_start : Int) - 1⟩ :=
          (Option.some.inj ha).symm
        obtain ⟨e, t, heq⟩ := assignEnds_cons_shape stop r2 rest
        rw [heq] at hb
        obtain rfl : b = ⟨r2.type, r2.num, r2.line_start, e⟩ := (Option.some.inj hb).symm
        rfl
      | succ k' =>
        exact ih k' a b ha hb

theorem assignEnds_last (stop : Int) :
    ∀ (rs : List RawEvent0) (d : RawEvent), rs ≠ [] →
      ((assignEnds stop rs).getLastD d).line_end = stop := by
  intro rs
  induction rs with
  | nil => intro d h; exact absurd rfl h
  | cons r tail ih =>
    cases tail with
    | nil => intro d _; rfl
    | cons r2 rest =>
      intro d _
      rw [show assignEnds stop (r :: r2 :: rest) =
        ⟨r.type, r.num, r.line_start, (r2.line_start : Int) - 1⟩ ::
          assignEnds stop (r2 :: rest) from rfl]
      rw [List.getLastD_cons]
      exact ih _ (by simp)

theorem scanLines_stop_unique {lines : List Line} {i : Nat} {st st' : ScanState} {m : Nat}
    (hm : m < lines.length)
    (hmark : containsSub blockOptionsAnchor lines[m] = true)
    (hno : containsSub noOfEventsAnchor lines[m] = false)
    (hev : containsSub eventHashAnchor lines[m] = false)
    (huniq : ∀ j (hj : j < lines.length), j ≠ m →
      containsSub blockOptionsAnchor lines[j] = false)
    (h : scanLines i lines st = .ok st') :
    st'.last_stop = some (((i + m : Nat) : Int) - 2) := by
  induction lines generalizing i st m with
  | nil => exact absurd hm (by simp)
  | cons l rest ih =>
    cases m with
    | zero =>
      rw [List.getElem_cons_zero] at hmark hno hev
      have hsl : scanLine i l st = .ok { st with last_stop := some ((i : Int) - 2) } := by
        unfold scanLine
        rw [hno, hev, hmark]
        rfl
      unfold scanLines at h
      rw [hsl] at h
      simp only [exceptBindOk] at h
      have hrest : ∀ x ∈ rest, containsSub blockOptionsAnchor x = false := by
        intro x hx
        obtain ⟨j, hj, rfl⟩ := List.mem_iff_getElem.mp hx
        have := huniq (j + 1) (by simpa using Nat.succ_lt_succ hj) (by omega)
        simpa using this
      rw [scanLines_stop_preserved hrest h]
      exact rfl
    | succ m' =>
      have hl0 : containsSub blockOptionsAnchor l = false := by
        have := huniq 0 (by simp) (by omega)
        simpa using this
      unfold scanLines at h
      rcases hsl : scanLine i l st with e | st1
      · rw [hsl] at h
        exact Except.noConfusion h
      · rw [hsl] at h
        simp only [exceptBindOk] at h
        have h2 := @ih (i + 1) st1 m' (by simpa using hm)
          (by simpa using hmark) (by simpa using hno) (by simpa using hev)
          (fun j hj hne => by
            have := huniq (j + 1) (by simpa using Nat.succ_lt_succ hj) (by omega)
            simpa using this) h
        rw [h2]
        congr 1
        omega

/-- C5: on a line sequence whose footer marker occurs on exactly one line
(and that line carries no other anchor), a successful scan gives every
event except the last the end boundary one line before its successor's
start, and gives the last event the end boundary two lines before the
footer marker line. -/
theorem claim_C5_event_boundaries (lines : List Line) (pe : ParsedEvents) (m : Nat)
    (hm : m < lines.length)
    (hmark : containsSub blockOptionsAnchor lines[m] = true)
    (hno : containsSub noOfEventsAnchor lines[m] = false)
    (hev : containsSub eventHashAnchor lines[m] = false)
    (huniq : ∀ j (hj : j < lines.length), j ≠ m →
      containsSub blockOptionsAnchor lines[j] = false)
    (h : determine_events lines = .ok pe) :
    (∀ (k : Nat) (a b : RawEvent), pe.raws.get? k = some a →
        pe.raws.get? (k + 1) = some b → a.line_end = (b.line_start : Int) - 1) ∧
      (pe.raws.getLastD default).line_end = (m : Int) - 2 := by
  unfold determine_events at h
  rcases hs : scanLines 0 lines ⟨none, [], none⟩ with e | st
  · rw [hs] at h
    simp only [exceptBindErr] at h
    exact Except.noConfusion h
  · rw [hs] at h
    simp only [exceptBindOk] at h
    have hstop : st.last_stop = some (((0 + m : Nat) : Int) - 2) :=
      scanLines_stop_unique hm hmark hno hev huniq hs
    rw [hstop] at h
    dsimp only at h
    rcases hr : st.raws with _ | ⟨r0, tl⟩
    · rw [hr] at h
      exact Except.noConfusion h
    · rw [hr] at h
      dsimp only at h
      obtain rfl := Except.ok.inj h
      constructor
      · intro k a b ha hb
        exact assignEnds_consec _ _ k a b ha hb
      · have h2 := assignEnds_last (((0 + m : Nat) : Int) - 2) (r0 :: tl) default (by simp)
        rw [show (({ n_events := st.n_events, raws := assignEnds (((0 + m : Nat) : Int) - 2) (r0 :: tl), events := buildEvents lines (assignEnds (((0 + m : Nat) : Int) - 2) (r0 :: tl)), all_events_begin := (r0.line_start : Int), all_events_end := ((assignEnds (((0 + m : Nat) : Int) - 2) (r0 :: tl)).getLastD default).line_end } : ParsedEvents)).raws = assignEnds (((0 + m : Nat) : Int) - 2) (r0 :: tl) from rfl]
        rw [h2]
        congr 1
        omega

/-- Concrete seven-line document for exercising the scanner boundaries. -/
def w5lines : List Line :=
  [S "#Filename = t.his\n", S "Event #1\t= FAULT\n", S "\tX = 0\n",
   S "Event #2\t= TILT\n", S "\tY = 1\n", S "#BlockOptions\n", S "End\n"]

/-- The parse result of the concrete document. -/
def w5pe : ParsedEvents :=
  match determine_events w5lines with
  | .ok pe => pe
  | .error _ => ⟨none, [], [], 0, 0⟩

/-- Witness for C5: on the concrete document the marker sits on line 5,
the first event ends one line before the second starts, and the last event
ends on line 3 = 5 - 2. -/
theorem claim_C5_event_boundaries_witness :
    ((⟨S " FAULT", 1, 1, 2⟩ : RawEvent).line_end =
        ((⟨S " TILT", 2, 3, 3⟩ : RawEvent).line_start : Int) - 1) ∧
      (w5pe.raws.getLastD default).line_end = (5 : Int) - 2 :=
  ⟨(claim_C5_event_boundaries w5lines w5pe 5 (by decide) (by decide) (by decide)
      (by decide) (by decide) (by rfl)).1 0 _ _ rfl rfl,
    (claim_C5_event_boundaries w5lines w5pe 5 (by decide) (by decide) (by decide)
      (by decide) (by decide) (by rfl)).2⟩

/-! Claim C2: invariants of serialization. -/

instance : IsTotal (Int × Event) (fun a b => a.1 ≤ b.1) :=
  ⟨fun a b => le_total a.1 b.1⟩

instance : IsTrans (Int × Event) (fun a b => a.1 ≤ b.1) :=
  ⟨fun _ _ _ hab hbc => le_trans hab hbc⟩

theorem headerLines_eq (fname t : Line) (hfn : '\n' ∉ fname) (ht : '\n' ∉ t) :
    headerLines fname t =
      [S "#Filename = " ++ fname ++ S " " ++ ['\n'],
       S "#Date Saved = " ++ t ++ ['\n'],
       S "FileType = 111" ++ ['\n'], S "Version = 7.11" ++ ['\n'], ['\n'], ['\n']] := by
  have hA : '\n' ∉ S "#Filename = " ++ fname ++ S " " := by
    simp only [List.mem_append]
    push_neg
    exact ⟨⟨by decide, hfn⟩, by decide⟩
  have hB : '\n' ∉ S "#Date Saved = " ++ t := by
    simp only [List.mem_append]
    push_neg
    exact ⟨by decide, ht⟩
  have e1 : _create_header fname t =
      (S "#Filename = " ++ fname ++ S " ") ++ '\n' ::
        ((S "#Date Saved = " ++ t) ++ '\n' :: S "FileType = 111\nVersion = 7.11\n\n") := by
    unfold _create_header
    rw [show S " \n#Date Saved = " = S " " ++ '\n' :: S "#Date Saved = " from rfl,
      show S "\nFileType = 111\nVersion = 7.11\n\n" =
        '\n' :: S "FileType = 111\nVersion = 7.11\n\n" from rfl]
    simp [List.append_assoc]
  unfold headerLines
  rw [e1, splitChar_append_sep hA, splitChar_append_sep hB,
    show splitChar '\n' (S "FileType = 111\nVersion = 7.11\n\n") =
      [S "FileType = 111", S "Version = 7.11", [], []] from by decide]
  simp [List.map]

theorem write_history_lines_count_line (d : NoddyHistory) (fnameArg timeStr : Line)
    (hfn : '\n' ∉ d.filename.getD fnameArg) (ht : '\n' ∉ timeStr) :
    (write_history_lines d fnameArg timeStr).get? 6 =
      some (S "No of Events\t= " ++ intStr (d.events.length : Int) ++ ['\n']) := by
  have hlen : (headerLines (d.filename.getD fnameArg) timeStr).length = 6 := by
    rw [headerLines_eq _ _ hfn ht]
    rfl
  dsimp only [write_history_lines]
  rw [List.get?_append (by simp [List.length_append, hlen]),
    List.get?_append (by simp [List.length_append, hlen]),
    List.get?_append_right (by omega)]
  simp [hlen]

theorem insertBlank_head_marker {prev : Line} {ls : List Line} {l : Line}
    (h : (insertBlankAux prev ls).get? 0 = some l)
    (hm : containsSub blockOptionsAnchor l = true) : prev = ['\n'] := by
  cases ls with
  | nil => simp [insertBlankAux] at h
  | cons l0 rest =>
    rw [show insertBlankAux prev (l0 :: rest) =
      (if containsSub blockOptionsAnchor l0 = true ∧ prev ≠ ['\n'] then [['\n'], l0] else [l0])
        ++ insertBlankAux l0 rest from rfl] at h
    by_cases hc : containsSub blockOptionsAnchor l0 = true ∧ prev ≠ ['\n']
    · rw [if_pos hc] at h
      obtain rfl : l = ['\n'] := (Option.some.inj h).symm
      exact absurd hm (by decide)
    · rw [if_neg hc] at h
      obtain rfl : l = l0 := (Option.some.inj h).symm
      push_neg at hc
      by_contra hne
      exact hne (hc hm)

theorem insertBlank_pred_blank (ls : List Line) (prev : Line) (j : Nat) (l : Line)
    (h : (insertBlankAux prev ls).get? (j + 1) = some l)
    (hm : containsSub blockOptionsAnchor l = true) :
    (insertBlankAux prev ls).get? j = some ['\n'] := by
  induction ls generalizing prev j with
  | nil => simp [insertBlankAux] at h
  | cons l0 rest ih =>
    rw [show insertBlankAux prev (l0 :: rest) =
      (if containsSub blockOptionsAnchor l0 = true ∧ prev ≠ ['\n'] then [['\n'], l0] else [l0])
        ++ insertBlankAux l0 rest from rfl] at h ⊢
    by_cases hc : containsSub blockOptionsAnchor l0 = true ∧ prev ≠ ['\n']
    · rw [if_pos hc] at h ⊢
      simp only [List.cons_append, List.nil_append] at h ⊢
      cases j with
      | zero => rfl
      | succ j' =>
        cases j' with
        | zero =>
          have h0 : (insertBlankAux l0 rest).get? 0 = some l := h
          have := insertBlank_head_marker h0 hm
          rw [this] at hc
          exact absurd hc.1 (by decide)
        | succ j'' =>
          have h0 : (insertBlankAux l0 rest).get? (j'' + 1) = some l := h
          exact ih l0 j'' h0
    · rw [if_neg hc] at h ⊢
      simp only [List.cons_append, List.nil_append] at h ⊢
      cases j with
      | zero =>
        have h0 : (insertBlankAux l0 rest).get? 0 = some l := h
        have := insertBlank_head_marker h0 hm
        rw [this]
        rfl
      | succ j' =>
        have h0 : (insertBlankAux l0 rest).get? (j' + 1) = some l := h
        exact ih l0 j' h0

/-- C2: on any state whose effective file name and time stamp are
newline-free, serialization puts the event-count line (rendering exactly
the current size of the events mapping) at the fixed position after the
six header lines; the written output is entirely independent of the stored
count attribute; the event blocks appear as the blocks of a permutation of
the events mapping whose keys are in ascending order; and in the final
written line sequence every footer-marker line except a leading one is
immediately preceded by a blank line. -/
theorem claim_C2_serialize_invariants (d : NoddyHistory) (fnameArg timeStr : Line)
    (hfn : '\n' ∉ d.filename.getD fnameArg) (ht : '\n' ∉ timeStr) :
    (write_history_lines d fnameArg timeStr).get? 6 =
        some (S "No of Events\t= " ++ intStr (d.events.length : Int) ++ ['\n']) ∧
      (∀ c, write_history { d with n_events := c } fnameArg timeStr =
        write_history d fnameArg timeStr) ∧
      (∃ evs' : List (Int × Event), evs'.Perm d.events ∧ (evs'.map Prod.fst).Sorted (· ≤ ·) ∧
        write_history_lines d fnameArg timeStr =
          headerLines (d.filename.getD fnameArg) timeStr
            ++ [S "No of Events\t= " ++ intStr (d.events.length : Int) ++ ['\n']]
            ++ evs'.flatMap (fun p => p.2.event_lines)
            ++ (match d.footer_lines with
                | some f => f
                | none => create_footer_from_template)) ∧
      (∀ (j : Nat) (l : Line), (write_history d fnameArg timeStr).get? (j + 1) = some l →
        containsSub blockOptionsAnchor l = true →
        (write_history d fnameArg timeStr).get? j = some ['\n']) := by
  refine ⟨write_history_lines_count_line d fnameArg timeStr hfn ht, fun c => rfl, ?_, ?_⟩
  · refine ⟨sortEvents d.events, List.perm_insertionSort _ _, ?_, rfl⟩
    exact List.Pairwise.map Prod.fst (fun a b hab => hab)
      (List.sorted_insertionSort (fun a b : Int × Event => a.1 ≤ b.1) d.events)
  · intro j l h hm
    exact insertBlank_pred_blank _ _ j l h hm

/-- First event of the C2 witness history. -/
def c2tiltEvent : Event :=
  { event_type := S "TILT"
    event_lines := [S "Event #1\t= TILT\n"]
    event_number := 1
    properties := []
    layers := [] }

/-- Second event of the C2 witness history. -/
def c2faultEvent : Event :=
  { event_type := S "FAULT"
    event_lines := [S "Event #2\t= FAULT\n"]
    event_number := 2
    properties := []
    layers := [] }

/-- The C2 witness history state: events stored out of key order, a stale
count attribute, and a two-line footer. -/
def c2d : NoddyHistory :=
  { history_lines := []
    events := [(2, c2faultEvent), (1, c2tiltEvent)]
    footer_lines := some [S "#BlockOptions\n", S "End\n"]
    filename := none
    n_events := some 7
    event_counter := none
    all_events_begin := 0
    all_events_end := 0 }

/-- Witness for C2 on the concrete state: the count line renders the live
size 2, the stored count attribute does not influence the output, and the
marker line (pushed to position 10 by the inserted blank) has the blank at
position 9 before it. -/
theorem claim_C2_serialize_invariants_witness :
    (write_history_lines c2d (S "out.his") (S "today")).get? 6 =
        some (S "No of Events\t= " ++ intStr (c2d.events.length : Int) ++ ['\n']) ∧
      write_history { c2d with n_events := some 99 } (S "out.his") (S "today") =
        write_history c2d (S "out.his") (S "today") ∧
      (write_history c2d (S "out.his") (S "today")).get? 9 = some ['\n'] :=
  ⟨(claim_C2_serialize_invariants c2d (S "out.his") (S "today") (by decide) (by decide)).1,
    (claim_C2_serialize_invariants c2d (S "out.his") (S "today") (by decide)
      (by decide)).2.1 (some 99),
    (claim_C2_serialize_invariants c2d (S "out.his") (S "today") (by decide)
      (by decide)).2.2.2 9 (S "#BlockOptions\n") rfl (by decide)⟩

/-! Claim C3: helper lemmas for the serialization round trip. -/

/-- A line that triggers none of the three scan anchors. -/
abbrev noAnchors (l : Line) : Prop :=
  containsSub noOfEventsAnchor l = false ∧ containsSub eventHashAnchor l = false ∧
    containsSub blockOptionsAnchor l = false

theorem containsSub_prefix (n rest : Line) : containsSub n (n ++ rest) = true :=
  decide_eq_true ⟨[], rest, by simp⟩

theorem containsSub_of_trans {n m l : Line} (hnm : n <:+: m)
    (h : containsSub m l = true) : containsSub n l = true :=
  decide_eq_true (List.IsInfix.trans hnm (of_decide_eq_true h))

theorem containsSub_false_of_not_mem {c : Char} {n h : Line} (hcn : c ∈ n) (hch : c ∉ h) :
    containsSub n h = false := by
  unfold containsSub
  rw [decide_eq_false]
  intro hinf
  exact hch (hinf.subset hcn)

theorem hash_free_of_marker_free {l : Line}
    (h : containsSub blockOptionsAnchor l = false) :
    containsSub hashBlockOptionsAnchor l = false := by
  by_contra hcon
  rw [← ne_eq, Bool.ne_false_iff] at hcon
  have h2 : containsSub blockOptionsAnchor l = true :=
    containsSub_of_trans (by decide) hcon
  exact absurd h2 (by rw [h]; simp)

theorem marker_of_hash {l : Line} (h : containsSub hashBlockOptionsAnchor l = true) :
    containsSub blockOptionsAnchor l = true :=
  containsSub_of_trans (by decide) h

theorem natDigits_not_B {n : Nat} : 'B' ∉ natDigits n := by
  intro hm
  have := natDigits_all_digit 'B' hm
  exact absurd this (by decide)

theorem intStr_natCast (n : Nat) : intStr (n : Int) = natDigits n := by
  unfold intStr
  rw [if_neg (by omega)]
  congr 1

theorem pyInt_space_digits (n : Nat) :
    pyInt (S " " ++ intStr (n : Int) ++ ['\n']) = some (n : Int) := by
  rw [intStr_natCast]
  unfold pyInt pyStrip
  rw [pyStripR_append_allspace (by intro c hc; simp at hc; rw [hc]; rfl)]
  rw [pyStripR_append_nonspace natDigits_ne_nil
    (fun c hc => digit_nonspace (natDigits_all_digit c hc))]
  rw [show S " " = [' '] ++ ([] : Line) from rfl, List.append_assoc,
    pyStripL_append_allspace (by intro c hc; simp at hc; rw [hc]; rfl)]
  rw [List.nil_append]
  rcases hd : natDigits n with _ | ⟨c, cs⟩
  · exact absurd hd natDigits_ne_nil
  · have hcd : isDigitChar c = true :=
      natDigits_all_digit c (by rw [hd]; exact List.mem_cons_self c cs)
    rw [pyStripL_cons_nonspace (digit_nonspace hcd)]
    unfold pyIntCore
    dsimp only
    rw [if_neg (by intro hcon; rw [hcon] at hcd; exact absurd hcd (by decide)),
      if_neg (by intro hcon; rw [hcon] at hcd; exact absurd hcd (by decide))]
    rw [← hd, parseDigits_natDigits]
    rfl

theorem pySlice_append {α : Type} (P c rest : List α) :
    pySlice (P ++ c ++ rest) (P.length : Int) ((P.length : Int) + (c.length : Int)) = c := by
  have hlen : (P ++ c ++ rest).length = P.length + c.length + rest.length := by
    simp only [List.length_append]
  have hb : pyIdxNorm (P ++ c ++ rest).length ((P.length : Int) + (c.length : Int)) =
      P.length + c.length := by
    unfold pyIdxNorm
    rw [if_neg (by omega),
      show ((P.length : Int) + (c.length : Int)).toNat = P.length + c.length from by omega,
      hlen]
    exact min_eq_left (by omega)
  have ha : pyIdxNorm (P ++ c ++ rest).length ((P.length : Int)) = P.length := by
    unfold pyIdxNorm
    rw [if_neg (by omega), show ((P.length : Int)).toNat = P.length from by omega, hlen]
    exact min_eq_left (by omega)
  unfold pySlice
  rw [hb, ha,
    show P.length + c.length = (P ++ c).length from by simp only [List.length_append],
    List.take_left]
  exact List.drop_left P c

theorem pySlice_two {α : Type} (a : List α) (x y : α) (r : List α) :
    pySlice (a ++ x :: y :: r) (a.length : Int) ((a.length : Int) + 2) = [x, y] := by
  have h := pySlice_append a [x, y] r
  rw [show a ++ [x, y] ++ r = a ++ x :: y :: r from by simp] at h
  rw [show (([x, y] : List α).length : Int) = 2 from by norm_num] at h
  exact h

theorem findIdx_append_none {α : Type} (p : α → Bool) (a b : List α)
    (ha : ∀ x ∈ a, p x = false) :
    (a ++ b).findIdx p = a.length + b.findIdx p := by
  induction a with
  | nil => simp
  | cons x rest ih =>
    rw [List.cons_append, List.findIdx_cons, ha x (List.mem_cons_self x rest)]
    rw [ih (fun z hz => ha z (List.mem_cons_of_mem x hz))]
    simp only [cond_false, List.length_cons]
    omega

theorem getLastD_append_ne {α : Type} (b : List α) (hb : b ≠ []) :
    ∀ (a : List α) (d e : α), (a ++ b).getLastD d = b.getLastD e := by
  intro a
  induction a with
  | nil =>
    intro d e
    rcases b with _ | ⟨x, t⟩
    · exact absurd rfl hb
    · rw [List.nil_append, List.getLastD_cons, List.getLastD_cons]
  | cons y a2 ih =>
    intro d e
    rw [List.cons_append, List.getLastD_cons]
    exact ih y e

theorem insertBlank_no_marker {ls : List Line}
    (h : ∀ l ∈ ls, containsSub blockOptionsAnchor l = false) :
    ∀ prev, insertBlankAux prev ls = ls := by
  induction ls with
  | nil => intro prev; rfl
  | cons l0 rest ih =>
    intro prev
    rw [show insertBlankAux prev (l0 :: rest) =
      (if containsSub blockOptionsAnchor l0 = true ∧ prev ≠ ['\n'] then [['\n'], l0] else [l0])
        ++ insertBlankAux l0 rest from rfl]
    rw [if_neg (by rw [h l0 (List.mem_cons_self l0 rest)]; simp)]
    rw [ih (fun z hz => h z (List.mem_cons_of_mem l0 hz)) l0]
    rfl

theorem insertBlankAux_append (a : List Line) :
    ∀ (prev : Line) (b : List Line),
      insertBlankAux prev (a ++ b) =
        insertBlankAux prev a ++ insertBlankAux (a.getLastD prev) b := by
  induction a with
  | nil => intro prev b; rfl
  | cons l0 rest ih =>
    intro prev b
    rw [List.cons_append,
      show insertBlankAux prev (l0 :: (rest ++ b)) =
        (if containsSub blockOptionsAnchor l0 = true ∧ prev ≠ ['\n'] then [['\n'], l0]
          else [l0]) ++ insertBlankAux l0 (rest ++ b) from rfl,
      show insertBlankAux prev (l0 :: rest) =
        (if containsSub blockOptionsAnchor l0 = true ∧ prev ≠ ['\n'] then [['\n'], l0]
          else [l0]) ++ insertBlankAux l0 rest from rfl,
      ih l0 b, List.getLastD_cons, List.append_assoc]

theorem scanLines_append (a : List Line) :
    ∀ (i : Nat) (b : List Line) (st : ScanState),
      scanLines i (a ++ b) st =
        (scanLines i a st) >>= (fun st1 => scanLines (i + a.length) b st1) := by
  induction a with
  | nil =>
    intro i b st
    simp [scanLines, exceptBindOk]
  | cons l rest ih =>
    intro i b st
    have harith : i + (l :: rest).length = i + 1 + rest.length := by
      simp only [List.length_cons]
      omega
    rw [harith]
    show (scanLine i l st >>= fun st1 => scanLines (i + 1) (rest ++ b) st1) =
      (scanLine i l st >>= fun st1 => scanLines (i + 1) rest st1) >>=
        (fun st1 => scanLines (i + 1 + rest.length) b st1)
    rcases hsl : scanLine i l st with e | st1
    · rfl
    · exact ih (i + 1) b st1

theorem scanLines_noAnchors {ls : List Line} (h : ∀ l ∈ ls, noAnchors l) :
    ∀ (i : Nat) (st : ScanState), scanLines i ls st = .ok st := by
  induction ls with
  | nil => intro i st; rfl
  | cons l rest ih =>
    intro i st
    obtain ⟨h1, h2, h3⟩ := h l (List.mem_cons_self l rest)
    have hsl : scanLine i l st = .ok st := by
      unfold scanLine
      rw [h1, h2, h3]
      rfl
    show (scanLine i l st >>= fun st1 => scanLines (i + 1) rest st1) = .ok st
    rw [hsl, exceptBindOk]
    exact ih (fun z hz => h z (List.mem_cons_of_mem l hz)) (i + 1) st

theorem pyDictSet_absent {κ ν : Type} [DecidableEq κ] {k : κ} {l : List (κ × ν)}
    (h : pyDictGet k l = none) (v : ν) : pyDictSet k v l = l ++ [(k, v)] := by
  unfold pyDictSet
  rw [if_neg]
  intro hany
  obtain ⟨p, hp, hpk⟩ := List.any_eq_true.mp hany
  unfold pyDictGet at h
  rw [Option.map_eq_none', List.find?_eq_none] at h
  exact absurd hpk (h p hp)

theorem pyDictGet_append_none {κ ν : Type} [DecidableEq κ] {k : κ} {a b : List (κ × ν)}
    (ha : pyDictGet k a = none) (hb : pyDictGet k b = none) :
    pyDictGet k (a ++ b) = none := by
  unfold pyDictGet at ha hb ⊢
  rw [Option.map_eq_none', List.find?_eq_none] at ha hb ⊢
  intro x hx
  rcases List.mem_append.mp hx with h | h
  · exact ha x h
  · exact hb x h

/-! The canonical document shape whose round trip C3 asserts: the exact
byte format that write_history itself emits. -/

/-- Event header line in the format written by the event encoders. -/
def blockHead (num : Int) (ty : Line) : Line :=
  S "Event #" ++ (intStr num ++ (S "\t= " ++ (ty ++ ['\n'])))

/-- Full line block of one event. -/
def blockLines (num : Int) (ty : Line) (body : List Line) : List Line :=
  blockHead num ty :: body

/-- Concatenated line blocks of an event listing. -/
def blocksFlat (B : List (Int × Line × List Line)) : List Line :=
  B.flatMap (fun b => blockLines b.1 b.2.1 b.2.2)

/-- Event-count line in the format written by write_history. -/
def cntLine (n : Nat) : Line :=
  S "No of Events" ++ (S "\t= " ++ (intStr (n : Int) ++ ['\n']))

/-- Side conditions on one event block of a canonical document: a
single-digit order number, an `=`-free supported type tag, and no stray
scan anchors on its lines. -/
abbrev goodBlock (b : Int × Line × List Line) : Prop :=
  (1 ≤ b.1 ∧ b.1 ≤ 9) ∧
  '=' ∉ b.2.1 ∧
  eventTypeTag (pyStripR (S " " ++ b.2.1 ++ ['\n'])) ≠ none ∧
  containsSub noOfEventsAnchor (blockHead b.1 b.2.1) = false ∧
  containsSub blockOptionsAnchor (blockHead b.1 b.2.1) = false ∧
  (∀ l ∈ b.2.2, noAnchors l)

/-- Raw scan records produced for the blocks of a canonical document. -/
def rawsOf : Nat → List (Int × Line × List Line) → List RawEvent0
  | _, [] => []
  | i, b :: rest =>
    ⟨pyStripR (S " " ++ b.2.1 ++ ['\n']), b.1, i⟩ :: rawsOf (i + (1 + b.2.2.length)) rest

theorem intStr_nonneg {k : Int} (h : 0 ≤ k) : intStr k = natDigits k.toNat := by
  unfold intStr
  rw [if_neg (by omega)]

theorem intStr_no_eq {k : Int} (h0 : 0 ≤ k) : '=' ∉ intStr k := by
  rw [intStr_nonneg h0]
  intro hm
  exact absurd (natDigits_all_digit _ hm) (by decide)

theorem intStr_digit {k : Int} (h1 : 1 ≤ k) (h9 : k ≤ 9) :
    ∃ dch, intStr k = [dch] ∧ isDigitChar dch = true ∧ pyInt [dch, '\t'] = some k := by
  interval_cases k <;> exact ⟨_, rfl, by decide, by decide⟩

theorem cntLine_marker_free (n : Nat) :
    containsSub blockOptionsAnchor (cntLine n) = false := by
  refine containsSub_false_of_not_mem (show 'B' ∈ blockOptionsAnchor by decide) ?_
  unfold cntLine
  simp only [List.mem_append]
  push_neg
  refine ⟨by decide, by decide, ?_, by decide⟩
  rw [intStr_natCast]
  exact natDigits_not_B

theorem splitChar_blockHead {num : Int} {ty : Line} (h1 : 1 ≤ num) (hty : '=' ∉ ty) :
    splitChar '=' (blockHead num ty) =
      [S "Event #" ++ intStr num ++ ['\t'], S " " ++ ty ++ ['\n']] := by
  have heq : blockHead num ty =
      (S "Event #" ++ intStr num ++ ['\t']) ++ '=' :: (S " " ++ ty ++ ['\n']) := by
    unfold blockHead
    rw [show S "\t= " = ['\t'] ++ '=' :: [' '] from rfl,
      show S " " = ([' '] : Line) from rfl]
    simp [List.append_assoc, List.cons_append, List.singleton_append]
  have hnotin : '=' ∉ S "Event #" ++ intStr num ++ ['\t'] := by
    simp only [List.mem_append]
    push_neg
    exact ⟨⟨by decide, intStr_no_eq (by omega)⟩, by decide⟩
  have hnotin2 : '=' ∉ S " " ++ ty ++ ['\n'] := by
    simp only [List.mem_append]
    push_neg
    exact ⟨⟨by decide, hty⟩, by decide⟩
  rw [heq, splitChar_append_sep hnotin, splitChar_no_sep hnotin2]

theorem scanLine_blockHead {num : Int} {ty : Line} (h1 : 1 ≤ num) (h9 : num ≤ 9)
    (hty : '=' ∉ ty) (hno : containsSub noOfEventsAnchor (blockHead num ty) = false)
    {i : Nat} {st : ScanState} :
    scanLine i (blockHead num ty) st =
      .ok { st with raws := st.raws ++ [⟨pyStripR (S " " ++ ty ++ ['\n']), num, i⟩] } := by
  have hEv : containsSub eventHashAnchor (blockHead num ty) = true :=
    containsSub_prefix eventHashAnchor _
  obtain ⟨dch, hdch, hdig, hpyint⟩ := intStr_digit h1 h9
  have hslice : pyInt (pySlice (blockHead num ty) 7 9) = some num := by
    have hform : blockHead num ty =
        S "Event #" ++ dch :: '\t' :: ('=' :: ' ' :: (ty ++ ['\n'])) := by
      unfold blockHead
      rw [hdch, show S "\t= " = ['\t'] ++ '=' :: [' '] from rfl]
      simp [List.append_assoc, List.cons_append, List.singleton_append]
    rw [hform,
      show (7 : Int) = ((S "Event #").length : Int) from by decide,
      show (9 : Int) = ((S "Event #").length : Int) + 2 from by decide,
      pySlice_two]
    exact hpyint
  unfold scanLine
  rw [if_neg (by simp [hno]), if_pos hEv]
  rw [show (splitChar '=' (blockHead num ty)).get? 1 = some (S " " ++ ty ++ ['\n']) from by
    rw [splitChar_blockHead h1 hty]
    rfl]
  dsimp only
  rw [hslice]

theorem scanLine_cntLine (n : Nat) {i : Nat} {st : ScanState} :
    scanLine i (cntLine n) st = .ok { st with n_events := some (n : Int) } := by
  have hno : containsSub noOfEventsAnchor (cntLine n) = true :=
    containsSub_prefix noOfEventsAnchor _
  have heq : cntLine n =
      (S "No of Events" ++ ['\t']) ++ '=' :: (S " " ++ intStr (n : Int) ++ ['\n']) := by
    unfold cntLine
    rw [show S "\t= " = ['\t'] ++ '=' :: [' '] from rfl,
      show S " " = ([' '] : Line) from rfl]
    simp [List.append_assoc, List.cons_append, List.singleton_append]
  have hnotin2 : '=' ∉ S " " ++ intStr (n : Int) ++ ['\n'] := by
    simp only [List.mem_append]
    push_neg
    exact ⟨⟨by decide, intStr_no_eq (by omega)⟩, by decide⟩
  unfold scanLine
  rw [if_pos hno]
  rw [show (splitChar '=' (cntLine n)).get? 1 =
      some (S " " ++ intStr (n : Int) ++ ['\n']) from by
    rw [heq, splitChar_append_sep (by decide), splitChar_no_sep hnotin2]
    rfl]
  dsimp only
  rw [pyInt_space_digits n]

theorem scanLine_marker {l : Line} (hno : containsSub noOfEventsAnchor l = false)
    (hev : containsSub eventHashAnchor l = false)
    (hbo : containsSub blockOptionsAnchor l = true) {i : Nat} {st : ScanState} :
    scanLine i l st = .ok { st with last_stop := some ((i : Int) - 2) } := by
  unfold scanLine
  rw [hno, hev, hbo]
  rfl

theorem scanLines_blocks (B : List (Int × Line × List Line)) :
    ∀ (hB : ∀ b ∈ B, goodBlock b) (i : Nat) (st : ScanState),
      scanLines i (blocksFlat B) st = .ok { st with raws := st.raws ++ rawsOf i B } := by
  induction B with
  | nil =>
    intro _ i st
    have hr : st.raws ++ rawsOf i [] = st.raws := by
      rw [show rawsOf i [] = [] from rfl, List.append_nil]
    rw [hr]
    rfl
  | cons b rest ih =>
    intro hB i st
    obtain ⟨hnum, hty, htag, hhno, hhbo, hbody⟩ := hB b (List.mem_cons_self b rest)
    have hflat : blocksFlat (b :: rest) =
        blockHead b.1 b.2.1 :: (b.2.2 ++ blocksFlat rest) := by
      simp [blocksFlat, blockLines, List.flatMap_cons, List.cons_append]
    rw [hflat]
    show (scanLine i (blockHead b.1 b.2.1) st >>=
      fun st1 => scanLines (i + 1) (b.2.2 ++ blocksFlat rest) st1) = _
    rw [scanLine_blockHead hnum.1 hnum.2 hty hhno, exceptBindOk,
      scanLines_append b.2.2 (i + 1) (blocksFlat rest) _,
      scanLines_noAnchors hbody (i + 1) _, exceptBindOk,
      ih (fun z hz => hB z (List.mem_cons_of_mem b hz)) (i + 1 + b.2.2.length) _]
    rw [show i + 1 + b.2.2.length = i + (1 + b.2.2.length) from by omega]
    show Except.ok (⟨st.n_events,
        st.raws ++ [⟨pyStripR (S " " ++ b.2.1 ++ ['\n']), b.1, i⟩]
          ++ rawsOf (i + (1 + b.2.2.length)) rest,
        st.last_stop⟩ : ScanState) = _
    rw [show rawsOf i (b :: rest) =
      ⟨pyStripR (S " " ++ b.2.1 ++ ['\n']), b.1, i⟩ ::
        rawsOf (i + (1 + b.2.2.length)) rest from rfl]
    conv_rhs => rw [List.append_cons]

/-- One step of the event-construction fold of determine_events. -/
def buildStep (lines : List Line) (acc : List (Int × Event)) (r : RawEvent) :
    List (Int × Event) :=
  match eventTypeTag r.type with
  | some tag =>
    pyDictSet r.num (decodeEvent tag (pySlice lines (r.line_start : Int) (r.line_end + 1))) acc
  | none => acc

theorem buildEvents_eq_foldl (lines : List Line) (raws : List RawEvent) :
    buildEvents lines raws = raws.foldl (buildStep lines) [] := rfl

/-- The event record decoded from one canonical block. -/
def evOf (b : Int × Line × List Line) : Event :=
  decodeEvent ((eventTypeTag (pyStripR (S " " ++ b.2.1 ++ ['\n']))).getD [])
    (blockLines b.1 b.2.1 b.2.2)

theorem pyDictGet_singleton_ne {κ ν : Type} [DecidableEq κ] {k n : κ} (h : n ≠ k) (v : ν) :
    pyDictGet k [(n, v)] = none := by
  unfold pyDictGet
  simp [List.find?, h]

theorem buildStep_block (lines : List Line) (acc : List (Int × Event))
    (b : Int × Line × List Line) (P Suf : List Line) (tag : Line)
    (hlines2 : lines = P ++ blockLines b.1 b.2.1 b.2.2 ++ Suf)
    (htag : eventTypeTag (pyStripR (S " " ++ b.2.1 ++ ['\n'])) = some tag)
    (hacc : pyDictGet b.1 acc = none)
    (e1 : Int)
    (he1 : e1 + 1 = (P.length : Int) + ((blockLines b.1 b.2.1 b.2.2).length : Int)) :
    buildStep lines acc ⟨pyStripR (S " " ++ b.2.1 ++ ['\n']), b.1, P.length, e1⟩
      = acc ++ [(b.1, evOf b)] := by
  unfold buildStep
  dsimp only
  rw [htag]
  dsimp only
  rw [he1, hlines2, pySlice_append, pyDictSet_absent hacc]
  unfold evOf
  rw [htag]
  rfl

theorem buildEvents_go (lines : List Line) :
    ∀ (B : List (Int × Line × List Line)), ∀ (P Suf : List Line),
      ∀ (acc : List (Int × Event)),
      lines = P ++ blocksFlat B ++ Suf →
      (∀ b ∈ B, goodBlock b) →
      (∀ b ∈ B, pyDictGet b.1 acc = none) →
      (B.map (fun b => b.1)).Nodup →
      B ≠ [] →
      List.foldl (buildStep lines) acc
          (assignEnds (((P.length + (blocksFlat B).length : Nat) : Int) - 1)
            (rawsOf P.length B))
        = acc ++ B.map (fun b => (b.1, evOf b)) := by
  intro B
  induction B with
  | nil =>
    intro P Suf acc _ _ _ _ hne
    exact absurd rfl hne
  | cons b rest ih =>
    intro P Suf acc hlines hgood hacc hnd _
    obtain ⟨hnum, hty, htag0, hhno, hhbo, hbody⟩ := hgood b (List.mem_cons_self b rest)
    obtain ⟨tag, htag⟩ := Option.ne_none_iff_exists'.mp htag0
    have hlines2 : lines =
        P ++ blockLines b.1 b.2.1 b.2.2 ++ (blocksFlat rest ++ Suf) := by
      rw [hlines]
      simp [blocksFlat, List.flatMap_cons, List.append_assoc]
    have hbl : (blockLines b.1 b.2.1 b.2.2).length = 1 + b.2.2.length := by
      simp only [blockLines, List.length_cons]
      omega
    cases rest with
    | nil =>
      have hassign : ∀ s : Int, assignEnds s (rawsOf P.length [b]) =
          [(⟨pyStripR (S " " ++ b.2.1 ++ ['\n']), b.1, P.length, s⟩ : RawEvent)] :=
        fun s => rfl
      rw [hassign]
      have hfold : ∀ (x : RawEvent),
          List.foldl (buildStep lines) acc [x] = buildStep lines acc x := fun x => rfl
      rw [hfold]
      have hLlen : (blocksFlat [b]).length = (blockLines b.1 b.2.1 b.2.2).length := by
        simp [blocksFlat]
      rw [buildStep_block lines acc b P (blocksFlat [] ++ Suf) tag hlines2 htag
        (hacc b (List.mem_cons_self b []))
        (((P.length + (blocksFlat [b]).length : Nat) : Int) - 1)
        (by rw [hLlen]; push_cast; ring)]
      rfl
    | cons b2 rest2 =>
      have hassign : ∀ s : Int, assignEnds s (rawsOf P.length (b :: b2 :: rest2)) =
          (⟨pyStripR (S " " ++ b.2.1 ++ ['\n']), b.1, P.length,
              ((P.length + (1 + b.2.2.length) : Nat) : Int) - 1⟩ : RawEvent) ::
            assignEnds s (rawsOf (P.length + (1 + b.2.2.length)) (b2 :: rest2)) :=
        fun s => rfl
      rw [hassign, List.foldl_cons]
      rw [buildStep_block lines acc b P (blocksFlat (b2 :: rest2) ++ Suf) tag hlines2 htag
        (hacc b (List.mem_cons_self b (b2 :: rest2)))
        (((P.length + (1 + b.2.2.length) : Nat) : Int) - 1)
        (by rw [hbl]; push_cast; ring)]
      have hstopeq : P.length + (blocksFlat (b :: b2 :: rest2)).length =
          (P ++ blockLines b.1 b.2.1 b.2.2).length + (blocksFlat (b2 :: rest2)).length := by
        simp only [blocksFlat, List.flatMap_cons, List.length_append]
        omega
      have hstart : P.length + (1 + b.2.2.length) =
          (P ++ blockLines b.1 b.2.1 b.2.2).length := by
        simp only [List.length_append]
        omega
      rw [hstopeq, hstart]
      have hacc2 : ∀ z ∈ b2 :: rest2,
          pyDictGet z.1 (acc ++ [(b.1, evOf b)]) = none := by
        intro z hz
        refine pyDictGet_append_none (hacc z (List.mem_cons_of_mem b hz)) ?_
        refine pyDictGet_singleton_ne ?_ _
        intro hcon
        have hb1 : b.1 ∈ (b2 :: rest2).map (fun b => b.1) :=
          hcon ▸ List.mem_map_of_mem (fun b => b.1) hz
        exact (List.nodup_cons.mp hnd).1 hb1
      rw [ih (P ++ blockLines b.1 b.2.1 b.2.2) Suf (acc ++ [(b.1, evOf b)])
        (by rw [hlines2]; simp [List.append_assoc])
        (fun z hz => hgood z (List.mem_cons_of_mem b hz))
        hacc2 (List.nodup_cons.mp hnd).2 (by simp)]
      conv_rhs => rw [show (b :: b2 :: rest2).map (fun z => (z.1, evOf z)) =
        (b.1, evOf b) :: (b2 :: rest2).map (fun z => (z.1, evOf z)) from rfl,
        List.append_cons]


theorem get_footer_lines_ne (lines : List Line) (h : lines ≠ []) :
    get_footer_lines lines = .ok (lines.drop
      (if lines.any (fun l => containsSub hashBlockOptionsAnchor l) then
        lines.findIdx (fun l => containsSub hashBlockOptionsAnchor l)
      else lines.length - 1)) := by
  rcases lines with _ | ⟨l0, rest⟩
  · exact absurd rfl h
  · rfl

theorem cntLine_eq (n : Nat) :
    S "No of Events\t= " ++ intStr (n : Int) ++ ['\n'] = cntLine n := by
  unfold cntLine
  rw [show S "No of Events\t= " = S "No of Events" ++ S "\t= " from rfl]
  simp [List.append_assoc]

/-- C3 (corrected): the parse/serialize round trip is the identity on
canonical documents - a regenerated-format header, a canonical count line,
single-digit ascending event keys, a single blank gap line before the
footer marker, and a non-blank final event line.  (The original claim over
all successfully parsed documents is false: the scanner drops the line
just before the footer marker, and serialization replaces it with a blank
line - see the counterexample, where a non-blank gap line is silently lost
with the line count unchanged.) -/
theorem claim_C3_round_trip (fn0 t0 : Line) (B : List (Int × Line × List Line))
    (fl : Line) (F' : List Line)
    (hfn : '\n' ∉ fn0) (ht : '\n' ∉ t0)
    (hH : ∀ l ∈ headerLines fn0 t0, noAnchors l)
    (hB : ∀ b ∈ B, goodBlock b)
    (hBne : B ≠ [])
    (hkeys : (B.map (fun b => b.1)).Pairwise (· < ·))
    (hlast : (blocksFlat B).getLast? ≠ some ['\n'])
    (hfl1 : containsSub hashBlockOptionsAnchor fl = true)
    (hfl2 : containsSub noOfEventsAnchor fl = false)
    (hfl3 : containsSub eventHashAnchor fl = false)
    (hF' : ∀ l ∈ F', noAnchors l) :
    ∃ d, parseDoc (headerLines fn0 t0 ++ [cntLine B.length] ++ blocksFlat B
          ++ [['\n']] ++ (fl :: F')) = .ok d ∧
      write_history d fn0 t0 = headerLines fn0 t0 ++ [cntLine B.length] ++ blocksFlat B
          ++ [['\n']] ++ (fl :: F') := by
  obtain ⟨b0, Brest, rfl⟩ := List.exists_cons_of_ne_nil hBne
  have hHlen : (headerLines fn0 t0).length = 6 := by
    rw [headerLines_eq fn0 t0 hfn ht]
    rfl
  have hblk_marker : ∀ l ∈ blocksFlat (b0 :: Brest),
      containsSub blockOptionsAnchor l = false := by
    intro l hl
    obtain ⟨b, hbB, hlb⟩ := List.mem_flatMap.mp hl
    obtain ⟨_, _, _, _, hhbo, hbody⟩ := hB b hbB
    rcases List.mem_cons.mp hlb with h | h
    · rw [h]
      exact hhbo
    · exact (hbody l h).2.2
  have hblkne : blocksFlat (b0 :: Brest) ≠ [] := by
    simp [blocksFlat, blockLines]
  have hne : headerLines fn0 t0 ++ [cntLine (b0 :: Brest).length]
      ++ blocksFlat (b0 :: Brest) ++ [['\n']] ++ (fl :: F') ≠ [] := by
    intro hcon
    have := congrArg List.length hcon
    simp at this
  have hgap : ∀ (i : Nat) (st : ScanState), scanLine i ['\n'] st = .ok st := fun _ _ => rfl
  have hinp_assoc : headerLines fn0 t0 ++ [cntLine (b0 :: Brest).length]
      ++ blocksFlat (b0 :: Brest) ++ [['\n']] ++ (fl :: F') =
      headerLines fn0 t0 ++ (cntLine (b0 :: Brest).length ::
        (blocksFlat (b0 :: Brest) ++ ('\n' :: []) :: fl :: F')) := by
    simp [List.append_assoc, List.cons_append, List.singleton_append]
  have hs1 : scanLines 0 (headerLines fn0 t0 ++ [cntLine (b0 :: Brest).length]
      ++ blocksFlat (b0 :: Brest) ++ [['\n']] ++ (fl :: F')) ⟨none, [], none⟩ =
      .ok ⟨some (((b0 :: Brest).length : Nat) : Int), rawsOf 7 (b0 :: Brest),
        some (((7 + (blocksFlat (b0 :: Brest)).length + 1 : Nat) : Int) - 2)⟩ := by
    rw [hinp_assoc, scanLines_append (headerLines fn0 t0) 0 _ _,
      scanLines_noAnchors hH 0 _, exceptBindOk,
      show 0 + (headerLines fn0 t0).length = 6 from by rw [Nat.zero_add, hHlen]]
    show (scanLine 6 (cntLine (b0 :: Brest).length) ⟨none, [], none⟩ >>= fun st1 =>
      scanLines 7 (blocksFlat (b0 :: Brest) ++ ('\n' :: []) :: fl :: F') st1) = _
    rw [scanLine_cntLine, exceptBindOk,
      scanLines_append (blocksFlat (b0 :: Brest)) 7 _ _,
      scanLines_blocks (b0 :: Brest) hB 7 _, exceptBindOk]
    show (scanLine (7 + (blocksFlat (b0 :: Brest)).length) ['\n']
        ⟨some (((b0 :: Brest).length : Nat) : Int), [] ++ rawsOf 7 (b0 :: Brest), none⟩ >>=
      fun st1 => scanLines (7 + (blocksFlat (b0 :: Brest)).length + 1) (fl :: F') st1) = _
    rw [hgap, exceptBindOk]
    show (scanLine (7 + (blocksFlat (b0 :: Brest)).length + 1) fl
        ⟨some (((b0 :: Brest).length : Nat) : Int), [] ++ rawsOf 7 (b0 :: Brest), none⟩ >>=
      fun st1 => scanLines (7 + (blocksFlat (b0 :: Brest)).length + 1 + 1) F' st1) = _
    rw [scanLine_marker hfl2 hfl3 (marker_of_hash hfl1), exceptBindOk,
      scanLines_noAnchors hF']
    rw [List.nil_append]
  have hEbuild : buildEvents (headerLines fn0 t0 ++ [cntLine (b0 :: Brest).length]
        ++ blocksFlat (b0 :: Brest) ++ [['\n']] ++ (fl :: F'))
      (assignEnds (((7 + (blocksFlat (b0 :: Brest)).length + 1 : Nat) : Int) - 2)
        (rawsOf 7 (b0 :: Brest))) =
      (b0 :: Brest).map (fun z => (z.1, evOf z)) := by
    rw [buildEvents_eq_foldl]
    rw [show ((7 + (blocksFlat (b0 :: Brest)).length + 1 : Nat) : Int) - 2 =
      ((((headerLines fn0 t0 ++ [cntLine (b0 :: Brest).length]).length
        + (blocksFlat (b0 :: Brest)).length : Nat) : Int) - 1) from by
      simp only [List.length_append, List.length_singleton, hHlen]
      push_cast
      ring]
    rw [show (7 : Nat) =
      (headerLines fn0 t0 ++ [cntLine (b0 :: Brest).length]).length from by
      simp only [List.length_append, List.length_singleton, hHlen]]
    exact buildEvents_go _ (b0 :: Brest)
      (headerLines fn0 t0 ++ [cntLine (b0 :: Brest).length]) (('\n' :: []) :: fl :: F') []
      (by simp [blocksFlat, List.append_assoc, List.cons_append, List.singleton_append])
      hB (fun b _ => rfl)
      (List.Pairwise.imp (fun h => ne_of_lt h) hkeys)
      (by simp)
  have hdet : determine_events (headerLines fn0 t0 ++ [cntLine (b0 :: Brest).length]
      ++ blocksFlat (b0 :: Brest) ++ [['\n']] ++ (fl :: F')) =
      .ok ⟨some (((b0 :: Brest).length : Nat) : Int),
        assignEnds (((7 + (blocksFlat (b0 :: Brest)).length + 1 : Nat) : Int) - 2)
          (rawsOf 7 (b0 :: Brest)),
        (b0 :: Brest).map (fun z => (z.1, evOf z)),
        ((7 : Nat) : Int),
        ((assignEnds (((7 + (blocksFlat (b0 :: Brest)).length + 1 : Nat) : Int) - 2)
          (rawsOf 7 (b0 :: Brest))).getLastD default).line_end⟩ := by
    unfold determine_events
    rw [hs1]
    simp only [exceptBindOk]
    rw [show rawsOf 7 (b0 :: Brest) =
      ⟨pyStripR (S " " ++ b0.2.1 ++ ['\n']), b0.1, 7⟩ ::
        rawsOf (7 + (1 + b0.2.2.length)) Brest from rfl]
    dsimp only
    rw [show (⟨pyStripR (S " " ++ b0.2.1 ++ ['\n']), b0.1, 7⟩ ::
        rawsOf (7 + (1 + b0.2.2.length)) Brest : List RawEvent0) =
      rawsOf 7 (b0 :: Brest) from rfl]
    rw [hEbuild]
  have hprefhash : ∀ x ∈ headerLines fn0 t0 ++ [cntLine (b0 :: Brest).length]
      ++ blocksFlat (b0 :: Brest) ++ [['\n']],
      containsSub hashBlockOptionsAnchor x = false := by
    intro x hx
    rcases List.mem_append.mp hx with hx1 | hxg
    · rcases List.mem_append.mp hx1 with hx2 | hxb
      · rcases List.mem_append.mp hx2 with hxh | hxc
        · exact hash_free_of_marker_free (hH x hxh).2.2
        · rw [List.mem_singleton.mp hxc]
          exact hash_free_of_marker_free (cntLine_marker_free _)
      · exact hash_free_of_marker_free (hblk_marker x hxb)
    · rw [List.mem_singleton.mp hxg]
      decide
  have hany : ((headerLines fn0 t0 ++ [cntLine (b0 :: Brest).length]
      ++ blocksFlat (b0 :: Brest) ++ [['\n']]) ++ (fl :: F')).any
        (fun l => containsSub hashBlockOptionsAnchor l) = true :=
    List.any_eq_true.mpr ⟨fl, by simp, hfl1⟩
  have hfind : ((headerLines fn0 t0 ++ [cntLine (b0 :: Brest).length]
      ++ blocksFlat (b0 :: Brest) ++ [['\n']]) ++ (fl :: F')).findIdx
        (fun l => containsSub hashBlockOptionsAnchor l) =
      (headerLines fn0 t0 ++ [cntLine (b0 :: Brest).length]
        ++ blocksFlat (b0 :: Brest) ++ [['\n']]).length := by
    rw [findIdx_append_none _ _ (fl :: F') hprefhash, List.findIdx_cons, hfl1]
    rfl
  have hf : get_footer_lines (headerLines fn0 t0 ++ [cntLine (b0 :: Brest).length]
      ++ blocksFlat (b0 :: Brest) ++ [['\n']] ++ (fl :: F')) = .ok (fl :: F') := by
    rw [get_footer_lines_ne _ hne, if_pos hany, hfind]
    exact congrArg Except.ok (List.drop_left _ _)
  refine ⟨⟨headerLines fn0 t0 ++ [cntLine (b0 :: Brest).length]
      ++ blocksFlat (b0 :: Brest) ++ [['\n']] ++ (fl :: F'),
    (b0 :: Brest).map (fun z => (z.1, evOf z)),
    some (fl :: F'), none, some (((b0 :: Brest).length : Nat) : Int), none,
    ((7 : Nat) : Int),
    ((assignEnds (((7 + (blocksFlat (b0 :: Brest)).length + 1 : Nat) : Int) - 2)
      (rawsOf 7 (b0 :: Brest))).getLastD default).line_end, none⟩, ?_, ?_⟩
  · unfold parseDoc
    rw [hf]
    simp only [exceptBindOk]
    rw [hdet]
    rfl
  · have hsorted : List.Sorted (fun a b : Int × Event => a.1 ≤ b.1)
        ((b0 :: Brest).map (fun z => (z.1, evOf z))) :=
      List.pairwise_map.mpr ((List.pairwise_map.mp hkeys).imp (fun h => le_of_lt h))
    have hsort : sortEvents ((b0 :: Brest).map (fun z => (z.1, evOf z))) =
        (b0 :: Brest).map (fun z => (z.1, evOf z)) := hsorted.insertionSort_eq
    have hflatE : ((b0 :: Brest).map (fun z => (z.1, evOf z))).flatMap
        (fun p => p.2.event_lines) = blocksFlat (b0 :: Brest) := by
      rw [List.flatMap_map]
      rfl
    have hwl : write_history_lines ⟨headerLines fn0 t0 ++ [cntLine (b0 :: Brest).length]
          ++ blocksFlat (b0 :: Brest) ++ [['\n']] ++ (fl :: F'),
        (b0 :: Brest).map (fun z => (z.1, evOf z)),
        some (fl :: F'), none, some (((b0 :: Brest).length : Nat) : Int), none,
        ((7 : Nat) : Int),
        ((assignEnds (((7 + (blocksFlat (b0 :: Brest)).length + 1 : Nat) : Int) - 2)
          (rawsOf 7 (b0 :: Brest))).getLastD default).line_end, none⟩ fn0 t0 =
        headerLines fn0 t0 ++ [cntLine (b0 :: Brest).length]
          ++ blocksFlat (b0 :: Brest) ++ (fl :: F') := by
      show headerLines fn0 t0
          ++ [S "No of Events\t= "
            ++ intStr ((((b0 :: Brest).map (fun z => (z.1, evOf z))).length : Nat) : Int)
            ++ ['\n']]
          ++ (sortEvents ((b0 :: Brest).map (fun z => (z.1, evOf z)))).flatMap
            (fun p => p.2.event_lines)
          ++ (fl :: F') = _
      rw [hsort, hflatE, List.length_map, cntLine_eq]
    show insertBlankAux ((write_history_lines _ fn0 t0).getLastD [])
      (write_history_lines _ fn0 t0) = _
    rw [hwl]
    rw [insertBlankAux_append (headerLines fn0 t0 ++ [cntLine (b0 :: Brest).length]
      ++ blocksFlat (b0 :: Brest)) _ (fl :: F')]
    have hAmarker : ∀ l ∈ headerLines fn0 t0 ++ [cntLine (b0 :: Brest).length]
        ++ blocksFlat (b0 :: Brest), containsSub blockOptionsAnchor l = false := by
      intro x hx
      rcases List.mem_append.mp hx with hx2 | hxb
      · rcases List.mem_append.mp hx2 with hxh | hxc
        · exact (hH x hxh).2.2
        · rw [List.mem_singleton.mp hxc]
          exact cntLine_marker_free _
      · exact hblk_marker x hxb
    rw [insertBlank_no_marker hAmarker]
    rw [getLastD_append_ne (blocksFlat (b0 :: Brest)) hblkne
      (headerLines fn0 t0 ++ [cntLine (b0 :: Brest).length]) _ []]
    obtain ⟨w, hw⟩ : ∃ w, (blocksFlat (b0 :: Brest)).getLast? = some w := by
      rcases hglo : (blocksFlat (b0 :: Brest)).getLast? with _ | w
      · exact absurd (List.getLast?_eq_none.mp hglo) hblkne
      · exact ⟨w, rfl⟩
    rw [List.getLastD_eq_getLast?, hw, Option.getD_some]
    have hwne : w ≠ ['\n'] := by
      intro hcon
      rw [hcon] at hw
      exact hlast hw
    rw [show insertBlankAux w (fl :: F') =
      (if containsSub blockOptionsAnchor fl = true ∧ w ≠ ['\n'] then [['\n'], fl]
        else [fl]) ++ insertBlankAux fl F' from rfl]
    rw [if_pos ⟨marker_of_hash hfl1, hwne⟩]
    rw [insertBlank_no_marker (fun z hz => (hF' z hz).2.2) fl]
    simp [List.append_assoc, List.cons_append, List.singleton_append]

/-- Witness for C3 at a concrete one-event canonical document. -/
theorem claim_C3_round_trip_witness :
    ∃ d, parseDoc (headerLines (S "t.his") (S "today")
          ++ [cntLine ([((1 : Int), S "TILT", [S "\tX = 0\n"])]).length]
          ++ blocksFlat [((1 : Int), S "TILT", [S "\tX = 0\n"])]
          ++ [['\n']] ++ (S "#BlockOptions\n" :: [S "End\n"])) = .ok d ∧
      write_history d (S "t.his") (S "today") =
        headerLines (S "t.his") (S "today")
          ++ [cntLine ([((1 : Int), S "TILT", [S "\tX = 0\n"])]).length]
          ++ blocksFlat [((1 : Int), S "TILT", [S "\tX = 0\n"])]
          ++ [['\n']] ++ (S "#BlockOptions\n" :: [S "End\n"]) :=
  claim_C3_round_trip (S "t.his") (S "today") [((1 : Int), S "TILT", [S "\tX = 0\n"])]
    (S "#BlockOptions\n") [S "End\n"] (by decide) (by decide) (by decide) (by decide)
    (by decide) (by decide) (by decide) (by decide) (by decide) (by decide) (by decide)

/-- A document that parses successfully but whose gap line before the
footer marker is not blank. -/
def c3bad : List Line :=
  [S "#Filename = t.his \n", S "#Date Saved = today\n", S "FileType = 111\n",
   S "Version = 7.11\n", ['\n'], ['\n'],
   S "No of Events\t= 1\n", S "Event #1\t= TILT\n", S "\tX = 0\n",
   S "junk\n", S "#BlockOptions\n", S "End\n"]

/-- Counterexample for C3: the document loads, but re-serialization does
not reproduce it - the non-blank line before the footer marker is replaced
by a blank line (the output has the same length as the input, so the
discrepancy is not an added separator), which the claim's allowed
differences do not cover.  The header is regenerated identically, so the
save-timestamp exemption does not apply either. -/
theorem claim_C3_round_trip_cex :
    ∃ d, parseDoc c3bad = .ok d ∧
      write_history d (S "t.his") (S "today") =
        c3bad.take 9 ++ [['\n']] ++ c3bad.drop 10 ∧
      write_history d (S "t.his") (S "today") ≠ c3bad ∧
      (write_history d (S "t.his") (S "today")).length = c3bad.length := by
  refine ⟨_, rfl, by decide, by decide, by decide⟩
